import Mathlib

/-!
# Yummio backend: ownership checks and aggregate composition

A shallow embedding of the Yummio recipe backend: the models, repositories and
services (`internal/models`, `internal/repositories`, `internal/services`),
the handlers of single aggregates and of listings (`internal/handlers`), the
auth and rate-limit middleware (`internal/middleware`) and the parts of the
configuration they read (`internal/config`).

Modelling conventions

* `uuid.UUID` is a natural number, `uuid.Nil` is `0`, and `uuid.New()` draws
  the next value of a counter kept beside the tables.
* The relational store behind GORM is a record of tables, each a list of rows
  in insertion order.  `First` returns the first live row matching the
  condition, or the error `record not found`.
* Go `error` values are their message strings; a service call returns its
  result together with the store it leaves behind.
* `float64` columns are rationals; timestamps are not modelled, except for the
  soft-delete marker `DeletedAt`, kept as its `Valid` flag, and for the times
  of a user row.  The clock `time.Now()` is an argument `now`, in nanoseconds.
* `Create` and `Save` are modelled by the write of the struct they are given
  (`Save` writes every column of the row with the struct's id and inserts the
  row when there is none); `Create` on a new aggregate also writes the has-one
  and has-many children held in the struct and, for a recipe, its
  many-to-many tags.  The association upserts GORM issues inside `Save` are not
  modelled: there the explicit statements that follow determine the rows.
* Constraint violations raised by the database engine and connection failures
  are outside the model: a statement on the store always executes.  The one
  exception is `tx.Create(recipe)`, where the unique index on `tags.name` and
  the foreign key of `recipe_tags` on `tags` decide whether the call succeeds.
-/

set_option linter.dupNamespace false

namespace Yummio

/-! ## Models -/

abbrev UUID := Nat

/-- The zero identifier `uuid.Nil`. -/
def uuidNil : UUID := 0

/-- Row of `tags` (`models.Tag`). -/
structure Tag where
  ID : UUID
  Name : String
  Color : Option String
deriving DecidableEq, Repr

/-- Row of `ingredients` (`models.Ingredient`). -/
structure Ingredient where
  ID : UUID
  RecipeID : UUID
  Name : String
  Amount : Option ℚ
  Unit : Option String
  Notes : Option String
  OrderIndex : Int
deriving DecidableEq, Repr

/-- Row of `instructions` (`models.Instruction`). -/
structure Instruction where
  ID : UUID
  RecipeID : UUID
  Step : Int
  Instruction : String
  ImageURL : Option String
  TimerMinutes : Option Int
deriving DecidableEq, Repr

/-- Row of `nutritions` (`models.Nutrition`). -/
structure Nutrition where
  ID : UUID
  RecipeID : UUID
  Calories : Option Int
  Protein : Option ℚ
  Carbs : Option ℚ
  Fat : Option ℚ
  Fiber : Option ℚ
  Sugar : Option ℚ
  Sodium : Option ℚ
  Cholesterol : Option ℚ
deriving DecidableEq, Repr

/-- Row of `ratings` (`models.Rating`). -/
structure Rating where
  ID : UUID
  UserID : UUID
  RecipeID : UUID
  Rating : Int
  Review : Option String
deriving DecidableEq, Repr

/-- The struct `models.Recipe`: the columns of `recipes` followed by the
relationship fields that `Preload` fills.  The Go field `Type` is `Type_`. -/
structure Recipe where
  ID : UUID
  UserID : UUID
  Title : String
  Description : Option String
  ImageURL : Option String
  PrepTime : Option Int
  CookTime : Option Int
  Servings : Option Int
  Difficulty : Option String
  Type_ : Option String
  Rating : ℚ
  RatingCount : Int
  IsPublic : Bool
  DeletedAt : Bool
  Ingredients : List Ingredient
  Instructions : List Instruction
  Tags : List Tag
  Nutrition : Option Nutrition
deriving DecidableEq, Repr

/-- The struct `models.Collection`; `Recipes` is filled by `Preload`. -/
structure Collection where
  ID : UUID
  UserID : UUID
  Name : String
  Description : Option String
  ImageURL : Option String
  IsPublic : Bool
  DeletedAt : Bool
  Recipes : List Recipe
deriving DecidableEq, Repr

/-- Row of `shopping_list_items` (`models.ShoppingListItem`). -/
structure ShoppingListItem where
  ID : UUID
  ShoppingListID : UUID
  Name : String
  Amount : Option ℚ
  Unit : Option String
  Notes : Option String
  Completed : Bool
  OrderIndex : Int
deriving DecidableEq, Repr

/-- The struct `models.ShoppingList`; `Items` is filled by `Preload`. -/
structure ShoppingList where
  ID : UUID
  UserID : UUID
  Name : String
  DeletedAt : Bool
  Items : List ShoppingListItem
deriving DecidableEq, Repr

/-- Request body `models.IngredientCreateRequest`. -/
structure IngredientCreateRequest where
  Name : String
  Amount : Option ℚ
  Unit : Option String
  Notes : Option String
  OrderIndex : Option Int
deriving DecidableEq, Repr

/-- Request body `models.InstructionCreateRequest`. -/
structure InstructionCreateRequest where
  Step : Int
  Instruction : String
  ImageURL : Option String
  TimerMinutes : Option Int
deriving DecidableEq, Repr

/-- Request body `models.NutritionCreateRequest`. -/
structure NutritionCreateRequest where
  Calories : Option Int
  Protein : Option ℚ
  Carbs : Option ℚ
  Fat : Option ℚ
  Fiber : Option ℚ
  Sugar : Option ℚ
  Sodium : Option ℚ
  Cholesterol : Option ℚ
deriving DecidableEq, Repr

/-- Request body `models.RecipeCreateRequest`. -/
structure RecipeCreateRequest where
  Title : String
  Description : Option String
  ImageURL : Option String
  PrepTime : Option Int
  CookTime : Option Int
  Servings : Option Int
  Difficulty : Option String
  Type_ : Option String
  IsPublic : Option Bool
  Ingredients : List IngredientCreateRequest
  Instructions : List InstructionCreateRequest
  Tags : List String
  Nutrition : Option NutritionCreateRequest
deriving DecidableEq, Repr

/-- Request body `models.RateRecipeRequest`. -/
structure RateRecipeRequest where
  Rating : Int
  Review : Option String
deriving DecidableEq, Repr

/-- Request body `models.CollectionUpdateRequest`. -/
structure CollectionUpdateRequest where
  Name : Option String
  Description : Option String
  ImageURL : Option String
  IsPublic : Option Bool
deriving DecidableEq, Repr

/-- Request body `models.ShoppingListUpdateRequest`. -/
structure ShoppingListUpdateRequest where
  Name : Option String
deriving DecidableEq, Repr

/-- Request body `models.ShoppingListItemCreateRequest`. -/
structure ShoppingListItemCreateRequest where
  Name : String
  Amount : Option ℚ
  Unit : Option String
  Notes : Option String
  OrderIndex : Option Int
deriving DecidableEq, Repr

/-- Request body `models.ShoppingListItemUpdateRequest`. -/
structure ShoppingListItemUpdateRequest where
  Name : Option String
  Amount : Option ℚ
  Unit : Option String
  Notes : Option String
  Completed : Option Bool
  OrderIndex : Option Int
deriving DecidableEq, Repr

/-- Query parameters `models.RecipeQuery`. -/
structure RecipeQuery where
  Page : Int
  Limit : Int
  Search : Option String
  Difficulty : Option String
  Type_ : Option String
  Tags : List String
  UserID : Option String
  SortBy : Option String
  SortOrder : Option String
deriving DecidableEq, Repr

/-- A stored password hash string: the output of bcrypt for a password
under a cost and a salt, or some other text.  The hash is ideal: comparing
succeeds for the hashed password only. -/
inductive HashString where
  | bcrypt (cost : Nat) (salt : Nat) (password : String)
  | other (text : String)
deriving DecidableEq, Repr

/-- Row of `users` (`models.User`), its relationship fields left out.  The
creation and update times are kept, in nanoseconds, because the response
projection carries `CreatedAt`. -/
structure User where
  ID : UUID
  Name : String
  Email : String
  PasswordHash : HashString
  AvatarURL : Option String
  IsVerified : Bool
  IsAdmin : Bool
  CreatedAt : Int
  UpdatedAt : Int
  DeletedAt : Bool
deriving DecidableEq, Repr

/-- Request body `models.UserCreateRequest`. -/
structure UserCreateRequest where
  Name : String
  Email : String
  Password : String
deriving DecidableEq, Repr

/-- The projection `models.UserResponse`. -/
structure UserResponse where
  ID : UUID
  Name : String
  Email : String
  AvatarURL : Option String
  CreatedAt : Int
deriving DecidableEq, Repr

/-- `(*User).ToResponse`. -/
def User.ToResponse (u : User) : UserResponse :=
  { ID := u.ID, Name := u.Name, Email := u.Email, AvatarURL := u.AvatarURL,
    CreatedAt := u.CreatedAt }

/-- Hook `(*User).BeforeCreate`. -/
def User.BeforeCreate (u : User) (fresh : UUID) : User :=
  if u.ID == uuidNil then { u with ID := fresh } else u

/-- Request body `models.ShoppingListCreateRequest`. -/
structure ShoppingListCreateRequest where
  Name : String
  Items : List ShoppingListItemCreateRequest
deriving DecidableEq, Repr

/-- The projection `models.ShoppingListResponse`, its timestamps left out. -/
structure ShoppingListResponse where
  ID : UUID
  Name : String
  ItemCount : Int
  CompletedCount : Int
deriving DecidableEq, Repr

/-- `(*ShoppingList).ToResponse`: the loop counts the completed items. -/
def ShoppingList.ToResponse (l : ShoppingList) : ShoppingListResponse :=
  { ID := l.ID, Name := l.Name, ItemCount := (l.Items.length : Int),
    CompletedCount := l.Items.foldl (fun n item => if item.Completed then n + 1 else n) 0 }

/-! ## The store -/

/-- The tables reached through `*gorm.DB`, with the identifier counter. -/
structure Store where
  recipes : List Recipe
  ingredients : List Ingredient
  instructions : List Instruction
  tags : List Tag
  recipe_tags : List (UUID × UUID)
  ratings : List Rating
  nutritions : List Nutrition
  user_favorites : List (UUID × UUID)
  collections : List Collection
  collection_recipes : List (UUID × UUID)
  shopping_lists : List ShoppingList
  shopping_list_items : List ShoppingListItem
  users : List User
  nextID : Nat
deriving DecidableEq, Repr

/-- The store with no rows. -/
def Store.empty : Store :=
  { recipes := [], ingredients := [], instructions := [], tags := [], recipe_tags := [],
    ratings := [], nutritions := [], user_favorites := [], collections := [],
    collection_recipes := [], shopping_lists := [], shopping_list_items := [], users := [],
    nextID := 0 }

/-- The identifier `uuid.New()` returns next; it is never `uuid.Nil`. -/
def Store.newUUID (s : Store) : UUID := s.nextID + 1

/-- The store once `uuid.New()` has been drawn. -/
def Store.bumpUUID (s : Store) : Store := { s with nextID := s.nextID + 1 }

/-- The error `gorm.ErrRecordNotFound`. -/
def ErrRecordNotFound : String := "record not found"

/-- Result of `First`: the row found, or `gorm.ErrRecordNotFound`. -/
def firstOr {α : Type} (o : Option α) : Except String α :=
  match o with
  | some a => .ok a
  | none => .error ErrRecordNotFound

/-- Columns of a recipe struct, its relationship fields dropped. -/
def Recipe.row (r : Recipe) : Recipe :=
  { r with Ingredients := [], Instructions := [], Tags := [], Nutrition := none }

/-- Columns of a collection struct. -/
def Collection.row (c : Collection) : Collection := { c with Recipes := [] }

/-- Columns of a shopping-list struct. -/
def ShoppingList.row (l : ShoppingList) : ShoppingList := { l with Items := [] }

/-- Insert `p` into a join table with `ON CONFLICT DO NOTHING`. -/
def insertPair (p : UUID × UUID) (t : List (UUID × UUID)) : List (UUID × UUID) :=
  if p ∈ t then t else t ++ [p]

/-! ## Collection repository (`collection_repository.go`) -/

namespace collectionRepository

/-- Rows `Preload("Recipes")` attaches to a collection: the live recipes linked
through `collection_recipes`. -/
def preloadRecipes (s : Store) (collectionID : UUID) : List Recipe :=
  s.recipes.filter
    (fun r => decide ((collectionID, r.ID) ∈ s.collection_recipes) && !r.DeletedAt)

/-- `GetByID`: first live collection with this id, recipes preloaded. -/
def GetByID (s : Store) (id : UUID) : Except String Collection :=
  match firstOr (s.collections.find? (fun c => c.ID == id && !c.DeletedAt)) with
  | .ok c => .ok { c with Recipes := preloadRecipes s id }
  | .error e => .error e

/-- `Update`: `Save` writes every column of the row with the struct's id, and
inserts the row when there is none. -/
def Update (s : Store) (c : Collection) : Store :=
  if s.collections.any (fun x => x.ID == c.ID) then
    { s with collections := s.collections.map (fun x => if x.ID == c.ID then c.row else x) }
  else
    { s with collections := s.collections ++ [c.row] }

/-- `Delete`: soft delete, `deleted_at` is set on the live row with this id. -/
def Delete (s : Store) (id : UUID) : Store :=
  { s with collections :=
      s.collections.map (fun x => if x.ID == id then { x with DeletedAt := true } else x) }

/-- `AddRecipe`: insert into `collection_recipes`, `ON CONFLICT DO NOTHING`. -/
def AddRecipe (s : Store) (collectionID recipeID : UUID) : Store :=
  { s with collection_recipes := insertPair (collectionID, recipeID) s.collection_recipes }

/-- `RemoveRecipe`: delete the link row. -/
def RemoveRecipe (s : Store) (collectionID recipeID : UUID) : Store :=
  { s with collection_recipes :=
      s.collection_recipes.filter (fun p => !(p == (collectionID, recipeID))) }

end collectionRepository

/-! ## Collection service (`collection_service.go`) -/

namespace collectionService

/-- `GetCollection(userID, collectionID)`. -/
def GetCollection (s : Store) (userID collectionID : UUID) : Except String Collection × Store :=
  match collectionRepository.GetByID s collectionID with
  | .error e => (.error e, s)
  | .ok collection =>
    if collection.UserID != userID && !collection.IsPublic then
      (.error "unauthorized to access this collection", s)
    else
      (.ok collection, s)

/-- `UpdateCollection(userID, collectionID, req)`. -/
def UpdateCollection (s : Store) (userID collectionID : UUID) (req : CollectionUpdateRequest) :
    Except String Collection × Store :=
  match collectionRepository.GetByID s collectionID with
  | .error e => (.error e, s)
  | .ok collection =>
    if collection.UserID != userID then
      (.error "unauthorized to update this collection", s)
    else
      let collection := match req.Name with
        | some n => { collection with Name := n }
        | none => collection
      let collection := match req.Description with
        | some d => { collection with Description := some d }
        | none => collection
      let collection := match req.ImageURL with
        | some u => { collection with ImageURL := some u }
        | none => collection
      let collection := match req.IsPublic with
        | some p => { collection with IsPublic := p }
        | none => collection
      let s1 := collectionRepository.Update s collection
      (collectionRepository.GetByID s1 collection.ID, s1)

/-- `DeleteCollection(userID, collectionID)`. -/
def DeleteCollection (s : Store) (userID collectionID : UUID) : Except String Unit × Store :=
  match collectionRepository.GetByID s collectionID with
  | .error e => (.error e, s)
  | .ok collection =>
    if collection.UserID != userID then
      (.error "unauthorized to delete this collection", s)
    else
      (.ok (), collectionRepository.Delete s collectionID)

/-- `AddRecipeToCollection(userID, collectionID, recipeID)`. -/
def AddRecipeToCollection (s : Store) (userID collectionID recipeID : UUID) :
    Except String Unit × Store :=
  match collectionRepository.GetByID s collectionID with
  | .error e => (.error e, s)
  | .ok collection =>
    if collection.UserID != userID then
      (.error "unauthorized to modify this collection", s)
    else
      (.ok (), collectionRepository.AddRecipe s collectionID recipeID)

/-- `RemoveRecipeFromCollection(userID, collectionID, recipeID)`. -/
def RemoveRecipeFromCollection (s : Store) (userID collectionID recipeID : UUID) :
    Except String Unit × Store :=
  match collectionRepository.GetByID s collectionID with
  | .error e => (.error e, s)
  | .ok collection =>
    if collection.UserID != userID then
      (.error "unauthorized to modify this collection", s)
    else
      (.ok (), collectionRepository.RemoveRecipe s collectionID recipeID)

end collectionService

/-! ## Shopping-list repository (`shopping_list_repository.go`) -/

/-- The hook `(*ShoppingListItem).BeforeCreate`: a nil id is replaced by
`uuid.New()`, here `fresh`. -/
def ShoppingListItem.BeforeCreate (i : ShoppingListItem) (fresh : UUID) : ShoppingListItem :=
  if i.ID == uuidNil then { i with ID := fresh } else i

namespace shoppingListRepository

/-- Rows `Preload("Items")` attaches to a shopping list. -/
def preloadItems (s : Store) (listID : UUID) : List ShoppingListItem :=
  s.shopping_list_items.filter (fun i => i.ShoppingListID == listID)

/-- `GetByID`: first live shopping list with this id, items preloaded. -/
def GetByID (s : Store) (id : UUID) : Except String ShoppingList :=
  match firstOr (s.shopping_lists.find? (fun l => l.ID == id && !l.DeletedAt)) with
  | .ok l => .ok { l with Items := preloadItems s id }
  | .error e => .error e

/-- `Update`: `Save` writes every column of the row with the struct's id, and
inserts the row when there is none. -/
def Update (s : Store) (l : ShoppingList) : Store :=
  if s.shopping_lists.any (fun x => x.ID == l.ID) then
    { s with shopping_lists := s.shopping_lists.map (fun x => if x.ID == l.ID then l.row else x) }
  else
    { s with shopping_lists := s.shopping_lists ++ [l.row] }

/-- `Delete`: soft delete of the list row. -/
def Delete (s : Store) (id : UUID) : Store :=
  { s with shopping_lists :=
      s.shopping_lists.map (fun x => if x.ID == id then { x with DeletedAt := true } else x) }

/-- `AddItem`: `Create` runs the hook and inserts the row; the struct comes
back with its id. -/
def AddItem (s : Store) (item : ShoppingListItem) : ShoppingListItem × Store :=
  let item := item.BeforeCreate s.newUUID
  (item, { s.bumpUUID with shopping_list_items := s.shopping_list_items ++ [item] })

/-- `UpdateItem`: `Save` on the item row. -/
def UpdateItem (s : Store) (item : ShoppingListItem) : Store :=
  if s.shopping_list_items.any (fun x => x.ID == item.ID) then
    { s with shopping_list_items :=
        s.shopping_list_items.map (fun x => if x.ID == item.ID then item else x) }
  else
    { s with shopping_list_items := s.shopping_list_items ++ [item] }

/-- `DeleteItem`: the item row is removed (the model has no `DeletedAt`). -/
def DeleteItem (s : Store) (id : UUID) : Store :=
  { s with shopping_list_items := s.shopping_list_items.filter (fun x => !(x.ID == id)) }

/-- `GetItem`: first item row with this id. -/
def GetItem (s : Store) (id : UUID) : Except String ShoppingListItem :=
  firstOr (s.shopping_list_items.find? (fun i => i.ID == id))

end shoppingListRepository

/-! ## Shopping-list service (`shopping_list_service.go`) -/

namespace shoppingListService

/-- `GetShoppingList(userID, listID)`. -/
def GetShoppingList (s : Store) (userID listID : UUID) : Except String ShoppingList × Store :=
  match shoppingListRepository.GetByID s listID with
  | .error e => (.error e, s)
  | .ok list =>
    if list.UserID != userID then
      (.error "unauthorized to access this shopping list", s)
    else
      (.ok list, s)

/-- `UpdateShoppingList(userID, listID, req)`. -/
def UpdateShoppingList (s : Store) (userID listID : UUID) (req : ShoppingListUpdateRequest) :
    Except String ShoppingList × Store :=
  match shoppingListRepository.GetByID s listID with
  | .error e => (.error e, s)
  | .ok list =>
    if list.UserID != userID then
      (.error "unauthorized to update this shopping list", s)
    else
      let list := match req.Name with
        | some n => { list with Name := n }
        | none => list
      let s1 := shoppingListRepository.Update s list
      (shoppingListRepository.GetByID s1 list.ID, s1)

/-- `DeleteShoppingList(userID, listID)`. -/
def DeleteShoppingList (s : Store) (userID listID : UUID) : Except String Unit × Store :=
  match shoppingListRepository.GetByID s listID with
  | .error e => (.error e, s)
  | .ok list =>
    if list.UserID != userID then
      (.error "unauthorized to delete this shopping list", s)
    else
      (.ok (), shoppingListRepository.Delete s listID)

/-- `AddItem(userID, listID, req)`. -/
def AddItem (s : Store) (userID listID : UUID) (req : ShoppingListItemCreateRequest) :
    Except String ShoppingListItem × Store :=
  match shoppingListRepository.GetByID s listID with
  | .error e => (.error e, s)
  | .ok list =>
    if list.UserID != userID then
      (.error "unauthorized to modify this shopping list", s)
    else
      let item : ShoppingListItem :=
        { ID := uuidNil, ShoppingListID := listID, Name := req.Name, Amount := req.Amount,
          Unit := req.Unit, Notes := req.Notes, Completed := false,
          OrderIndex := (list.Items.length : Int) }
      let item := match req.OrderIndex with
        | some i => { item with OrderIndex := i }
        | none => item
      let r := shoppingListRepository.AddItem s item
      (shoppingListRepository.GetItem r.2 r.1.ID, r.2)

/-- The field updates `UpdateItem` applies to the loaded item. -/
def applyItemUpdate (item : ShoppingListItem) (req : ShoppingListItemUpdateRequest) :
    ShoppingListItem :=
  let item := match req.Name with
    | some n => { item with Name := n }
    | none => item
  let item := match req.Amount with
    | some a => { item with Amount := some a }
    | none => item
  let item := match req.Unit with
    | some u => { item with Unit := some u }
    | none => item
  let item := match req.Notes with
    | some n => { item with Notes := some n }
    | none => item
  let item := match req.Completed with
    | some c => { item with Completed := c }
    | none => item
  match req.OrderIndex with
  | some i => { item with OrderIndex := i }
  | none => item

/-- `UpdateItem(userID, listID, itemID, req)`. -/
def UpdateItem (s : Store) (userID listID itemID : UUID) (req : ShoppingListItemUpdateRequest) :
    Except String ShoppingListItem × Store :=
  match shoppingListRepository.GetByID s listID with
  | .error e => (.error e, s)
  | .ok list =>
    if list.UserID != userID then
      (.error "unauthorized to modify this shopping list", s)
    else
      match shoppingListRepository.GetItem s itemID with
      | .error e => (.error e, s)
      | .ok item =>
        if item.ShoppingListID != listID then
          (.error "item does not belong to this shopping list", s)
        else
          let item := applyItemUpdate item req
          let s1 := shoppingListRepository.UpdateItem s item
          (shoppingListRepository.GetItem s1 item.ID, s1)

/-- `DeleteItem(userID, listID, itemID)`. -/
def DeleteItem (s : Store) (userID listID itemID : UUID) : Except String Unit × Store :=
  match shoppingListRepository.GetByID s listID with
  | .error e => (.error e, s)
  | .ok list =>
    if list.UserID != userID then
      (.error "unauthorized to modify this shopping list", s)
    else
      match shoppingListRepository.GetItem s itemID with
      | .error e => (.error e, s)
      | .ok item =>
        if item.ShoppingListID != listID then
          (.error "item does not belong to this shopping list", s)
        else
          (.ok (), shoppingListRepository.DeleteItem s itemID)

end shoppingListService

/-! ## Transactions -/

/-- State inside `r.db.Transaction(func(tx *gorm.DB) error)`.  `root` is the
committed store.  A statement issued on the repository handle `r.db` while the
transaction is open runs on another connection of the pool (`database.go`
opens up to 100): it reads the committed rows only, and what it writes is
committed at once.  `pending` holds the writes issued on `tx`; they are seen by
later statements on `tx` and reach the committed store on commit. -/
structure TxState where
  root : Store
  pending : Store → Store

namespace TxState

/-- What a statement issued on `tx` reads: the committed rows with the
transaction's own writes applied. -/
def view (t : TxState) : Store := t.pending t.root

/-- A write issued on `tx`. -/
def exec (t : TxState) (w : Store → Store) : TxState :=
  { t with pending := fun s => w (t.pending s) }

end TxState

/-- `db.Transaction(fc)`: commit when `fc` returns nil, roll back otherwise.
A rollback discards the writes issued on `tx` only. -/
def Transaction {α : Type} (s : Store) (fc : TxState → Except String α × TxState) :
    Except String α × Store :=
  match fc { root := s, pending := id } with
  | (.ok a, t) => (.ok a, t.view)
  | (.error e, t) => (.error e, t.root)

/-! ## Hooks of `models/recipe.go` -/

/-- Hook `(*Recipe).BeforeCreate`. -/
def Recipe.BeforeCreate (r : Recipe) (fresh : UUID) : Recipe :=
  if r.ID == uuidNil then { r with ID := fresh } else r

/-- Hook `(*Ingredient).BeforeCreate`. -/
def Ingredient.BeforeCreate (i : Ingredient) (fresh : UUID) : Ingredient :=
  if i.ID == uuidNil then { i with ID := fresh } else i

/-- Hook `(*Instruction).BeforeCreate`. -/
def Instruction.BeforeCreate (i : Yummio.Instruction) (fresh : UUID) : Yummio.Instruction :=
  if i.ID == uuidNil then { i with ID := fresh } else i

/-- Hook `(*Tag).BeforeCreate`. -/
def Tag.BeforeCreate (t : Tag) (fresh : UUID) : Tag :=
  if t.ID == uuidNil then { t with ID := fresh } else t

/-- Hook `(*Rating).BeforeCreate`. -/
def Rating.BeforeCreate (r : Yummio.Rating) (fresh : UUID) : Yummio.Rating :=
  if r.ID == uuidNil then { r with ID := fresh } else r

/-- Hook `(*Nutrition).BeforeCreate`. -/
def Nutrition.BeforeCreate (n : Nutrition) (fresh : UUID) : Nutrition :=
  if n.ID == uuidNil then { n with ID := fresh } else n

/-! ## Recipe repository (`recipe_repository.go`) -/

namespace recipeRepository

/-- `tx.Create(&ingredient)`. -/
def txCreateIngredient (t : TxState) (i : Ingredient) : Ingredient × TxState :=
  let i := i.BeforeCreate t.view.newUUID
  (i, t.exec (fun s => { s.bumpUUID with ingredients := s.ingredients ++ [i] }))

/-- `tx.Create(&instruction)`. -/
def txCreateInstruction (t : TxState) (i : Instruction) : Instruction × TxState :=
  let i := i.BeforeCreate t.view.newUUID
  (i, t.exec (fun s => { s.bumpUUID with instructions := s.instructions ++ [i] }))

/-- `tx.Create(&tag)`. -/
def txCreateTag (t : TxState) (tag : Tag) : Tag × TxState :=
  let tag := tag.BeforeCreate t.view.newUUID
  (tag, t.exec (fun s => { s.bumpUUID with tags := s.tags ++ [tag] }))

/-- `tx.Create(rating)`. -/
def txCreateRating (t : TxState) (r : Rating) : Rating × TxState :=
  let r := r.BeforeCreate t.view.newUUID
  (r, t.exec (fun s => { s.bumpUUID with ratings := s.ratings ++ [r] }))

/-- `tx.Save(nutrition)`: a struct without id is created, otherwise its row is
written (inserted when there is none). -/
def txSaveNutrition (t : TxState) (n : Nutrition) : Nutrition × TxState :=
  if n.ID == uuidNil then
    let n := n.BeforeCreate t.view.newUUID
    (n, t.exec (fun s => { s.bumpUUID with nutritions := s.nutritions ++ [n] }))
  else
    (n, t.exec (fun s =>
      if s.nutritions.any (fun x => x.ID == n.ID) then
        { s with nutritions := s.nutritions.map (fun x => if x.ID == n.ID then n else x) }
      else
        { s with nutritions := s.nutritions ++ [n] }))

/-- The loop `for _, ingredient := range recipe.Ingredients`: the copy gets the
recipe id and is created. -/
def createIngredients (recipeID : UUID) : List Ingredient → TxState → TxState
  | [], t => t
  | ingredient :: rest, t =>
    createIngredients recipeID rest
      (txCreateIngredient t { ingredient with RecipeID := recipeID }).2

/-- The loop `for _, instruction := range recipe.Instructions`. -/
def createInstructions (recipeID : UUID) : List Instruction → TxState → TxState
  | [], t => t
  | instruction :: rest, t =>
    createInstructions recipeID rest
      (txCreateInstruction t { instruction with RecipeID := recipeID }).2

/-- The error of the database when a row of `recipe_tags` names a tag id that
is not stored. -/
def ErrRecipeTagsForeignKey : String :=
  "ERROR: insert or update on table \"recipe_tags\" violates foreign key constraint \"fk_recipe_tags_tag\" (SQLSTATE 23503)"

/-- The tag structs of a batch after their `BeforeCreate` hooks: a struct
without id gets the identifier drawn next, the first one the one after `next`. -/
def tagHookRows : Nat → List Tag → List Tag
  | _, [] => []
  | next, tag :: rest => tag.BeforeCreate (next + 1) :: tagHookRows (next + 1) rest

/-- `INSERT INTO tags ... ON CONFLICT DO NOTHING` for a batch of rows, in
order: a row is stored unless a stored row, or an earlier row of the batch,
has its id (primary key) or its name (unique index). -/
def insertTagsDoNothing : List Tag → List Tag → List Tag
  | [], table => table
  | tag :: rest, table =>
    if table.any (fun x => x.ID == tag.ID || x.Name == tag.Name) then
      insertTagsDoNothing rest table
    else insertTagsDoNothing rest (table ++ [tag])

/-- `tx.Create(recipe)`: the hook gives the recipe its id, the row is inserted,
and the associations held in the struct are saved with the recipe id:
nutrition, ingredients, instructions, then the tags.  `is_public` has
`default:true`, so a struct with the zero value `false` is stored, and comes
back, with `true`.  For the tags GORM runs the hooks, inserts the tag structs
with `ON CONFLICT DO NOTHING`, and then inserts one `recipe_tags` row per
struct with the struct's id; the foreign key on `tags` rejects that insert when
a struct was not stored, which is then the error of the call.  The struct
comes back with its id and the ids of its tags. -/
def txCreateRecipe (t : TxState) (recipe : Recipe) : Except String Recipe × TxState :=
  let recipe := recipe.BeforeCreate t.view.newUUID
  let recipe := { recipe with IsPublic := true }
  let t := t.exec (fun s => { s.bumpUUID with recipes := s.recipes ++ [recipe.row] })
  let t := match recipe.Nutrition with
    | some n => (txSaveNutrition t { n with RecipeID := recipe.ID }).2
    | none => t
  let t := createIngredients recipe.ID recipe.Ingredients t
  let t := createInstructions recipe.ID recipe.Instructions t
  if recipe.Tags.isEmpty then (.ok recipe, t)
  else
    let tags := tagHookRows t.view.nextID recipe.Tags
    let t := t.exec (fun s =>
      { s with tags := insertTagsDoNothing tags s.tags, nextID := s.nextID + tags.length })
    if tags.all (fun tag => t.view.tags.any (fun x => x.ID == tag.ID)) then
      (.ok { recipe with Tags := tags },
        t.exec (fun s =>
          { s with recipe_tags :=
              tags.foldl (fun acc tag => insertPair (recipe.ID, tag.ID) acc) s.recipe_tags }))
    else (.error ErrRecipeTagsForeignKey, t)

/-- The loop of `Create` over `recipe.Tags`: each tag is looked up by name
through `tx`; a missing one is created; the slot receives the stored row. -/
def resolveTags : List Tag → TxState → List Tag × TxState
  | [], t => ([], t)
  | tag :: rest, t =>
    match t.view.tags.find? (fun x => x.Name == tag.Name) with
    | some existingTag =>
      let r := resolveTags rest t
      (existingTag :: r.1, r.2)
    | none =>
      let c := txCreateTag t tag
      let r := resolveTags rest c.2
      (c.1 :: r.1, r.2)

/-- `tx.Model(recipe).Association("Tags").Replace(tags)`: links of the recipe to
other tags are deleted, the given ones are inserted (`ON CONFLICT DO NOTHING`). -/
def replaceTags (recipeID : UUID) (tags : List Tag) (s : Store) : Store :=
  let kept := s.recipe_tags.filter
    (fun p => !(p.1 == recipeID) || tags.any (fun tag => tag.ID == p.2))
  { s with recipe_tags := tags.foldl (fun acc tag => insertPair (recipeID, tag.ID) acc) kept }

/-- `Create(recipe)`: an error of `tx.Create(recipe)` ends the transaction,
which is rolled back. -/
def Create (s : Store) (recipe : Recipe) : Except String Recipe × Store :=
  Transaction s (fun t =>
    match txCreateRecipe t recipe with
    | (.error err, t) => (.error err, t)
    | (.ok recipe, t) =>
      if recipe.Tags.length > 0 then
        let r := resolveTags recipe.Tags t
        let recipe := { recipe with Tags := r.1 }
        (.ok recipe, r.2.exec (replaceTags recipe.ID recipe.Tags))
      else
        (.ok recipe, t))

/-- Rows `Preload("Tags")` attaches to a recipe. -/
def preloadTags (s : Store) (recipeID : UUID) : List Tag :=
  s.tags.filter (fun t => decide ((recipeID, t.ID) ∈ s.recipe_tags))

/-- `GetByID`: first live recipe with this id, with ingredients, instructions,
tags and nutrition preloaded. -/
def GetByID (s : Store) (id : UUID) : Except String Recipe :=
  match firstOr (s.recipes.find? (fun r => r.ID == id && !r.DeletedAt)) with
  | .ok r =>
    .ok { r with
      Ingredients := s.ingredients.filter (fun i => i.RecipeID == id)
      Instructions := s.instructions.filter (fun i => i.RecipeID == id)
      Tags := preloadTags s id
      Nutrition := s.nutritions.find? (fun n => n.RecipeID == id) }
  | .error e => .error e

/-- `tx.Save(recipe)` on the recipe row. -/
def saveRecipe (recipe : Recipe) (s : Store) : Store :=
  if s.recipes.any (fun x => x.ID == recipe.ID) then
    { s with recipes := s.recipes.map (fun x => if x.ID == recipe.ID then recipe.row else x) }
  else
    { s with recipes := s.recipes ++ [recipe.row] }

/-- `Update(recipe)`. -/
def Update (s : Store) (recipe : Recipe) : Except String Unit × Store :=
  Transaction s (fun t =>
    let t := t.exec (saveRecipe recipe)
    let t := t.exec (fun s =>
      { s with ingredients := s.ingredients.filter (fun i => !(i.RecipeID == recipe.ID)) })
    let t := createIngredients recipe.ID recipe.Ingredients t
    let t := t.exec (fun s =>
      { s with instructions := s.instructions.filter (fun i => !(i.RecipeID == recipe.ID)) })
    let t := createInstructions recipe.ID recipe.Instructions t
    let t := match recipe.Nutrition with
      | some n => (txSaveNutrition t { n with RecipeID := recipe.ID }).2
      | none => t
    (.ok (), t))

/-- `Delete(id)`: soft delete of the recipe row. -/
def Delete (s : Store) (id : UUID) : Store :=
  { s with recipes :=
      s.recipes.map (fun x => if x.ID == id then { x with DeletedAt := true } else x) }

/-- `AddToFavorites`: insert into `user_favorites`, `ON CONFLICT DO NOTHING`. -/
def AddToFavorites (s : Store) (userID recipeID : UUID) : Store :=
  { s with user_favorites := insertPair (userID, recipeID) s.user_favorites }

/-- `RemoveFromFavorites`. -/
def RemoveFromFavorites (s : Store) (userID recipeID : UUID) : Store :=
  { s with user_favorites := s.user_favorites.filter (fun p => !(p == (userID, recipeID))) }

/-- `tx.Save(&existingRating)` on the rating row. -/
def saveRating (rating : Rating) (s : Store) : Store :=
  if s.ratings.any (fun x => x.ID == rating.ID) then
    { s with ratings := s.ratings.map (fun x => if x.ID == rating.ID then rating else x) }
  else
    { s with ratings := s.ratings ++ [rating] }

/-- `UpdateRating(recipeID)`, every statement on the repository handle `r.db`:
`AVG(rating)` over the ratings of the recipe scanned into a `float64`, their
count, then the update of the live recipe row.  The average is the exact
quotient of the sum by the count.  Over no rows `AVG` is `NULL`; `scanNull` is
what scanning it into the `float64` yields. -/
def UpdateRating (scanNull : Except String ℚ) (s : Store) (recipeID : UUID) :
    Except String Unit × Store :=
  let rs := s.ratings.filter (fun x => x.RecipeID == recipeID)
  let avg : Except String ℚ :=
    if rs.isEmpty then scanNull
    else .ok (mkRat (rs.map (fun x => x.Rating)).sum rs.length)
  match avg with
  | .error e => (.error e, s)
  | .ok avgRating =>
    let count : Int := rs.length
    (.ok (), { s with recipes := s.recipes.map (fun r =>
      if r.ID == recipeID && !r.DeletedAt then
        { r with Rating := avgRating, RatingCount := count }
      else r) })

/-- `RateRecipe(rating)`: the lookup and the insert or update of the rating go
through `tx`; the closure then calls `r.UpdateRating`, whose statements go
through `r.db`. -/
def RateRecipe (scanNull : Except String ℚ) (s : Store) (rating : Rating) :
    Except String Unit × Store :=
  Transaction s (fun t =>
    let t :=
      match t.view.ratings.find?
          (fun x => x.UserID == rating.UserID && x.RecipeID == rating.RecipeID) with
      | none => (txCreateRating t rating).2
      | some existingRating =>
        let existingRating :=
          { existingRating with Rating := rating.Rating, Review := rating.Review }
        t.exec (saveRating existingRating)
    let r := UpdateRating scanNull t.root rating.RecipeID
    (r.1, { t with root := r.2 }))

/-! ### Listings -/

/-- `strings.ToLower` on ASCII text: the letters `A` to `Z` are folded and every
other character is kept, so on text with letters outside ASCII, which Go folds
as well, this is not the library function. -/
def stringsToLower (s : String) : String := String.mk (s.toList.map Char.toLower)

/-- `strings.ToUpper` on ASCII text: the letters `a` to `z` are folded and every
other character is kept. -/
def stringsToUpper (s : String) : String := String.mk (s.toList.map Char.toUpper)

/-- Go `int` arithmetic: the value wrapped to 64 bits, two's complement. -/
def wrapInt64 (x : Int) : Int := (x + 2 ^ 63) % 2 ^ 64 - 2 ^ 63

/-- SQL `LIKE` on characters: `%` matches any run, `_` any one character, and a
backslash makes the next pattern character literal. -/
def sqlLike : List Char → List Char → Bool
  | [], text => text.isEmpty
  | p :: ps, text =>
    if p == '%' then text.tails.any (fun rest => sqlLike ps rest)
    else if p == '_' then
      match text with
      | [] => false
      | _ :: ts => sqlLike ps ts
    else if p == Char.ofNat 92 then
      match ps, text with
      | c :: ps1, x :: ts => c == x && sqlLike ps1 ts
      | _, _ => false
    else
      match text with
      | [] => false
      | x :: ts => p == x && sqlLike ps ts

/-- `LOWER(column) LIKE pattern` on a nullable column; `NULL` never matches.
Case folding is that of ASCII. -/
def lowerLike (column : Option String) (pattern : String) : Bool :=
  match column with
  | some v => sqlLike pattern.toList (stringsToLower v).toList
  | none => false

/-- The text handed to `Order(...)`: `fmt.Sprintf("%s %s", sortBy, sortOrder)`. -/
def orderClause (query : RecipeQuery) : String :=
  let sortBy := match query.SortBy with
    | some x => if x != "" then x else "created_at"
    | none => "created_at"
  let sortOrder := match query.SortOrder with
    | some x => if x != "" then stringsToUpper x else "DESC"
    | none => "DESC"
  sortBy ++ " " ++ sortOrder

/-- `Offset(offset).Limit(limit)`: GORM emits `OFFSET` for a positive offset
and `LIMIT` for a non-negative limit. -/
def paginate (offset limit : Int) (rows : List Recipe) : List Recipe :=
  let rows := if offset > 0 then rows.drop offset.toNat else rows
  if limit ≥ 0 then rows.take limit.toNat else rows

/-- The filter `difficulty = ?` of `queryRecipes`, applied when the parameter
is given and not empty. -/
def filterDifficulty (query : RecipeQuery) (db : List Recipe) : List Recipe :=
  match query.Difficulty with
  | some d => if d != "" then db.filter (fun r => r.Difficulty == some d) else db
  | none => db

/-- The filter `type = ?` of `queryRecipes`. -/
def filterType (query : RecipeQuery) (db : List Recipe) : List Recipe :=
  match query.Type_ with
  | some ty => if ty != "" then db.filter (fun r => r.Type_ == some ty) else db
  | none => db

/-- The tag filter of `queryRecipes`: join with `recipe_tags` and `tags`,
`tags.name IN ?`, grouped by recipe id. -/
def filterTags (s : Store) (query : RecipeQuery) (db : List Recipe) : List Recipe :=
  if query.Tags.length > 0 then
    db.filter (fun r =>
      s.tags.any (fun t => decide ((r.ID, t.ID) ∈ s.recipe_tags) && decide (t.Name ∈ query.Tags)))
  else db

/-- `queryRecipes(db, query)`.  `db` is the scope built so far, as the rows it
selects.  `orderBy` is the engine's evaluation of the `ORDER BY` text on a row
set (the text is not validated by the code, so the engine decides what it
means and whether it is an error).  The result is the page, with tags
preloaded, and the total counted before pagination. -/
def queryRecipes (orderBy : String → List Recipe → Except String (List Recipe))
    (s : Store) (db : List Recipe) (query : RecipeQuery) : Except String (List Recipe × Int) :=
  let db := filterTags s query (filterType query (filterDifficulty query db))
  let total : Int := db.length
  let offset := wrapInt64 (wrapInt64 (query.Page - 1) * query.Limit)
  match orderBy (orderClause query) db with
  | .error e => .error e
  | .ok sorted =>
    .ok ((paginate offset query.Limit sorted).map (fun r => { r with Tags := preloadTags s r.ID }),
      total)

/-- `GetByUserID(userID, query)`: scope `user_id = ?`. -/
def GetByUserID (orderBy : String → List Recipe → Except String (List Recipe))
    (s : Store) (userID : UUID) (query : RecipeQuery) : Except String (List Recipe × Int) :=
  queryRecipes orderBy s (s.recipes.filter (fun r => !r.DeletedAt && r.UserID == userID)) query

/-- `GetAll(query)`: scope `is_public = true`. -/
def GetAll (orderBy : String → List Recipe → Except String (List Recipe))
    (s : Store) (query : RecipeQuery) : Except String (List Recipe × Int) :=
  queryRecipes orderBy s (s.recipes.filter (fun r => !r.DeletedAt && r.IsPublic)) query

/-- `Search(query)`: scope `is_public = true`, narrowed by the search term when
one is given.  GORM puts a condition containing `OR` in parentheses, so the
text condition is conjoined with the scope. -/
def Search (orderBy : String → List Recipe → Except String (List Recipe))
    (s : Store) (query : RecipeQuery) : Except String (List Recipe × Int) :=
  let db := s.recipes.filter (fun r => !r.DeletedAt && r.IsPublic)
  let db := match query.Search with
    | some term =>
      if term != "" then
        let searchTerm := "%" ++ stringsToLower term ++ "%"
        db.filter (fun r => lowerLike (some r.Title) searchTerm || lowerLike r.Description searchTerm)
      else db
    | none => db
  queryRecipes orderBy s db query

/-- `GetFavorites(userID, query)`: scope is the join with `user_favorites` on
the user's rows. -/
def GetFavorites (orderBy : String → List Recipe → Except String (List Recipe))
    (s : Store) (userID : UUID) (query : RecipeQuery) : Except String (List Recipe × Int) :=
  queryRecipes orderBy s
    (s.recipes.filter (fun r => !r.DeletedAt && decide ((userID, r.ID) ∈ s.user_favorites))) query

end recipeRepository

/-! ## Recipe service (`recipe_service.go`) -/

namespace recipeService

/-- The ingredient structs built from the request: position `i` is the order
index unless the request gives one. -/
def buildIngredients (reqs : List IngredientCreateRequest) : List Ingredient :=
  reqs.enum.map (fun p =>
    let ingredient : Ingredient :=
      { ID := uuidNil, RecipeID := uuidNil, Name := p.2.Name, Amount := p.2.Amount,
        Unit := p.2.Unit, Notes := p.2.Notes, OrderIndex := (p.1 : Int) }
    match p.2.OrderIndex with
    | some i => { ingredient with OrderIndex := i }
    | none => ingredient)

/-- The instruction structs built from the request. -/
def buildInstructions (reqs : List InstructionCreateRequest) : List Instruction :=
  reqs.map (fun r =>
    { ID := uuidNil, RecipeID := uuidNil, Step := r.Step, Instruction := r.Instruction,
      ImageURL := r.ImageURL, TimerMinutes := r.TimerMinutes })

/-- The tag structs built from the requested names. -/
def buildTags (names : List String) : List Tag :=
  names.map (fun tagName => { ID := uuidNil, Name := tagName, Color := none })

/-- The struct `CreateRecipe` hands to the repository. -/
def buildRecipe (userID : UUID) (req : RecipeCreateRequest) : Recipe :=
  let recipe : Recipe :=
    { ID := uuidNil, UserID := userID, Title := req.Title, Description := req.Description,
      ImageURL := req.ImageURL, PrepTime := req.PrepTime, CookTime := req.CookTime,
      Servings := req.Servings, Difficulty := req.Difficulty, Type_ := req.Type_,
      Rating := 0, RatingCount := 0, IsPublic := true, DeletedAt := false,
      Ingredients := [], Instructions := [], Tags := [], Nutrition := none }
  let recipe := match req.IsPublic with
    | some p => { recipe with IsPublic := p }
    | none => recipe
  let recipe := { recipe with Ingredients := buildIngredients req.Ingredients }
  let recipe := { recipe with Instructions := buildInstructions req.Instructions }
  let recipe := { recipe with Tags := buildTags req.Tags }
  match req.Nutrition with
  | some n =>
    let nutrition : Nutrition :=
      { ID := uuidNil, RecipeID := uuidNil, Calories := n.Calories, Protein := n.Protein,
        Carbs := n.Carbs, Fat := n.Fat, Fiber := n.Fiber, Sugar := n.Sugar,
        Sodium := n.Sodium, Cholesterol := n.Cholesterol }
    { recipe with Nutrition := some nutrition }
  | none => recipe

/-- `CreateRecipe(userID, req)`. -/
def CreateRecipe (s : Store) (userID : UUID) (req : RecipeCreateRequest) :
    Except String Recipe × Store :=
  match recipeRepository.Create s (buildRecipe userID req) with
  | (.error e, s1) => (.error e, s1)
  | (.ok recipe, s1) => (recipeRepository.GetByID s1 recipe.ID, s1)

/-- `GetRecipe(id)`. -/
def GetRecipe (s : Store) (id : UUID) : Except String Recipe × Store :=
  (recipeRepository.GetByID s id, s)

/-- `GetRecipes(query)`. -/
def GetRecipes (orderBy : String → List Recipe → Except String (List Recipe))
    (s : Store) (query : RecipeQuery) : Except String (List Recipe × Int) × Store :=
  (recipeRepository.GetAll orderBy s query, s)

/-- `GetMyRecipes(userID, query)`. -/
def GetMyRecipes (orderBy : String → List Recipe → Except String (List Recipe))
    (s : Store) (userID : UUID) (query : RecipeQuery) : Except String (List Recipe × Int) × Store :=
  (recipeRepository.GetByUserID orderBy s userID query, s)

/-- The struct `UpdateRecipe` hands to the repository: the loaded recipe with
the request's scalar fields, ingredients, instructions and nutrition. -/
def applyRecipeUpdate (recipe : Recipe) (req : RecipeCreateRequest) : Recipe :=
  let recipe :=
    { recipe with Title := req.Title, Description := req.Description, ImageURL := req.ImageURL,
                  PrepTime := req.PrepTime, CookTime := req.CookTime, Servings := req.Servings,
                  Difficulty := req.Difficulty, Type_ := req.Type_ }
  let recipe := match req.IsPublic with
    | some p => { recipe with IsPublic := p }
    | none => recipe
  let recipe := { recipe with Ingredients := buildIngredients req.Ingredients }
  let recipe := { recipe with Instructions := buildInstructions req.Instructions }
  match req.Nutrition with
  | some n =>
    let nutrition : Nutrition := match recipe.Nutrition with
      | some existing => existing
      | none =>
        { ID := uuidNil, RecipeID := uuidNil, Calories := none, Protein := none, Carbs := none,
          Fat := none, Fiber := none, Sugar := none, Sodium := none, Cholesterol := none }
    let nutrition : Nutrition :=
      { nutrition with Calories := n.Calories, Protein := n.Protein, Carbs := n.Carbs,
                       Fat := n.Fat, Fiber := n.Fiber, Sugar := n.Sugar, Sodium := n.Sodium,
                       Cholesterol := n.Cholesterol }
    { recipe with Nutrition := some nutrition }
  | none => recipe

/-- `UpdateRecipe(userID, recipeID, req)`. -/
def UpdateRecipe (s : Store) (userID recipeID : UUID) (req : RecipeCreateRequest) :
    Except String Recipe × Store :=
  match recipeRepository.GetByID s recipeID with
  | .error e => (.error e, s)
  | .ok recipe =>
    if recipe.UserID != userID then
      (.error "unauthorized to update this recipe", s)
    else
      let recipe := applyRecipeUpdate recipe req
      match recipeRepository.Update s recipe with
      | (.error e, s1) => (.error e, s1)
      | (.ok _, s1) => (recipeRepository.GetByID s1 recipe.ID, s1)

/-- `DeleteRecipe(userID, recipeID)`. -/
def DeleteRecipe (s : Store) (userID recipeID : UUID) : Except String Unit × Store :=
  match recipeRepository.GetByID s recipeID with
  | .error e => (.error e, s)
  | .ok recipe =>
    if recipe.UserID != userID then
      (.error "unauthorized to delete this recipe", s)
    else
      (.ok (), recipeRepository.Delete s recipeID)

/-- `SearchRecipes(query)`. -/
def SearchRecipes (orderBy : String → List Recipe → Except String (List Recipe))
    (s : Store) (query : RecipeQuery) : Except String (List Recipe × Int) × Store :=
  (recipeRepository.Search orderBy s query, s)

/-- `FavoriteRecipe(userID, recipeID)`. -/
def FavoriteRecipe (s : Store) (userID recipeID : UUID) : Except String Unit × Store :=
  (.ok (), recipeRepository.AddToFavorites s userID recipeID)

/-- `UnfavoriteRecipe(userID, recipeID)`. -/
def UnfavoriteRecipe (s : Store) (userID recipeID : UUID) : Except String Unit × Store :=
  (.ok (), recipeRepository.RemoveFromFavorites s userID recipeID)

/-- `GetFavorites(userID, query)`. -/
def GetFavorites (orderBy : String → List Recipe → Except String (List Recipe))
    (s : Store) (userID : UUID) (query : RecipeQuery) : Except String (List Recipe × Int) × Store :=
  (recipeRepository.GetFavorites orderBy s userID query, s)

/-- `RateRecipe(userID, recipeID, req)`. -/
def RateRecipe (scanNull : Except String ℚ) (s : Store) (userID recipeID : UUID)
    (req : RateRecipeRequest) : Except String Unit × Store :=
  recipeRepository.RateRecipe scanNull s
    { ID := uuidNil, UserID := userID, RecipeID := recipeID, Rating := req.Rating,
      Review := req.Review }

end recipeService

/-! ## Shopping-list creation (`shopping_list_repository.go`, `shopping_list_service.go`) -/

/-- Hook `(*ShoppingList).BeforeCreate`. -/
def ShoppingList.BeforeCreate (l : ShoppingList) (fresh : UUID) : ShoppingList :=
  if l.ID == uuidNil then { l with ID := fresh } else l

/-- The item rows written with a new list: each struct gets the list id and,
through its hook, the identifiers drawn after `next`. -/
def itemRows (listID : UUID) : Nat → List ShoppingListItem → List ShoppingListItem
  | _, [] => []
  | next, i :: rest =>
    ({ i with ShoppingListID := listID } : ShoppingListItem).BeforeCreate (next + 1)
      :: itemRows listID (next + 1) rest

/-- `shoppingListRepository.Create(list)`: `Create` runs the hook, inserts the
list row and then the items held in the struct, with the list id.  The struct
comes back with its id. -/
def shoppingListRepository.Create (s : Store) (list : ShoppingList) : ShoppingList × Store :=
  let list := list.BeforeCreate s.newUUID
  let rows := itemRows list.ID (s.nextID + 1) list.Items
  ({ list with Items := rows },
    { s with shopping_lists := s.shopping_lists ++ [list.row]
             shopping_list_items := s.shopping_list_items ++ rows
             nextID := s.nextID + 1 + list.Items.length })

/-- The item structs `CreateShoppingList` builds: position `i` is the order
index unless the request gives one. -/
def shoppingListService.buildItems (reqs : List ShoppingListItemCreateRequest) :
    List ShoppingListItem :=
  reqs.enum.map (fun p =>
    let item : ShoppingListItem :=
      { ID := uuidNil, ShoppingListID := uuidNil, Name := p.2.Name, Amount := p.2.Amount,
        Unit := p.2.Unit, Notes := p.2.Notes, Completed := false, OrderIndex := (p.1 : Int) }
    match p.2.OrderIndex with
    | some i => { item with OrderIndex := i }
    | none => item)

/-- `CreateShoppingList(userID, req)`. -/
def shoppingListService.CreateShoppingList (s : Store) (userID : UUID)
    (req : ShoppingListCreateRequest) : Except String ShoppingList × Store :=
  let list : ShoppingList :=
    { ID := uuidNil, UserID := userID, Name := req.Name, DeletedAt := false,
      Items := shoppingListService.buildItems req.Items }
  let r := shoppingListRepository.Create s list
  (shoppingListRepository.GetByID r.2 r.1.ID, r.2)

/-- `GetShoppingLists(userID)`: the live lists of the user, items preloaded.
The order `created_at DESC` is not modelled; lists come in table order. -/
def shoppingListService.GetShoppingLists (s : Store) (userID : UUID) :
    Except String (List ShoppingList) × Store :=
  (.ok ((s.shopping_lists.filter (fun l => !l.DeletedAt && l.UserID == userID)).map
    (fun l => { l with Items := shoppingListRepository.preloadItems s l.ID })), s)

/-! ## Listing handlers (`recipe_handler.go`) -/

/-- The query string of a listing request, as `ShouldBindQuery` reads it: the
numbers already parsed, a parameter that is absent or empty being `none`. -/
structure ListingParams where
  page : Option Int
  limit : Option Int
  search : Option String
  difficulty : Option String
  type_ : Option String
  tags : List String
  user_id : Option String
  sort_by : Option String
  sort_order : Option String
deriving DecidableEq, Repr

/-- `c.ShouldBindQuery(&query)` on `models.RecipeQuery`: the `form` tags give
page 1 and limit 20 when the parameter is not supplied.  The `validate` tags
of the struct are read by `validator.Struct` only, which the listing handlers
do not call. -/
def bindRecipeQuery (p : ListingParams) : RecipeQuery :=
  { Page := match p.page with
      | some n => n
      | none => 1
    Limit := match p.limit with
      | some n => n
      | none => 20
    Search := p.search, Difficulty := p.difficulty, Type_ := p.type_, Tags := p.tags,
    UserID := p.user_id, SortBy := p.sort_by, SortOrder := p.sort_order }

/-- What a listing handler answers: status 200 with the page, the total and
the page and limit of the query, or status 500 with the error. -/
inductive ListingResponse where
  | ok (recipes : List Recipe) (total : Int) (page : Int) (limit : Int)
  | internalServerError (error : String)
deriving DecidableEq, Repr

/-- The answer a listing handler builds from the service result. -/
def listingResponse (query : RecipeQuery) (r : Except String (List Recipe × Int)) :
    ListingResponse :=
  match r with
  | .ok (recipes, total) => .ok recipes total query.Page query.Limit
  | .error e => .internalServerError e

namespace RecipeHandler

/-- `(*RecipeHandler).GetRecipes`. -/
def GetRecipes (orderBy : String → List Recipe → Except String (List Recipe))
    (s : Store) (p : ListingParams) : ListingResponse :=
  let query := bindRecipeQuery p
  listingResponse query (recipeService.GetRecipes orderBy s query).1

/-- `(*RecipeHandler).SearchRecipes`. -/
def SearchRecipes (orderBy : String → List Recipe → Except String (List Recipe))
    (s : Store) (p : ListingParams) : ListingResponse :=
  let query := bindRecipeQuery p
  listingResponse query (recipeService.SearchRecipes orderBy s query).1

/-- `(*RecipeHandler).GetMyRecipes`, for the authenticated user. -/
def GetMyRecipes (orderBy : String → List Recipe → Except String (List Recipe))
    (s : Store) (userID : UUID) (p : ListingParams) : ListingResponse :=
  let query := bindRecipeQuery p
  listingResponse query (recipeService.GetMyRecipes orderBy s userID query).1

/-- `(*RecipeHandler).GetFavorites`, for the authenticated user. -/
def GetFavorites (orderBy : String → List Recipe → Except String (List Recipe))
    (s : Store) (userID : UUID) (p : ListingParams) : ListingResponse :=
  let query := bindRecipeQuery p
  listingResponse query (recipeService.GetFavorites orderBy s userID query).1

end RecipeHandler

/-! ## Libraries used by the auth code -/

/-- `uuid.UUID.String()`: the text of an identifier, here its decimal digits. -/
def uuidString (u : UUID) : String := Nat.repr u

/-- `uuid.Parse`: the identifier a text denotes, none when the text has
another format. -/
def uuidParse (s : String) : Option UUID :=
  let cs := s.toList
  if cs.isEmpty || !cs.all Char.isDigit then none
  else some (cs.foldl (fun n c => n * 10 + (c.toNat - 48)) 0)

/-- `bcrypt.DefaultCost`. -/
def bcryptDefaultCost : Nat := 10

/-- `bcrypt.MinCost`. -/
def bcryptMinCost : Nat := 4

/-- `bcrypt.MaxCost`. -/
def bcryptMaxCost : Nat := 31

/-- `bcrypt.GenerateFromPassword(password, cost)`, `salt` being the random
salt it draws: a cost below the minimum is replaced by the default one; a cost
above the maximum and a password of more than 72 bytes are errors. -/
def bcryptGenerateFromPassword (password : String) (cost : Nat) (salt : Nat) :
    Except String HashString :=
  if password.utf8ByteSize > 72 then .error "bcrypt: password length exceeds 72 bytes"
  else
    let cost := if cost < bcryptMinCost then bcryptDefaultCost else cost
    if cost > bcryptMaxCost then .error "crypto/bcrypt: cost is outside allowed range"
    else .ok (.bcrypt cost salt password)

/-- `bcrypt.CompareHashAndPassword(hash, password)`. -/
def bcryptCompareHashAndPassword (hash : HashString) (password : String) :
    Except String Unit :=
  match hash with
  | .bcrypt _ _ hashed =>
    if hashed == password then .ok ()
    else .error "crypto/bcrypt: hashedPassword is not the hash of the given password"
  | .other _ => .error "crypto/bcrypt: hashedSecret too short to be a bcrypted password"

/-- A value of a JSON claim. -/
inductive ClaimValue where
  | str (s : String)
  | num (n : Int)
  | other
deriving DecidableEq, Repr

/-- `jwt.MapClaims`. -/
abbrev MapClaims := List (String × ClaimValue)

/-- Index into a claims map: `(*claims)[key]`. -/
def MapClaims.get (claims : MapClaims) (key : String) : Option ClaimValue :=
  (claims.find? (fun p => p.1 == key)).map (fun p => p.2)

/-- A token string: text that is not the compact form of a JWT, or the compact
form of a JWT with the given `alg` header, claims and signature.  The
signature is ideal: `some key` is the signature made with `key` under `alg`
over this header and these claims, `none` is any other bytes. -/
inductive TokenString where
  | raw (text : String)
  | jwt (alg : String) (claims : MapClaims) (signature : Option String)
deriving DecidableEq, Repr

/-- The claim checks of `jwt.ParseWithClaims` (library defaults): `exp`, when
present, must be a number of seconds after `now`; `nbf`, when present, must be
a number of seconds not after `now`. -/
def jwtValidateClaims (now : Int) (claims : MapClaims) : Except String Unit :=
  let exp : Except String Unit :=
    match claims.get "exp" with
    | none => .ok ()
    | some (.num e) =>
      if now < e * 1000000000 then .ok ()
      else .error "token has invalid claims: token is expired"
    | some _ => .error "token has invalid claims: invalid type for claim: exp is invalid"
  match exp with
  | .error e => .error e
  | .ok _ =>
    match claims.get "nbf" with
    | none => .ok ()
    | some (.num n) =>
      if now < n * 1000000000 then .error "token has invalid claims: token is not valid yet"
      else .ok ()
    | some _ => .error "token has invalid claims: invalid type for claim: nbf is invalid"

/-- `jwt.ParseWithClaims(tokenString, &jwt.MapClaims{}, keyFunc)` where
`keyFunc` returns `[]byte(secret)` for every token: the token must have three
well-formed segments, its `alg` must be a registered method, the signature
must verify under that method with the secret (only the HMAC methods accept a
byte-slice key), and the claims must pass `jwtValidateClaims`.  A nil error
goes with `token.Valid`. -/
def jwtParseWithClaims (secret : String) (now : Int) (tokenString : TokenString) :
    Except String MapClaims :=
  match tokenString with
  | .raw _ => .error "token is malformed: token contains an invalid number of segments"
  | .jwt alg claims signature =>
    if alg == "HS256" || alg == "HS384" || alg == "HS512" then
      if signature == some secret then
        match jwtValidateClaims now claims with
        | .ok _ => .ok claims
        | .error e => .error e
      else .error "token signature is invalid: signature is invalid"
    else if ["none", "RS256", "RS384", "RS512", "ES256", "ES384", "ES512", "PS256", "PS384",
        "PS512", "EdDSA"].contains alg then
      .error "token signature is invalid: key is of invalid type"
    else .error "token is unverifiable: signing method (alg) is unavailable"

/-! ## User repository -/

namespace userRepository

/-- Modelled from the spec: `user_repository.go` is not among the files at
hand.  `Exists(email)`: whether a live user row has this email. -/
def Exists (s : Store) (email : String) : Bool :=
  s.users.any (fun u => u.Email == email && !u.DeletedAt)

/-- Modelled from the spec: `Create` assigns an id if absent (the hook of
`models/user.go`), stamps the row and inserts it.  The struct comes back with
its id. -/
def Create (s : Store) (now : Int) (user : User) : User × Store :=
  let user := { user.BeforeCreate s.newUUID with CreatedAt := now, UpdatedAt := now }
  (user, { s.bumpUUID with users := s.users ++ [user] })

/-- Modelled from the spec: `GetByEmail` fails with not-found if the user is
absent or soft-deleted. -/
def GetByEmail (s : Store) (email : String) : Except String User :=
  firstOr (s.users.find? (fun u => u.Email == email && !u.DeletedAt))

/-- Modelled from the spec: `GetByID` fails with not-found if the user is
absent or soft-deleted. -/
def GetByID (s : Store) (id : UUID) : Except String User :=
  firstOr (s.users.find? (fun u => u.ID == id && !u.DeletedAt))

/-- Modelled from the spec: `Update` is a full replace of the scalar fields of
the row with the struct's id. -/
def Update (s : Store) (now : Int) (user : User) : Store :=
  let user := { user with UpdatedAt := now }
  if s.users.any (fun x => x.ID == user.ID) then
    { s with users := s.users.map (fun x => if x.ID == user.ID then user else x) }
  else
    { s with users := s.users ++ [user] }

/-- Modelled from the spec: `Delete` is a soft delete. -/
def Delete (s : Store) (id : UUID) : Store :=
  { s with users := s.users.map (fun x => if x.ID == id then { x with DeletedAt := true } else x) }

end userRepository

/-! ## Auth service (`auth_service.go`) -/

/-- The struct `models.JWTClaims`, as `auth_service.go` fills it; the Go field
`Type` is `Type_`. -/
structure JWTClaims where
  UserID : UUID
  Email : String
  Type_ : String
deriving DecidableEq, Repr

/-- The struct `models.LoginRequest`, as `auth_service.go` reads it. -/
structure LoginRequest where
  Email : String
  Password : String
deriving DecidableEq, Repr

/-- The struct `models.LoginResponse`, as `auth_service.go` fills it. -/
structure LoginResponse where
  User : UserResponse
  AccessToken : TokenString
  RefreshToken : TokenString
  ExpiresIn : Int
deriving DecidableEq, Repr

/-- The configuration fields of the struct `authService`; the durations are in
nanoseconds.  Its user repository is the store. -/
structure authService where
  jwtSecret : String
  accessExpiry : Int
  refreshExpiry : Int
deriving DecidableEq, Repr

namespace authService

/-- `generateToken(userID, email, tokenType, expiry)`: the five claims, signed
with HS256 under the secret.  `Unix()` is the whole number of seconds.
`SignedString` with HS256 and a byte-slice key returns a nil error; this is the
token it returns.  `generateTokenResult` below carries the error result. -/
def generateToken (svc : authService) (now : Int) (userID : UUID) (email tokenType : String)
    (expiry : Int) : TokenString :=
  .jwt "HS256"
    [("user_id", .str (uuidString userID)), ("email", .str email), ("type", .str tokenType),
     ("exp", .num ((now + expiry) / 1000000000)), ("iat", .num (now / 1000000000))]
    (some svc.jwtSecret)

/-- `generateTokenResponse(user)`; `Seconds()` of the access expiry is cut to
a whole number. -/
def generateTokenResponse (svc : authService) (now : Int) (user : User) : LoginResponse :=
  { User := user.ToResponse
    AccessToken := svc.generateToken now user.ID user.Email "access" svc.accessExpiry
    RefreshToken := svc.generateToken now user.ID user.Email "refresh" svc.refreshExpiry
    ExpiresIn := Int.tdiv svc.accessExpiry 1000000000 }

/-- `ValidateToken(tokenString)`. -/
def ValidateToken (svc : authService) (now : Int) (tokenString : TokenString) :
    Except String JWTClaims :=
  match jwtParseWithClaims svc.jwtSecret now tokenString with
  | .error err => .error err
  | .ok claims =>
    match claims.get "user_id" with
    | some (.str userIDStr) =>
      match uuidParse userIDStr with
      | none => .error "invalid user_id format"
      | some userID =>
        match claims.get "email" with
        | some (.str email) =>
          match claims.get "type" with
          | some (.str tokenType) => .ok { UserID := userID, Email := email, Type_ := tokenType }
          | _ => .error "invalid type in token"
        | _ => .error "invalid email in token"
    | _ => .error "invalid user_id in token"

/-- `Register(req)`; `salt` is the salt bcrypt draws. -/
def Register (svc : authService) (s : Store) (now : Int) (salt : Nat)
    (req : UserCreateRequest) : Except String LoginResponse × Store :=
  if userRepository.Exists s req.Email then
    (.error "user with this email already exists", s)
  else
    match bcryptGenerateFromPassword req.Password bcryptDefaultCost salt with
    | .error err => (.error err, s)
    | .ok hashedPassword =>
      let user : User :=
        { ID := uuidNil, Name := req.Name, Email := req.Email, PasswordHash := hashedPassword,
          AvatarURL := none, IsVerified := false, IsAdmin := false, CreatedAt := 0,
          UpdatedAt := 0, DeletedAt := false }
      let r := userRepository.Create s now user
      (.ok (svc.generateTokenResponse now r.1), r.2)

/-- `Login(req)`. -/
def Login (svc : authService) (s : Store) (now : Int) (req : LoginRequest) :
    Except String LoginResponse × Store :=
  match userRepository.GetByEmail s req.Email with
  | .error _ => (.error "invalid email or password", s)
  | .ok user =>
    match bcryptCompareHashAndPassword user.PasswordHash req.Password with
    | .error _ => (.error "invalid email or password", s)
    | .ok _ => (.ok (svc.generateTokenResponse now user), s)

/-- `RefreshToken(refreshToken)`. -/
def RefreshToken (svc : authService) (s : Store) (now : Int) (refreshToken : TokenString) :
    Except String LoginResponse × Store :=
  match svc.ValidateToken now refreshToken with
  | .error _ => (.error "invalid refresh token", s)
  | .ok claims =>
    if claims.Type_ != "refresh" then (.error "invalid token type", s)
    else
      match userRepository.GetByID s claims.UserID with
      | .error _ => (.error "user not found", s)
      | .ok user => (.ok (svc.generateTokenResponse now user), s)

/-- `ResetPassword(token, newPassword)`. -/
def ResetPassword (svc : authService) (s : Store) (now : Int) (salt : Nat)
    (token : TokenString) (newPassword : String) : Except String Unit × Store :=
  match svc.ValidateToken now token with
  | .error _ => (.error "invalid or expired reset token", s)
  | .ok claims =>
    if claims.Type_ != "reset" then (.error "invalid token type", s)
    else
      match userRepository.GetByID s claims.UserID with
      | .error _ => (.error "user not found", s)
      | .ok user =>
        match bcryptGenerateFromPassword newPassword bcryptDefaultCost salt with
        | .error err => (.error err, s)
        | .ok hashedPassword =>
          (.ok (), userRepository.Update s now { user with PasswordHash := hashedPassword })

end authService

/-! ## Auth middleware (`middleware/auth.go`) -/

/-- What the middleware does with a request: it aborts with a status and an
error message, or it sets `user_id`, `user_email` and `user_claims` in the
context and calls the next handler. -/
inductive MiddlewareResult where
  | abort (status : Nat) (error : String)
  | next (user_id : UUID) (user_email : String) (user_claims : JWTClaims)
deriving DecidableEq, Repr

/-- `AuthMiddleware(jwtSecret)`.  The `Authorization` header is given as the
pieces `strings.Split(authHeader, " ")` yields, so the empty header is the one
piece `raw ""`. -/
def AuthMiddleware (jwtSecret : String) (now : Int) (authHeader : List TokenString) :
    MiddlewareResult :=
  if authHeader == [.raw ""] then .abort 401 "Authorization header required"
  else
    match authHeader with
    | [bearer, tokenString] =>
      if bearer != .raw "Bearer" then .abort 401 "Invalid authorization header format"
      else
        match jwtParseWithClaims jwtSecret now tokenString with
        | .error _ => .abort 401 "Invalid token"
        | .ok claims =>
          match claims.get "user_id" with
          | some (.str userIDStr) =>
            match uuidParse userIDStr with
            | none => .abort 401 "Invalid user_id format"
            | some userID =>
              match claims.get "email" with
              | some (.str email) =>
                match claims.get "type" with
                | some (.str tokenType) =>
                  if tokenType != "access" then .abort 401 "Invalid token type"
                  else .next userID email { UserID := userID, Email := email, Type_ := tokenType }
                | _ => .abort 401 "Invalid token type"
              | _ => .abort 401 "Invalid email in token"
          | _ => .abort 401 "Invalid user_id in token"
    | _ => .abort 401 "Invalid authorization header format"

/-! ## User service (`user_service.go`) -/

/-- Request body `models.UserUpdateRequest`. -/
structure UserUpdateRequest where
  Name : Option String
  AvatarURL : Option String
deriving DecidableEq, Repr

/-- Request body `models.ChangePasswordRequest`. -/
structure ChangePasswordRequest where
  CurrentPassword : String
  NewPassword : String
deriving DecidableEq, Repr

namespace userService

/-- `GetProfile(userID)`. -/
def GetProfile (s : Store) (userID : UUID) : Except String UserResponse × Store :=
  match userRepository.GetByID s userID with
  | .error err => (.error err, s)
  | .ok user => (.ok user.ToResponse, s)

/-- `UpdateProfile(userID, req)`. -/
def UpdateProfile (s : Store) (now : Int) (userID : UUID) (req : UserUpdateRequest) :
    Except String UserResponse × Store :=
  match userRepository.GetByID s userID with
  | .error err => (.error err, s)
  | .ok user =>
    let user := match req.Name with
      | some n => { user with Name := n }
      | none => user
    let user := match req.AvatarURL with
      | some a => { user with AvatarURL := some a }
      | none => user
    (.ok user.ToResponse, userRepository.Update s now user)

/-- `ChangePassword(userID, req)`; `salt` is the salt bcrypt draws. -/
def ChangePassword (s : Store) (now : Int) (salt : Nat) (userID : UUID)
    (req : ChangePasswordRequest) : Except String Unit × Store :=
  match userRepository.GetByID s userID with
  | .error err => (.error err, s)
  | .ok user =>
    match bcryptCompareHashAndPassword user.PasswordHash req.CurrentPassword with
    | .error _ => (.error "current password is incorrect", s)
    | .ok _ =>
      match bcryptGenerateFromPassword req.NewPassword bcryptDefaultCost salt with
      | .error err => (.error err, s)
      | .ok hashedPassword =>
        (.ok (), userRepository.Update s now { user with PasswordHash := hashedPassword })

/-- `DeleteProfile(userID)`. -/
def DeleteProfile (s : Store) (userID : UUID) : Except String Unit × Store :=
  (.ok (), userRepository.Delete s userID)

end userService

/-! ## Configuration (`config/config.go`) -/

/-- `strconv.Atoi` and `strconv.ParseInt(s, 10, 64)`: an optional sign followed
by one or more decimal digits, denoting a value of the 64-bit range; `none`
stands for a non-nil error. -/
def strconvAtoi (s : String) : Option Int :=
  let cs := s.toList
  let neg := cs.head? == some '-'
  let ds := if cs.head? == some '-' || cs.head? == some '+' then cs.tail else cs
  if ds.isEmpty || !ds.all Char.isDigit then none
  else
    let n : Int := ds.foldl (fun n c => n * 10 + ((c.toNat - 48 : Nat) : Int)) 0
    let v := if neg then -n else n
    if v < -(2 ^ 63) || v ≥ 2 ^ 63 then none else some v

/-- `strings.Split(s, sep)` for a separator of one character. -/
def stringsSplit (s : String) (sep : Char) : List String :=
  (s.toList.foldr
    (fun c acc => if c == sep then [] :: acc else
      match acc with
      | cur :: rest => (c :: cur) :: rest
      | [] => [[c]])
    [[]]).map String.mk

/-- `strings.HasSuffix`. -/
def stringsHasSuffix (s suffix : String) : Bool :=
  suffix.toList.reverse.isPrefixOf s.toList.reverse

/-- `strings.TrimSuffix`. -/
def stringsTrimSuffix (s suffix : String) : String :=
  if stringsHasSuffix s suffix then String.mk (s.toList.take (s.length - suffix.length)) else s

/-- `getEnv(key, defaultValue)`; `env` is `os.Getenv`, the empty text for a
variable that is not set. -/
def getEnv (env : String → String) (key defaultValue : String) : String :=
  if env key != "" then env key else defaultValue

/-- `parseInt(s)`: 0 when `strconv.Atoi` fails (the failure is logged). -/
def parseInt (s : String) : Int :=
  match strconvAtoi s with
  | none => 0
  | some i => i

/-- `parseDuration(s)`, in nanoseconds: one hour when `time.ParseDuration`
fails.  `timeParseDuration` is that library function. -/
def parseDuration (timeParseDuration : String → Option Int) (s : String) : Int :=
  match timeParseDuration s with
  | none => 3600000000000
  | some d => d

/-- `parseSize(s)`: the number before a `KB`, `MB` or `GB` suffix times the
multiplier, in 64 bits; 10 MB when the number does not parse. -/
def parseSize (s : String) : Int :=
  let s := recipeRepository.stringsToUpper s
  let r : Int × String :=
    if stringsHasSuffix s "KB" then (1024, stringsTrimSuffix s "KB")
    else if stringsHasSuffix s "MB" then (1024 * 1024, stringsTrimSuffix s "MB")
    else if stringsHasSuffix s "GB" then (1024 * 1024 * 1024, stringsTrimSuffix s "GB")
    else (1, s)
  match strconvAtoi r.2 with
  | none => 10 * 1024 * 1024
  | some size => recipeRepository.wrapInt64 (size * r.1)

/-- The struct `config.AWSConfig`. -/
structure AWSConfig where
  Region : String
  AccessKeyID : String
  SecretAccessKey : String
  S3Bucket : String
  S3Endpoint : String
deriving DecidableEq, Repr

/-- The struct `config.SecurityConfig`. -/
structure SecurityConfig where
  BCryptCost : Int
deriving DecidableEq, Repr

/-- The struct `config.RateLimitConfig`; the window is in nanoseconds. -/
structure RateLimitConfig where
  Requests : Int
  Window : Int
deriving DecidableEq, Repr

/-- The struct `config.UploadConfig`. -/
structure UploadConfig where
  MaxSize : Int
  AllowedImageTypes : List String
deriving DecidableEq, Repr

/-- The sections of `config.Config` read by the code modelled here; the
server, database, JWT, Redis, SMTP and CORS sections are left out. -/
structure Config where
  AWS : AWSConfig
  Security : SecurityConfig
  RateLimit : RateLimitConfig
  Upload : UploadConfig
deriving DecidableEq, Repr

/-- `Load()`, for the sections of `Config` kept; `env` is the environment once
the `.env` file has been read. -/
def Load (timeParseDuration : String → Option Int) (env : String → String) : Config :=
  { AWS :=
      { Region := getEnv env "AWS_REGION" "us-east-1"
        AccessKeyID := getEnv env "AWS_ACCESS_KEY_ID" ""
        SecretAccessKey := getEnv env "AWS_SECRET_ACCESS_KEY" ""
        S3Bucket := getEnv env "S3_BUCKET" ""
        S3Endpoint := getEnv env "S3_ENDPOINT" "" }
    Security := { BCryptCost := parseInt (getEnv env "BCRYPT_COST" "12") }
    RateLimit :=
      { Requests := parseInt (getEnv env "RATE_LIMIT_REQUESTS" "100")
        Window := parseDuration timeParseDuration (getEnv env "RATE_LIMIT_WINDOW" "1h") }
    Upload :=
      { MaxSize := parseSize (getEnv env "MAX_UPLOAD_SIZE" "10MB")
        AllowedImageTypes :=
          stringsSplit (getEnv env "ALLOWED_IMAGE_TYPES" "jpg,jpeg,png,webp") ',' } }

/-! ## Rate limiter (`middleware/rate_limit.go`) -/

/-- `rate.Every(interval)`, a `rate.Limit` in events per second: `none` is
`rate.Inf`, returned for an interval that is not positive. -/
def rateEvery (interval : Int) : Option ℚ :=
  if interval ≤ 0 then none else some (mkRat 1000000000 interval.toNat)

/-- The struct `rateLimiter`, the lock left out; a visitor is kept as its
address with the time it was last seen. -/
structure rateLimiter where
  visitors : List (String × Int)
  rate : Option ℚ
  burst : Int
deriving DecidableEq, Repr

/-- `newRateLimiter(requests, window)`: `window / time.Duration(requests)` is
the integer division of Go, which truncates and panics on a zero divisor; the
panic is the error.  The clean-up goroutine it starts is not modelled. -/
def newRateLimiter (requests : Int) (window : Int) : Except String rateLimiter :=
  if requests == 0 then .error "runtime error: integer divide by zero"
  else
    let r := rateEvery (recipeRepository.wrapInt64 (Int.tdiv window requests))
    .ok { visitors := [], rate := r, burst := requests }

/-- `RateLimit(requests, window)`: the limiter the returned handler closes
over. -/
def RateLimit (requests : Int) (window : Int) : Except String rateLimiter :=
  newRateLimiter requests window

/-! ## Upload service (`upload_service.go`) -/

/-- `filepath.Ext(path)`: the suffix of the path that begins at the last dot
of its last element, the separator being `/`; empty when that element has no
dot. -/
def filepathExt (path : String) : String :=
  let final := path.toList.reverse.takeWhile (fun c => c != '/')
  let suffix := final.takeWhile (fun c => c != '.')
  if suffix.length < final.length then String.mk ('.' :: suffix.reverse) else ""

/-- The extension `UploadImage` checks: `filepath.Ext` of the file name in
lower case, without its leading dot.  `toLower` is `strings.ToLower`. -/
def imageExt (toLower : String → String) (filename : String) : String :=
  let ext := toLower (filepathExt filename)
  if ext.toList.head? == some '.' then String.mk ext.toList.tail else ext

/-- The fields of `multipart.FileHeader` the service reads. -/
structure FileHeader where
  Filename : String
  Size : Int
deriving DecidableEq, Repr

/-- The fields of `s3.PutObjectInput` the service fills; the body is the bytes
read from the file. -/
structure PutObjectInput where
  Bucket : String
  Key : String
  Body : List Nat
  ContentType : String
  ACL : String
deriving DecidableEq, Repr

/-- The blob store behind the S3 client: the objects put so far. -/
structure S3 where
  objects : List PutObjectInput
deriving DecidableEq, Repr

/-- `s3Client.PutObject(input)`; `failure` is the error the service answers
with, if any.  A failed call stores nothing. -/
def s3PutObject (failure : Option String) (s3 : S3) (input : PutObjectInput) :
    Except String Unit × S3 :=
  match failure with
  | some err => (.error err, s3)
  | none => (.ok (), { objects := s3.objects ++ [input] })

/-- `getContentType(ext)`. -/
def getContentType (ext : String) : String :=
  if ext == "jpg" || ext == "jpeg" then "image/jpeg"
  else if ext == "png" then "image/png"
  else if ext == "webp" then "image/webp"
  else "application/octet-stream"

/-- The struct `uploadService`; the S3 client is the blob store passed to the
call. -/
structure uploadService where
  bucket : String
  config : Config
deriving DecidableEq, Repr

/-- `(*uploadService).UploadImage(file, header)`.  `toLower` is the library
function `strings.ToLower`, `today` is `time.Now().Format("2006/01/02")`,
`fresh` the identifier `uuid.New()` draws, `file` what reading the whole file
yields, `failure` the answer of S3. -/
def uploadService.UploadImage (svc : uploadService) (toLower : String → String)
    (today : String) (fresh : UUID) (failure : Option String) (s3 : S3)
    (file : Except String (List Nat)) (header : FileHeader) : Except String String × S3 :=
  let ext := toLower (filepathExt header.Filename)
  -- strings.TrimPrefix(ext, ".")
  let ext := if ext.toList.head? == some '.' then String.mk ext.toList.tail else ext
  let validType := svc.config.Upload.AllowedImageTypes.any (fun allowedType => ext == allowedType)
  if !validType then (.error ("invalid file type: " ++ ext), s3)
  else if header.Size > svc.config.Upload.MaxSize then
    (.error ("file too large: " ++ toString header.Size ++ " bytes"), s3)
  else
    let filename := "recipes/" ++ today ++ "/" ++ uuidString fresh ++ "." ++ ext
    match file with
    | .error err => (.error err, s3)
    | .ok content =>
      match s3PutObject failure s3
          { Bucket := svc.bucket, Key := filename, Body := content,
            ContentType := getContentType ext, ACL := "public-read" } with
      | (.error err, s3) => (.error err, s3)
      | (.ok _, s3) =>
        (.ok ("https://" ++ svc.bucket ++ ".s3." ++ svc.config.AWS.Region ++ ".amazonaws.com/"
          ++ filename), s3)

/-- `(*mockUploadService).UploadImage`, the service `NewUploadService` falls
back to when no AWS session can be created: it reads neither the file nor the
header and stores nothing. -/
def mockUploadService.UploadImage (fresh : UUID) (s3 : S3) : Except String String × S3 :=
  (.ok ("https://picsum.photos/800/600?random=" ++ uuidString fresh), s3)

/-! ## Handlers of single aggregates (`recipe_handler.go`, `shopping_list_handler.go`,
`collection_handler.go`) -/

/-- What a handler writes with `c.JSON`: a status with the payload, or a status
with the `error` text.  The message of a delete handler is its payload. -/
inductive Response (α : Type) where
  | json (status : Nat) (body : α)
  | error (status : Nat) (error : String)
deriving DecidableEq, Repr

/-- The status a response carries. -/
def Response.status {α : Type} : Response α → Nat
  | .json status _ => status
  | .error status _ => status

namespace RecipeHandler

/-- `(*RecipeHandler).GetRecipe`; `idStr` is the path parameter. -/
def GetRecipe (s : Store) (idStr : String) : Response Recipe × Store :=
  match uuidParse idStr with
  | none => (.error 400 "Invalid recipe ID", s)
  | some id =>
    match recipeService.GetRecipe s id with
    | (.error _, s1) => (.error 404 "Recipe not found", s1)
    | (.ok recipe, s1) => (.json 200 recipe, s1)

/-- `(*RecipeHandler).UpdateRecipe`.  `principal` is what `GetUserID` finds in
the context, `body` what `ShouldBindJSON` yields, `validate` is
`h.validator.Struct`. -/
def UpdateRecipe (validate : RecipeCreateRequest → Except String Unit) (s : Store)
    (principal : Option UUID) (idStr : String) (body : Except String RecipeCreateRequest) :
    Response Recipe × Store :=
  match principal with
  | none => (.error 401 "User not authenticated", s)
  | some userID =>
    match uuidParse idStr with
    | none => (.error 400 "Invalid recipe ID", s)
    | some recipeID =>
      match body with
      | .error err => (.error 400 err, s)
      | .ok req =>
        match validate req with
        | .error err => (.error 400 err, s)
        | .ok _ =>
          match recipeService.UpdateRecipe s userID recipeID req with
          | (.error err, s1) =>
            if err == "unauthorized to update this recipe" then (.error 403 err, s1)
            else (.error 500 err, s1)
          | (.ok recipe, s1) => (.json 200 recipe, s1)

/-- `(*RecipeHandler).DeleteRecipe`. -/
def DeleteRecipe (s : Store) (principal : Option UUID) (idStr : String) :
    Response String × Store :=
  match principal with
  | none => (.error 401 "User not authenticated", s)
  | some userID =>
    match uuidParse idStr with
    | none => (.error 400 "Invalid recipe ID", s)
    | some recipeID =>
      match recipeService.DeleteRecipe s userID recipeID with
      | (.error err, s1) =>
        if err == "unauthorized to delete this recipe" then (.error 403 err, s1)
        else (.error 500 err, s1)
      | (.ok _, s1) => (.json 200 "Recipe deleted successfully", s1)

end RecipeHandler

namespace ShoppingListHandler

/-- `(*ShoppingListHandler).GetShoppingList`. -/
def GetShoppingList (s : Store) (principal : Option UUID) (idStr : String) :
    Response ShoppingList × Store :=
  match principal with
  | none => (.error 401 "User not authenticated", s)
  | some userID =>
    match uuidParse idStr with
    | none => (.error 400 "Invalid shopping list ID", s)
    | some listID =>
      match shoppingListService.GetShoppingList s userID listID with
      | (.error err, s1) =>
        if err == "unauthorized to access this shopping list" then (.error 403 err, s1)
        else (.error 404 "Shopping list not found", s1)
      | (.ok list, s1) => (.json 200 list, s1)

/-- `(*ShoppingListHandler).UpdateShoppingList`. -/
def UpdateShoppingList (validate : ShoppingListUpdateRequest → Except String Unit) (s : Store)
    (principal : Option UUID) (idStr : String) (body : Except String ShoppingListUpdateRequest) :
    Response ShoppingList × Store :=
  match principal with
  | none => (.error 401 "User not authenticated", s)
  | some userID =>
    match uuidParse idStr with
    | none => (.error 400 "Invalid shopping list ID", s)
    | some listID =>
      match body with
      | .error err => (.error 400 err, s)
      | .ok req =>
        match validate req with
        | .error err => (.error 400 err, s)
        | .ok _ =>
          match shoppingListService.UpdateShoppingList s userID listID req with
          | (.error err, s1) =>
            if err == "unauthorized to update this shopping list" then (.error 403 err, s1)
            else (.error 500 err, s1)
          | (.ok list, s1) => (.json 200 list, s1)

/-- `(*ShoppingListHandler).DeleteShoppingList`. -/
def DeleteShoppingList (s : Store) (principal : Option UUID) (idStr : String) :
    Response String × Store :=
  match principal with
  | none => (.error 401 "User not authenticated", s)
  | some userID =>
    match uuidParse idStr with
    | none => (.error 400 "Invalid shopping list ID", s)
    | some listID =>
      match shoppingListService.DeleteShoppingList s userID listID with
      | (.error err, s1) =>
        if err == "unauthorized to delete this shopping list" then (.error 403 err, s1)
        else (.error 500 err, s1)
      | (.ok _, s1) => (.json 200 "Shopping list deleted successfully", s1)

/-- `(*ShoppingListHandler).AddItem`. -/
def AddItem (validate : ShoppingListItemCreateRequest → Except String Unit) (s : Store)
    (principal : Option UUID) (idStr : String)
    (body : Except String ShoppingListItemCreateRequest) : Response ShoppingListItem × Store :=
  match principal with
  | none => (.error 401 "User not authenticated", s)
  | some userID =>
    match uuidParse idStr with
    | none => (.error 400 "Invalid shopping list ID", s)
    | some listID =>
      match body with
      | .error err => (.error 400 err, s)
      | .ok req =>
        match validate req with
        | .error err => (.error 400 err, s)
        | .ok _ =>
          match shoppingListService.AddItem s userID listID req with
          | (.error err, s1) =>
            if err == "unauthorized to modify this shopping list" then (.error 403 err, s1)
            else (.error 500 err, s1)
          | (.ok item, s1) => (.json 201 item, s1)

/-- `(*ShoppingListHandler).UpdateItem`. -/
def UpdateItem (validate : ShoppingListItemUpdateRequest → Except String Unit) (s : Store)
    (principal : Option UUID) (idStr itemIDStr : String)
    (body : Except String ShoppingListItemUpdateRequest) : Response ShoppingListItem × Store :=
  match principal with
  | none => (.error 401 "User not authenticated", s)
  | some userID =>
    match uuidParse idStr with
    | none => (.error 400 "Invalid shopping list ID", s)
    | some listID =>
      match uuidParse itemIDStr with
      | none => (.error 400 "Invalid item ID", s)
      | some itemID =>
        match body with
        | .error err => (.error 400 err, s)
        | .ok req =>
          match validate req with
          | .error err => (.error 400 err, s)
          | .ok _ =>
            match shoppingListService.UpdateItem s userID listID itemID req with
            | (.error err, s1) =>
              if err == "unauthorized to modify this shopping list" then (.error 403 err, s1)
              else (.error 500 err, s1)
            | (.ok item, s1) => (.json 200 item, s1)

/-- `(*ShoppingListHandler).DeleteItem`. -/
def DeleteItem (s : Store) (principal : Option UUID) (idStr itemIDStr : String) :
    Response String × Store :=
  match principal with
  | none => (.error 401 "User not authenticated", s)
  | some userID =>
    match uuidParse idStr with
    | none => (.error 400 "Invalid shopping list ID", s)
    | some listID =>
      match uuidParse itemIDStr with
      | none => (.error 400 "Invalid item ID", s)
      | some itemID =>
        match shoppingListService.DeleteItem s userID listID itemID with
        | (.error err, s1) =>
          if err == "unauthorized to modify this shopping list" then (.error 403 err, s1)
          else (.error 500 err, s1)
        | (.ok _, s1) => (.json 200 "Item deleted successfully", s1)

end ShoppingListHandler

namespace CollectionHandler

/-- `(*CollectionHandler).GetCollection`. -/
def GetCollection (s : Store) (principal : Option UUID) (idStr : String) :
    Response Collection × Store :=
  match principal with
  | none => (.error 401 "User not authenticated", s)
  | some userID =>
    match uuidParse idStr with
    | none => (.error 400 "Invalid collection ID", s)
    | some collectionID =>
      match collectionService.GetCollection s userID collectionID with
      | (.error err, s1) =>
        if err == "unauthorized to access this collection" then (.error 403 err, s1)
        else (.error 404 "Collection not found", s1)
      | (.ok collection, s1) => (.json 200 collection, s1)

/-- `(*CollectionHandler).UpdateCollection`. -/
def UpdateCollection (validate : CollectionUpdateRequest → Except String Unit) (s : Store)
    (principal : Option UUID) (idStr : String) (body : Except String CollectionUpdateRequest) :
    Response Collection × Store :=
  match principal with
  | none => (.error 401 "User not authenticated", s)
  | some userID =>
    match uuidParse idStr with
    | none => (.error 400 "Invalid collection ID", s)
    | some collectionID =>
      match body with
      | .error err => (.error 400 err, s)
      | .ok req =>
        match validate req with
        | .error err => (.error 400 err, s)
        | .ok _ =>
          match collectionService.UpdateCollection s userID collectionID req with
          | (.error err, s1) =>
            if err == "unauthorized to update this collection" then (.error 403 err, s1)
            else (.error 500 err, s1)
          | (.ok collection, s1) => (.json 200 collection, s1)

/-- `(*CollectionHandler).DeleteCollection`. -/
def DeleteCollection (s : Store) (principal : Option UUID) (idStr : String) :
    Response String × Store :=
  match principal with
  | none => (.error 401 "User not authenticated", s)
  | some userID =>
    match uuidParse idStr with
    | none => (.error 400 "Invalid collection ID", s)
    | some collectionID =>
      match collectionService.DeleteCollection s userID collectionID with
      | (.error err, s1) =>
        if err == "unauthorized to delete this collection" then (.error 403 err, s1)
        else (.error 500 err, s1)
      | (.ok _, s1) => (.json 200 "Collection deleted successfully", s1)

end CollectionHandler

/-! ## Rows written by the creation loops -/

/-- The rows `createIngredients` inserts: each struct with the recipe id and,
through its hook, the identifiers drawn after `next`. -/
def ingredientRows (recipeID : UUID) : Nat → List Ingredient → List Ingredient
  | _, [] => []
  | next, i :: rest =>
    ({ i with RecipeID := recipeID } : Ingredient).BeforeCreate (next + 1)
      :: ingredientRows recipeID (next + 1) rest

/-- The rows `createInstructions` inserts. -/
def instructionRows (recipeID : UUID) : Nat → List Instruction → List Instruction
  | _, [] => []
  | next, i :: rest =>
    ({ i with RecipeID := recipeID } : Instruction).BeforeCreate (next + 1)
      :: instructionRows recipeID (next + 1) rest

/-- What an ingredient row says, its identifiers left out. -/
def Ingredient.content (i : Ingredient) :
    String × Option ℚ × Option String × Option String × Int :=
  (i.Name, i.Amount, i.Unit, i.Notes, i.OrderIndex)

/-- What an instruction row says, its identifiers left out. -/
def Instruction.content (i : Yummio.Instruction) :
    Int × String × Option String × Option Int :=
  (i.Step, i.Instruction, i.ImageURL, i.TimerMinutes)

/-- What the request asks for ingredient number `p.1`: the explicit order
index when given, the position otherwise. -/
def IngredientCreateRequest.content (p : Nat × IngredientCreateRequest) :
    String × Option ℚ × Option String × Option String × Int :=
  (p.2.Name, p.2.Amount, p.2.Unit, p.2.Notes,
    match p.2.OrderIndex with
    | some i => i
    | none => (p.1 : Int))

/-- What the request asks for an instruction. -/
def InstructionCreateRequest.content (r : InstructionCreateRequest) :
    Int × String × Option String × Option Int :=
  (r.Step, r.Instruction, r.ImageURL, r.TimerMinutes)

/-- What a shopping-list item row says, its identifiers left out. -/
def ShoppingListItem.content (i : ShoppingListItem) :
    String × Option ℚ × Option String × Option String × Bool × Int :=
  (i.Name, i.Amount, i.Unit, i.Notes, i.Completed, i.OrderIndex)

/-- What the request asks for item number `p.1` of a new list: not completed,
with the explicit order index when given and the position otherwise. -/
def ShoppingListItemCreateRequest.content (p : Nat × ShoppingListItemCreateRequest) :
    String × Option ℚ × Option String × Option String × Bool × Int :=
  (p.2.Name, p.2.Amount, p.2.Unit, p.2.Notes, false,
    match p.2.OrderIndex with
    | some i => i
    | none => (p.1 : Int))

/-- The nutrition record `UpdateRecipe` hands to the repository when the
request carries a nutrition and the recipe has one: the existing record with
the eight values of the request. -/
def Nutrition.overwrite (existing : Nutrition) (n : NutritionCreateRequest) : Nutrition :=
  { existing with Calories := n.Calories, Protein := n.Protein, Carbs := n.Carbs, Fat := n.Fat,
                  Fiber := n.Fiber, Sugar := n.Sugar, Sodium := n.Sodium,
                  Cholesterol := n.Cholesterol }

/-! ## Sample data -/

/-- A private recipe of user 10, rated once. -/
def sampleRecipe : Recipe :=
  { ID := 1, UserID := 10, Title := "Soup", Description := none, ImageURL := none,
    PrepTime := none, CookTime := none, Servings := none, Difficulty := none, Type_ := none,
    Rating := 5, RatingCount := 1, IsPublic := false, DeletedAt := false,
    Ingredients := [], Instructions := [], Tags := [], Nutrition := none }

/-- A private collection of user 10. -/
def sampleCollection : Collection :=
  { ID := 2, UserID := 10, Name := "Dinners", Description := none, ImageURL := none,
    IsPublic := false, DeletedAt := false, Recipes := [] }

/-- Two shopping lists, of users 10 and 30. -/
def sampleLists : List ShoppingList :=
  [{ ID := 3, UserID := 10, Name := "Groceries", DeletedAt := false, Items := [] },
   { ID := 4, UserID := 30, Name := "Party", DeletedAt := false, Items := [] }]

/-- One item, in list 3. -/
def sampleItem : ShoppingListItem :=
  { ID := 5, ShoppingListID := 3, Name := "Milk", Amount := some 1, Unit := some "L",
    Notes := none, Completed := false, OrderIndex := 0 }

/-- A store holding the sample rows; user 20 has rated the recipe with 5. -/
def sampleStore : Store :=
  { Store.empty with
    recipes := [sampleRecipe]
    ratings := [{ ID := 6, UserID := 20, RecipeID := 1, Rating := 5, Review := none }]
    collections := [sampleCollection]
    shopping_lists := sampleLists
    shopping_list_items := [sampleItem]
    nextID := 6 }

/-- A recipe request with a title only. -/
def sampleRecipeRequest : RecipeCreateRequest :=
  { Title := "Stew", Description := none, ImageURL := none, PrepTime := none, CookTime := none,
    Servings := none, Difficulty := none, Type_ := none, IsPublic := none, Ingredients := [],
    Instructions := [], Tags := [], Nutrition := none }

/-- A collection update that renames. -/
def sampleCollectionUpdate : CollectionUpdateRequest :=
  { Name := some "Suppers", Description := none, ImageURL := none, IsPublic := none }

/-- An item request. -/
def sampleItemRequest : ShoppingListItemCreateRequest :=
  { Name := "Bread", Amount := none, Unit := none, Notes := none, OrderIndex := none }

/-- An item update that ticks the item off. -/
def sampleItemUpdate : ShoppingListItemUpdateRequest :=
  { Name := none, Amount := none, Unit := none, Notes := none, Completed := some true,
    OrderIndex := none }

/-- A public recipe of user 10. -/
def samplePublicRecipe : Recipe :=
  { sampleRecipe with ID := 7, Title := "Salad", Rating := 0, RatingCount := 0, IsPublic := true }

/-- The sample store with the public recipe added. -/
def sampleListingStore : Store :=
  { sampleStore with recipes := [sampleRecipe, samplePublicRecipe], nextID := 7 }

/-- First page of twenty, no filter, default order. -/
def sampleQuery : RecipeQuery :=
  { Page := 1, Limit := 20, Search := none, Difficulty := none, Type_ := none, Tags := [],
    UserID := none, SortBy := none, SortOrder := none }

/-- An engine whose `ORDER BY` hands the rows back in table order. -/
def orderByTableOrder : String → List Recipe → Except String (List Recipe) :=
  fun _ rows => .ok rows

/-- The rating requests used below: one star, no review. -/
def sampleRateRequest : RateRecipeRequest := { Rating := 1, Review := none }

/-- Three ingredient rows of recipe 1. -/
def sampleIngredients : List Ingredient :=
  [{ ID := 11, RecipeID := 1, Name := "Water", Amount := none, Unit := none, Notes := none,
     OrderIndex := 0 },
   { ID := 12, RecipeID := 1, Name := "Leek", Amount := none, Unit := none, Notes := none,
     OrderIndex := 1 },
   { ID := 13, RecipeID := 1, Name := "Salt", Amount := none, Unit := none, Notes := none,
     OrderIndex := 2 }]

/-- The tag "spicy". -/
def sampleTag : Tag := { ID := 8, Name := "spicy", Color := none }

/-- A store in which recipe 1 of user 10 has three ingredients and the tag
"spicy". -/
def sampleTaggedStore : Store :=
  { Store.empty with
    recipes := [sampleRecipe]
    ingredients := sampleIngredients
    tags := [sampleTag]
    recipe_tags := [(1, 8)]
    nextID := 13 }

/-- Recipe 1 as `GetByID` loads it from `sampleTaggedStore`. -/
def sampleLoadedRecipe : Recipe :=
  { sampleRecipe with Ingredients := sampleIngredients, Tags := [sampleTag] }

/-- An update request with one ingredient, one instruction and the tag "quick". -/
def sampleUpdateRequest : RecipeCreateRequest :=
  { sampleRecipeRequest with
    Ingredients := [{ Name := "Salt", Amount := none, Unit := none, Notes := none,
                      OrderIndex := none }]
    Instructions := [{ Step := 1, Instruction := "Season", ImageURL := none,
                       TimerMinutes := none }]
    Tags := ["quick"] }

/-- A create request with the tags "spicy", "quick" and "spicy" again. -/
def sampleTagsRequest : RecipeCreateRequest :=
  { sampleRecipeRequest with Tags := ["spicy", "quick", "spicy"] }

/-- The tag "quick". -/
def sampleQuickTag : Tag := { ID := 9, Name := "quick", Color := none }

/-- A store in which the public recipe 7 is tagged "spicy" and not "quick". -/
def sampleTagListingStore : Store :=
  { Store.empty with
    recipes := [samplePublicRecipe]
    tags := [sampleTag, sampleQuickTag]
    recipe_tags := [(7, 8)]
    nextID := 9 }

/-- A listing query for the tags "spicy" and "quick". -/
def sampleTagQuery : RecipeQuery := { sampleQuery with Tags := ["spicy", "quick"] }

/-- `n` public recipes of user 10, numbered from 100. -/
def numberedRecipes (n : Nat) : List Recipe :=
  (List.range n).map (fun i => { samplePublicRecipe with ID := 100 + i })

/-- A store holding `n` public recipes. -/
def numberedStore (n : Nat) : Store :=
  { Store.empty with recipes := numberedRecipes n, nextID := 100 + n }

/-- A query string without parameters. -/
def sampleParams : ListingParams :=
  { page := none, limit := none, search := none, difficulty := none, type_ := none, tags := [],
    user_id := none, sort_by := none, sort_order := none }

/-- An engine that fails with the `ORDER BY` text it was handed. -/
def orderByEcho : String → List Recipe → Except String (List Recipe) :=
  fun clause _ => .error clause

/-- The request of the scenario: the list "Groceries" with milk and eggs. -/
def sampleGroceriesRequest : ShoppingListCreateRequest :=
  { Name := "Groceries"
    Items := [{ Name := "Milk", Amount := some 1, Unit := some "L", Notes := none,
                OrderIndex := none },
              { Name := "Eggs", Amount := some 12, Unit := some "pcs", Notes := none,
                OrderIndex := none }] }

/-- The store after user 10 has created "Groceries" in the empty store: the
list has id 1, milk id 2 and eggs id 3. -/
def sampleGroceriesStore : Store :=
  (shoppingListService.CreateShoppingList Store.empty 10 sampleGroceriesRequest).2

/-- The store after bread has been added to list 1; bread has id 4. -/
def sampleBreadStore : Store :=
  (shoppingListService.AddItem sampleGroceriesStore 10 1 sampleItemRequest).2

/-- The store after the eggs, item 3, have been deleted. -/
def sampleNoEggsStore : Store :=
  (shoppingListService.DeleteItem sampleBreadStore 10 1 3).2

/-- An auth service with secret "k", access expiry 24 h, refresh expiry 168 h. -/
def sampleAuthService : authService :=
  { jwtSecret := "k", accessExpiry := 86400000000000, refreshExpiry := 604800000000000 }

/-- The registration of the scenario. -/
def sampleRegisterRequest : UserCreateRequest :=
  { Name := "Ann", Email := "ann@x.com", Password := "secret1" }

/-- The store after Ann has registered in the empty store at second 1, the
salt being 7; Ann has id 1. -/
def sampleAnnStore : Store :=
  (sampleAuthService.Register Store.empty 1000000000 7 sampleRegisterRequest).2

/-- An access, a refresh and a reset token of Ann, issued at second 2. -/
def sampleAccessToken : TokenString :=
  sampleAuthService.generateToken 2000000000 1 "ann@x.com" "access" 86400000000000

/-- The refresh token. -/
def sampleRefreshToken : TokenString :=
  sampleAuthService.generateToken 2000000000 1 "ann@x.com" "refresh" 604800000000000

/-- The reset token. -/
def sampleResetToken : TokenString :=
  sampleAuthService.generateToken 2000000000 1 "ann@x.com" "reset" 3600000000000

/-- The store after the milk, item 2, has been deleted from the list with
bread. -/
def sampleNoMilkStore : Store :=
  (shoppingListService.DeleteItem sampleBreadStore 10 1 2).2

/-- A second item request without an order index. -/
def sampleJamRequest : ShoppingListItemCreateRequest :=
  { Name := "Jam", Amount := none, Unit := none, Notes := none, OrderIndex := none }

/-- The store after jam has been added to the list without milk. -/
def sampleJamStore : Store :=
  (shoppingListService.AddItem sampleNoMilkStore 10 1 sampleJamRequest).2

/-- The environment in which only `RATE_LIMIT_REQUESTS` is set, to `abc`. -/
def sampleEnv : String → String :=
  fun key => if key == "RATE_LIMIT_REQUESTS" then "abc" else ""

/-- A `time.ParseDuration` that knows the texts `1h` and `1m`. -/
def sampleParseDuration : String → Option Int :=
  fun text =>
    if text == "1h" then some 3600000000000
    else if text == "1m" then some 60000000000
    else none

/-- An upload service for the bucket `b` with the default upload limits. -/
def sampleUploadService : uploadService :=
  { bucket := "b", config := Load sampleParseDuration (fun _ => "") }

/-- A validator that accepts every request. -/
def validateAny {α : Type} : α → Except String Unit := fun _ => .ok ()

/-- A store in which recipe 1 has a nutrition record, with id 9. -/
def sampleNutritionStore : Store :=
  { sampleStore with
    nutritions := [{ ID := 9, RecipeID := 1, Calories := some 100, Protein := none, Carbs := none,
                     Fat := none, Fiber := none, Sugar := none, Sodium := none,
                     Cholesterol := none }]
    nextID := 9 }

/-- An update request that carries a nutrition of 250 calories. -/
def sampleNutritionRequest : RecipeCreateRequest :=
  { sampleRecipeRequest with
    Nutrition := some { Calories := some 250, Protein := none, Carbs := none, Fat := none,
                        Fiber := none, Sugar := none, Sodium := none, Cholesterol := none } }

/-! ## Ownership checks -/

/-- C3: for an existing recipe or collection and a user who is not its owner,
`UpdateRecipe`, `DeleteRecipe`, `UpdateCollection`, `DeleteCollection`,
`AddRecipeToCollection` and `RemoveRecipeFromCollection` fail with the error
"unauthorized to update/delete/modify this recipe/collection" and leave the
store as it was, whether or not the resource is public. -/
theorem non_owner_mutation_forbidden (s : Store) (userID : UUID) :
    (∀ recipeID recipe, recipeRepository.GetByID s recipeID = .ok recipe →
        recipe.UserID ≠ userID →
        (∀ req, recipeService.UpdateRecipe s userID recipeID req
            = (.error "unauthorized to update this recipe", s)) ∧
        recipeService.DeleteRecipe s userID recipeID
            = (.error "unauthorized to delete this recipe", s)) ∧
    (∀ collectionID collection, collectionRepository.GetByID s collectionID = .ok collection →
        collection.UserID ≠ userID →
        (∀ req, collectionService.UpdateCollection s userID collectionID req
            = (.error "unauthorized to update this collection", s)) ∧
        collectionService.DeleteCollection s userID collectionID
            = (.error "unauthorized to delete this collection", s) ∧
        (∀ recipeID, collectionService.AddRecipeToCollection s userID collectionID recipeID
            = (.error "unauthorized to modify this collection", s)) ∧
        (∀ recipeID, collectionService.RemoveRecipeFromCollection s userID collectionID recipeID
            = (.error "unauthorized to modify this collection", s))) := by
  refine ⟨?_, ?_⟩
  · intro recipeID recipe hget hne
    refine ⟨?_, ?_⟩
    · intro req
      simp [recipeService.UpdateRecipe, hget, hne]
    · simp [recipeService.DeleteRecipe, hget, hne]
  · intro collectionID collection hget hne
    refine ⟨?_, ?_, ?_, ?_⟩
    · intro req
      simp [collectionService.UpdateCollection, hget, hne]
    · simp [collectionService.DeleteCollection, hget, hne]
    · intro recipeID
      simp [collectionService.AddRecipeToCollection, hget, hne]
    · intro recipeID
      simp [collectionService.RemoveRecipeFromCollection, hget, hne]

/-- Witness for C3: user 30 against the recipe and the collection of user 10. -/
theorem non_owner_mutation_forbidden_witness :
    recipeService.UpdateRecipe sampleStore 30 1 sampleRecipeRequest
        = (.error "unauthorized to update this recipe", sampleStore) ∧
    recipeService.DeleteRecipe sampleStore 30 1
        = (.error "unauthorized to delete this recipe", sampleStore) ∧
    collectionService.UpdateCollection sampleStore 30 2 sampleCollectionUpdate
        = (.error "unauthorized to update this collection", sampleStore) ∧
    collectionService.DeleteCollection sampleStore 30 2
        = (.error "unauthorized to delete this collection", sampleStore) ∧
    collectionService.AddRecipeToCollection sampleStore 30 2 1
        = (.error "unauthorized to modify this collection", sampleStore) ∧
    collectionService.RemoveRecipeFromCollection sampleStore 30 2 1
        = (.error "unauthorized to modify this collection", sampleStore) :=
  have hr := (non_owner_mutation_forbidden sampleStore 30).1 1 sampleRecipe rfl (by decide)
  have hc := (non_owner_mutation_forbidden sampleStore 30).2 2 sampleCollection rfl (by decide)
  ⟨hr.1 sampleRecipeRequest, hr.2, hc.1 sampleCollectionUpdate, hc.2.1, hc.2.2.1 1, hc.2.2.2 1⟩

/-- A shopping list returned by `GetByID` is a live row with the requested id;
preloading leaves its owner untouched. -/
theorem shoppingList_getByID_row (s : Store) (id : UUID) (list : ShoppingList)
    (h : shoppingListRepository.GetByID s id = .ok list) :
    ∃ row ∈ s.shopping_lists,
      row.ID = id ∧ row.DeletedAt = false ∧ row.UserID = list.UserID := by
  unfold shoppingListRepository.GetByID at h
  cases hf : s.shopping_lists.find? (fun l => l.ID == id && !l.DeletedAt) with
  | none => simp [hf, firstOr] at h
  | some row =>
    simp only [hf, firstOr] at h
    have hmem := List.mem_of_find?_eq_some hf
    have hp := List.find?_some hf
    simp only [Bool.and_eq_true, beq_iff_eq, Bool.not_eq_true'] at hp
    injection h with h
    subst h
    exact ⟨row, hmem, hp.1, hp.2, rfl⟩

/-- C4: for an existing shopping list and a user who is not its owner, the six
list and item operations fail with an "unauthorized to ... this shopping list"
error, return no data and leave the store as it was; and whenever `AddItem`,
`UpdateItem` or `DeleteItem` succeeds, the list named in the call is a live
row owned by the caller. -/
theorem shopping_list_owner_only (s : Store) (userID listID : UUID) :
    (∀ list, shoppingListRepository.GetByID s listID = .ok list → list.UserID ≠ userID →
        shoppingListService.GetShoppingList s userID listID
            = (.error "unauthorized to access this shopping list", s) ∧
        (∀ req, shoppingListService.UpdateShoppingList s userID listID req
            = (.error "unauthorized to update this shopping list", s)) ∧
        shoppingListService.DeleteShoppingList s userID listID
            = (.error "unauthorized to delete this shopping list", s) ∧
        (∀ req, shoppingListService.AddItem s userID listID req
            = (.error "unauthorized to modify this shopping list", s)) ∧
        (∀ itemID req, shoppingListService.UpdateItem s userID listID itemID req
            = (.error "unauthorized to modify this shopping list", s)) ∧
        (∀ itemID, shoppingListService.DeleteItem s userID listID itemID
            = (.error "unauthorized to modify this shopping list", s))) ∧
    (∀ req item s1, shoppingListService.AddItem s userID listID req = (.ok item, s1) →
        ∃ row ∈ s.shopping_lists, row.ID = listID ∧ row.DeletedAt = false ∧ row.UserID = userID) ∧
    (∀ itemID req item s1,
        shoppingListService.UpdateItem s userID listID itemID req = (.ok item, s1) →
        ∃ row ∈ s.shopping_lists, row.ID = listID ∧ row.DeletedAt = false ∧ row.UserID = userID) ∧
    (∀ itemID s1, shoppingListService.DeleteItem s userID listID itemID = (.ok (), s1) →
        ∃ row ∈ s.shopping_lists, row.ID = listID ∧ row.DeletedAt = false ∧ row.UserID = userID) := by
  refine ⟨?_, ?_, ?_, ?_⟩
  · intro list hget hne
    refine ⟨?_, ?_, ?_, ?_, ?_, ?_⟩
    · simp [shoppingListService.GetShoppingList, hget, hne]
    · intro req
      simp [shoppingListService.UpdateShoppingList, hget, hne]
    · simp [shoppingListService.DeleteShoppingList, hget, hne]
    · intro req
      simp [shoppingListService.AddItem, hget, hne]
    · intro itemID req
      simp [shoppingListService.UpdateItem, hget, hne]
    · intro itemID
      simp [shoppingListService.DeleteItem, hget, hne]
  · intro req item s1 h
    cases hget : shoppingListRepository.GetByID s listID with
    | error e => simp [shoppingListService.AddItem, hget] at h
    | ok list =>
      by_cases hown : list.UserID = userID
      · obtain ⟨row, hmem, h1, h2, h3⟩ := shoppingList_getByID_row s listID list hget
        exact ⟨row, hmem, h1, h2, h3.trans hown⟩
      · simp [shoppingListService.AddItem, hget, hown] at h
  · intro itemID req item s1 h
    cases hget : shoppingListRepository.GetByID s listID with
    | error e => simp [shoppingListService.UpdateItem, hget] at h
    | ok list =>
      by_cases hown : list.UserID = userID
      · obtain ⟨row, hmem, h1, h2, h3⟩ := shoppingList_getByID_row s listID list hget
        exact ⟨row, hmem, h1, h2, h3.trans hown⟩
      · simp [shoppingListService.UpdateItem, hget, hown] at h
  · intro itemID s1 h
    cases hget : shoppingListRepository.GetByID s listID with
    | error e => simp [shoppingListService.DeleteItem, hget] at h
    | ok list =>
      by_cases hown : list.UserID = userID
      · obtain ⟨row, hmem, h1, h2, h3⟩ := shoppingList_getByID_row s listID list hget
        exact ⟨row, hmem, h1, h2, h3.trans hown⟩
      · simp [shoppingListService.DeleteItem, hget, hown] at h

/-- Witness for C4: user 30 against list 3 of user 10, and the owner adding an
item to it. -/
theorem shopping_list_owner_only_witness :
    (shoppingListService.GetShoppingList sampleStore 30 3
        = (.error "unauthorized to access this shopping list", sampleStore) ∧
      shoppingListService.AddItem sampleStore 30 3 sampleItemRequest
        = (.error "unauthorized to modify this shopping list", sampleStore) ∧
      shoppingListService.UpdateItem sampleStore 30 3 5 sampleItemUpdate
        = (.error "unauthorized to modify this shopping list", sampleStore) ∧
      shoppingListService.DeleteItem sampleStore 30 3 5
        = (.error "unauthorized to modify this shopping list", sampleStore)) ∧
    (∃ row ∈ sampleStore.shopping_lists,
        row.ID = 3 ∧ row.DeletedAt = false ∧ row.UserID = 10) :=
  have h := (shopping_list_owner_only sampleStore 30 3).1
    { ID := 3, UserID := 10, Name := "Groceries", DeletedAt := false, Items := [sampleItem] }
    rfl (by decide)
  ⟨⟨h.1, h.2.2.2.1 sampleItemRequest, h.2.2.2.2.1 5 sampleItemUpdate, h.2.2.2.2.2 5⟩,
    (shopping_list_owner_only sampleStore 10 3).2.2.2 5
      { sampleStore with shopping_list_items := [] } rfl⟩

/-- C5: on an existing collection, `GetCollection` returns the collection, and
leaves the store alone, exactly when the requester is the owner or the
collection is public; otherwise it fails with "unauthorized to access this
collection" and returns no collection. -/
theorem get_collection_owner_or_public (s : Store) (userID collectionID : UUID)
    (collection : Collection)
    (hget : collectionRepository.GetByID s collectionID = .ok collection) :
    (collectionService.GetCollection s userID collectionID = (.ok collection, s)
        ↔ (collection.UserID = userID ∨ collection.IsPublic = true)) ∧
    (¬ (collection.UserID = userID ∨ collection.IsPublic = true) →
        collectionService.GetCollection s userID collectionID
          = (.error "unauthorized to access this collection", s)) := by
  by_cases hown : collection.UserID = userID
  · simp [collectionService.GetCollection, hget, hown]
  · cases hpub : collection.IsPublic with
    | true => simp [collectionService.GetCollection, hget, hown, hpub]
    | false => simp [collectionService.GetCollection, hget, hown, hpub]

/-- Witness for C5: the private collection of user 10 is returned to user 10
and refused to user 30. -/
theorem get_collection_owner_or_public_witness :
    collectionService.GetCollection sampleStore 10 2 = (.ok sampleCollection, sampleStore) ∧
    collectionService.GetCollection sampleStore 30 2
      = (.error "unauthorized to access this collection", sampleStore) :=
  ⟨(get_collection_owner_or_public sampleStore 10 2 sampleCollection rfl).1.2 (Or.inl rfl),
    (get_collection_owner_or_public sampleStore 30 2 sampleCollection rfl).2 (by decide)⟩

/-- C6: when the owner of list `listID` calls `UpdateItem` or `DeleteItem` with
an existing item of another list, the call fails with "item does not belong to
this shopping list", an error other than the unauthorized one, and the store
is left as it was; and an `UpdateItem` or `DeleteItem` that succeeds was given
the id of the item's own parent list. -/
theorem item_of_other_list_rejected (s : Store) (userID listID itemID : UUID) :
    (∀ list item, shoppingListRepository.GetByID s listID = .ok list → list.UserID = userID →
        shoppingListRepository.GetItem s itemID = .ok item → item.ShoppingListID ≠ listID →
        (∀ req, shoppingListService.UpdateItem s userID listID itemID req
            = (.error "item does not belong to this shopping list", s)) ∧
        shoppingListService.DeleteItem s userID listID itemID
            = (.error "item does not belong to this shopping list", s)) ∧
    "item does not belong to this shopping list" ≠ "unauthorized to modify this shopping list" ∧
    (∀ req updated s1,
        shoppingListService.UpdateItem s userID listID itemID req = (.ok updated, s1) →
        ∃ item, shoppingListRepository.GetItem s itemID = .ok item ∧
          item.ShoppingListID = listID) ∧
    (∀ s1, shoppingListService.DeleteItem s userID listID itemID = (.ok (), s1) →
        ∃ item, shoppingListRepository.GetItem s itemID = .ok item ∧
          item.ShoppingListID = listID) := by
  refine ⟨?_, by decide, ?_, ?_⟩
  · intro list item hget hown hitem hne
    refine ⟨?_, ?_⟩
    · intro req
      simp [shoppingListService.UpdateItem, hget, hown, hitem, hne]
    · simp [shoppingListService.DeleteItem, hget, hown, hitem, hne]
  · intro req updated s1 h
    cases hget : shoppingListRepository.GetByID s listID with
    | error e => simp [shoppingListService.UpdateItem, hget] at h
    | ok list =>
      by_cases hown : list.UserID = userID
      · cases hitem : shoppingListRepository.GetItem s itemID with
        | error e => simp [shoppingListService.UpdateItem, hget, hown, hitem] at h
        | ok item =>
          by_cases hpar : item.ShoppingListID = listID
          · exact ⟨item, rfl, hpar⟩
          · simp [shoppingListService.UpdateItem, hget, hown, hitem, hpar] at h
      · simp [shoppingListService.UpdateItem, hget, hown] at h
  · intro s1 h
    cases hget : shoppingListRepository.GetByID s listID with
    | error e => simp [shoppingListService.DeleteItem, hget] at h
    | ok list =>
      by_cases hown : list.UserID = userID
      · cases hitem : shoppingListRepository.GetItem s itemID with
        | error e => simp [shoppingListService.DeleteItem, hget, hown, hitem] at h
        | ok item =>
          by_cases hpar : item.ShoppingListID = listID
          · exact ⟨item, rfl, hpar⟩
          · simp [shoppingListService.DeleteItem, hget, hown, hitem, hpar] at h
      · simp [shoppingListService.DeleteItem, hget, hown] at h

/-- Witness for C6: user 30 owns list 4 and names item 5, which is in list 3. -/
theorem item_of_other_list_rejected_witness :
    shoppingListService.UpdateItem sampleStore 30 4 5 sampleItemUpdate
      = (.error "item does not belong to this shopping list", sampleStore) ∧
    shoppingListService.DeleteItem sampleStore 30 4 5
      = (.error "item does not belong to this shopping list", sampleStore) ∧
    (∃ item, shoppingListRepository.GetItem sampleStore 5 = .ok item ∧
      item.ShoppingListID = 3) :=
  have h := (item_of_other_list_rejected sampleStore 30 4 5).1
    { ID := 4, UserID := 30, Name := "Party", DeletedAt := false, Items := [] } sampleItem
    rfl rfl rfl (by decide)
  ⟨h.1 sampleItemUpdate, h.2,
    (item_of_other_list_rejected sampleStore 10 3 5).2.2.2
      { sampleStore with shopping_list_items := [] } rfl⟩

/-! ## Visibility of recipes -/

/-- Every recipe on a page built by `queryRecipes` is a row of the scope it was
given, with its tags preloaded, provided the engine's `ORDER BY` returns rows
of its input. -/
theorem queryRecipes_page_from_scope
    (orderBy : String → List Recipe → Except String (List Recipe))
    (horder : ∀ clause rows sorted, orderBy clause rows = .ok sorted → ∀ r ∈ sorted, r ∈ rows)
    (s : Store) (db : List Recipe) (query : RecipeQuery) (page : List Recipe) (total : Int)
    (h : recipeRepository.queryRecipes orderBy s db query = .ok (page, total)) :
    ∀ x ∈ page, ∃ r ∈ db, x = { r with Tags := recipeRepository.preloadTags s r.ID } := by
  intro x hx
  unfold recipeRepository.queryRecipes at h
  simp only at h
  split at h
  · simp at h
  · rename_i sorted hsorted
    simp only [Except.ok.injEq, Prod.mk.injEq] at h
    obtain ⟨hpage, -⟩ := h
    subst hpage
    obtain ⟨r, hr, rfl⟩ := List.mem_map.1 hx
    refine ⟨r, ?_, rfl⟩
    have hr1 : r ∈ sorted := by
      unfold recipeRepository.paginate at hr
      simp only at hr
      split at hr
      · split at hr
        · exact List.mem_of_mem_drop (List.mem_of_mem_take hr)
        · exact List.mem_of_mem_take hr
      · split at hr
        · exact List.mem_of_mem_drop hr
        · exact hr
    have hr2 := horder _ _ _ hsorted r hr1
    have hr3 : r ∈ recipeRepository.filterType query
        (recipeRepository.filterDifficulty query db) := by
      unfold recipeRepository.filterTags at hr2
      split at hr2
      · exact List.mem_of_mem_filter hr2
      · exact hr2
    have hr4 : r ∈ recipeRepository.filterDifficulty query db := by
      unfold recipeRepository.filterType at hr3
      split at hr3
      · split at hr3
        · exact List.mem_of_mem_filter hr3
        · exact hr3
      · exact hr3
    unfold recipeRepository.filterDifficulty at hr4
    split at hr4
    · split at hr4
      · exact List.mem_of_mem_filter hr4
      · exact hr4
    · exact hr4

/-- C2 on the code: `GetRecipe` takes no requester and checks nothing, so it
hands the private recipe of user 10 to whoever asks for id 1 instead of failing
with Forbidden; and `GetFavorites` does not filter on `is_public`, so once
user 30 has favorited the recipe it is on user 30's `GetFavorites` page. -/
theorem private_recipe_read_counterexample :
    sampleRecipe.IsPublic = false ∧ sampleRecipe.UserID = 10 ∧
    recipeService.GetRecipe sampleStore 1 = (.ok sampleRecipe, sampleStore) ∧
    recipeService.GetFavorites orderByTableOrder
        (recipeService.FavoriteRecipe sampleStore 30 1).2 30 sampleQuery
      = (.ok ([sampleRecipe], 1), (recipeService.FavoriteRecipe sampleStore 30 1).2) :=
  ⟨rfl, rfl, rfl, rfl⟩

/-- The part of the visibility rule that the public listings keep: every
recipe on a `GetRecipes` or `SearchRecipes` page is a live row with
`is_public = true` (tags preloaded), so a private recipe is never listed to
anyone.  `GetRecipe`, which takes no requester, succeeds for the id of every
live recipe, whatever its `is_public` flag. -/
theorem private_recipe_never_listed
    (orderBy : String → List Recipe → Except String (List Recipe))
    (horder : ∀ clause rows sorted, orderBy clause rows = .ok sorted → ∀ r ∈ sorted, r ∈ rows)
    (s : Store) (query : RecipeQuery) :
    (∀ page total, recipeService.GetRecipes orderBy s query = (.ok (page, total), s) →
        ∀ x ∈ page, x.IsPublic = true ∧ ∃ r ∈ s.recipes, r.IsPublic = true ∧
          r.DeletedAt = false ∧ x = { r with Tags := recipeRepository.preloadTags s r.ID }) ∧
    (∀ page total, recipeService.SearchRecipes orderBy s query = (.ok (page, total), s) →
        ∀ x ∈ page, x.IsPublic = true ∧ ∃ r ∈ s.recipes, r.IsPublic = true ∧
          r.DeletedAt = false ∧ x = { r with Tags := recipeRepository.preloadTags s r.ID }) ∧
    (∀ r ∈ s.recipes, r.DeletedAt = false →
        ∃ found, recipeService.GetRecipe s r.ID = (.ok found, s) ∧ found.ID = r.ID) := by
  have scope : ∀ r, r ∈ s.recipes.filter (fun r => !r.DeletedAt && r.IsPublic) →
      r ∈ s.recipes ∧ r.IsPublic = true ∧ r.DeletedAt = false := by
    intro r hr
    have h1 := List.mem_filter.1 hr
    have h2 := h1.2
    simp only [Bool.and_eq_true, Bool.not_eq_true'] at h2
    exact ⟨h1.1, h2.2, h2.1⟩
  refine ⟨?_, ?_, ?_⟩
  · intro page total h x hx
    simp only [recipeService.GetRecipes, recipeRepository.GetAll, Prod.mk.injEq, and_true] at h
    obtain ⟨r, hr, rfl⟩ := queryRecipes_page_from_scope orderBy horder s _ query page total h x hx
    obtain ⟨h1, h2, h3⟩ := scope r hr
    exact ⟨h2, r, h1, h2, h3, rfl⟩
  · intro page total h x hx
    simp only [recipeService.SearchRecipes, recipeRepository.Search, Prod.mk.injEq,
      and_true] at h
    obtain ⟨r, hr, rfl⟩ := queryRecipes_page_from_scope orderBy horder s _ query page total h x hx
    have hr1 : r ∈ s.recipes.filter (fun r => !r.DeletedAt && r.IsPublic) := by
      split at hr
      · split at hr
        · exact List.mem_of_mem_filter hr
        · exact hr
      · exact hr
    obtain ⟨h1, h2, h3⟩ := scope r hr1
    exact ⟨h2, r, h1, h2, h3, rfl⟩
  · intro r hr hlive
    cases hf : s.recipes.find? (fun x => x.ID == r.ID && !x.DeletedAt) with
    | none =>
      have hnone := List.find?_eq_none.1 hf r hr
      simp [hlive] at hnone
    | some row =>
      have hp := List.find?_some hf
      simp only [Bool.and_eq_true, beq_iff_eq] at hp
      refine ⟨{ row with
          Ingredients := s.ingredients.filter (fun i => i.RecipeID == r.ID)
          Instructions := s.instructions.filter (fun i => i.RecipeID == r.ID)
          Tags := recipeRepository.preloadTags s r.ID
          Nutrition := s.nutritions.find? (fun n => n.RecipeID == r.ID) }, ?_, hp.1⟩
      simp only [recipeService.GetRecipe, recipeRepository.GetByID, hf, firstOr]

/-- An instance of the listing rule: on a store with the private and the public
recipe of user 10, the `GetRecipes` page of an engine answering in table order
holds the public one only, and `GetRecipe` finds the private one by id. -/
theorem private_recipe_never_listed_witness :
    (∀ x ∈ [samplePublicRecipe], x.IsPublic = true ∧ ∃ r ∈ sampleListingStore.recipes,
        r.IsPublic = true ∧ r.DeletedAt = false ∧
          x = { r with Tags := recipeRepository.preloadTags sampleListingStore r.ID }) ∧
    (∃ found, recipeService.GetRecipe sampleListingStore sampleRecipe.ID
        = (.ok found, sampleListingStore) ∧ found.ID = sampleRecipe.ID) :=
  have h := private_recipe_never_listed orderByTableOrder
    (fun _ rows sorted hs r hr => by
      simp only [orderByTableOrder, Except.ok.injEq] at hs
      exact hs ▸ hr)
    sampleListingStore sampleQuery
  ⟨h.1 [samplePublicRecipe] 1 rfl, h.2.2 sampleRecipe (by decide) rfl⟩

/-! ## Ratings -/

/-- C1 at a failing input: recipe 1 holds one rating, 5 by user 20, and its row
says rating 5, count 1.  User 30 rates it 1.  The call succeeds and the store
holds the two ratings 5 and 1, whose mean is 3, but the recipe row still says
rating 5 and count 1, whatever scanning a `NULL` average would do. -/
theorem rate_recipe_second_user_stale (scanNull : Except String ℚ) :
    recipeService.RateRecipe scanNull sampleStore 30 1 sampleRateRequest
      = (.ok (), { sampleStore with
          ratings := [{ ID := 6, UserID := 20, RecipeID := 1, Rating := 5, Review := none },
                      { ID := 7, UserID := 30, RecipeID := 1, Rating := 1, Review := none }]
          nextID := 7 }) ∧
    (recipeService.RateRecipe scanNull sampleStore 30 1 sampleRateRequest).2.recipes.map
        (fun r => (r.ID, r.Rating, r.RatingCount)) = [(1, 5, 1)] ∧
    mkRat (5 + 1) 2 = 3 :=
  ⟨rfl, rfl, by decide⟩

/-- C10 on the code: the recipe rows `RateRecipe` leaves behind are those that
`UpdateRating` computes from the store as it was before the rating was
written, for every store and rating, because `UpdateRating` runs its statements
on `r.db` and not on `tx`.  So when user 20, whose rating of recipe 1 was 5,
rates it 1, the rating row becomes 1 and the recipe row keeps rating 5. -/
theorem rate_recipe_recomputes_outside_tx (scanNull : Except String ℚ) (s : Store)
    (rating : Rating) :
    (recipeRepository.RateRecipe scanNull s rating).2.recipes
      = (recipeRepository.UpdateRating scanNull s rating.RecipeID).2.recipes ∧
    recipeService.RateRecipe scanNull sampleStore 20 1 sampleRateRequest
      = (.ok (), { sampleStore with
          ratings := [{ ID := 6, UserID := 20, RecipeID := 1, Rating := 1, Review := none }] }) ∧
    sampleStore.recipes.map (fun r => (r.ID, r.Rating, r.RatingCount)) = [(1, 5, 1)] := by
  refine ⟨?_, rfl, rfl⟩
  unfold recipeRepository.RateRecipe Transaction
  simp only [TxState.view, id]
  cases hfind : s.ratings.find?
      (fun x => x.UserID == rating.UserID && x.RecipeID == rating.RecipeID) with
  | none =>
    simp only [recipeRepository.txCreateRating, TxState.exec, TxState.view, id]
    cases hu : (recipeRepository.UpdateRating scanNull s rating.RecipeID).1 with
    | error e => simp [hu]
    | ok u => simp [hu, Store.bumpUUID]
  | some existing =>
    simp only [TxState.exec, id]
    cases hu : (recipeRepository.UpdateRating scanNull s rating.RecipeID).1 with
    | error e => simp [hu]
    | ok u =>
      simp only [hu, recipeRepository.saveRating]
      split <;> rfl

/-! ## Aggregate composition -/

theorem txState_exec_view (t : TxState) (w : Store → Store) : (t.exec w).view = w t.view := rfl

theorem txState_begin_view (s : Store) : (TxState.mk s id).view = s := rfl

theorem createIngredients_view (recipeID : UUID) (l : List Ingredient) (t : TxState) :
    (recipeRepository.createIngredients recipeID l t).view
      = { t.view with
          ingredients := t.view.ingredients ++ ingredientRows recipeID t.view.nextID l
          nextID := t.view.nextID + l.length } := by
  induction l generalizing t with
  | nil => simp [recipeRepository.createIngredients, ingredientRows]
  | cons i rest ih =>
    simp only [recipeRepository.createIngredients, recipeRepository.txCreateIngredient, ih,
      txState_exec_view, Store.bumpUUID, Store.newUUID, ingredientRows, List.length_cons,
      List.append_assoc, List.singleton_append, Nat.add_assoc, Nat.add_comm 1]

theorem createInstructions_view (recipeID : UUID) (l : List Instruction) (t : TxState) :
    (recipeRepository.createInstructions recipeID l t).view
      = { t.view with
          instructions := t.view.instructions ++ instructionRows recipeID t.view.nextID l
          nextID := t.view.nextID + l.length } := by
  induction l generalizing t with
  | nil => simp [recipeRepository.createInstructions, instructionRows]
  | cons i rest ih =>
    simp only [recipeRepository.createInstructions, recipeRepository.txCreateInstruction, ih,
      txState_exec_view, Store.bumpUUID, Store.newUUID, instructionRows, List.length_cons,
      List.append_assoc, List.singleton_append, Nat.add_assoc, Nat.add_comm 1]

theorem ingredientRows_content (recipeID : UUID) (l : List Ingredient) (next : Nat) :
    (ingredientRows recipeID next l).map Ingredient.content = l.map Ingredient.content ∧
    ∀ x ∈ ingredientRows recipeID next l, x.RecipeID = recipeID := by
  induction l generalizing next with
  | nil => simp [ingredientRows]
  | cons i rest ih =>
    have h := ih (next + 1)
    refine ⟨?_, ?_⟩
    · simp only [ingredientRows, List.map_cons, h.1, List.cons.injEq, and_true]
      unfold Ingredient.BeforeCreate Ingredient.content
      split <;> rfl
    · intro x hx
      simp only [ingredientRows, List.mem_cons] at hx
      cases hx with
      | inl hx =>
        subst hx
        unfold Ingredient.BeforeCreate
        split <;> rfl
      | inr hx => exact h.2 x hx

theorem instructionRows_content (recipeID : UUID) (l : List Instruction) (next : Nat) :
    (instructionRows recipeID next l).map Instruction.content = l.map Instruction.content ∧
    ∀ x ∈ instructionRows recipeID next l, x.RecipeID = recipeID := by
  induction l generalizing next with
  | nil => simp [instructionRows]
  | cons i rest ih =>
    have h := ih (next + 1)
    refine ⟨?_, ?_⟩
    · simp only [instructionRows, List.map_cons, h.1, List.cons.injEq, and_true]
      unfold Instruction.BeforeCreate Instruction.content
      split <;> rfl
    · intro x hx
      simp only [instructionRows, List.mem_cons] at hx
      cases hx with
      | inl hx =>
        subst hx
        unfold Instruction.BeforeCreate
        split <;> rfl
      | inr hx => exact h.2 x hx

theorem buildIngredients_content (reqs : List IngredientCreateRequest) :
    (recipeService.buildIngredients reqs).map Ingredient.content
      = reqs.enum.map IngredientCreateRequest.content := by
  unfold recipeService.buildIngredients
  rw [List.map_map]
  apply List.map_congr_left
  intro p _
  simp only [Function.comp, IngredientCreateRequest.content, Ingredient.content]
  cases p.2.OrderIndex <;> rfl

theorem buildInstructions_content (reqs : List InstructionCreateRequest) :
    (recipeService.buildInstructions reqs).map Instruction.content
      = reqs.map InstructionCreateRequest.content := by
  unfold recipeService.buildInstructions
  rw [List.map_map]
  rfl

/-- Deleting the rows of a recipe and appending rows of that recipe leaves, for
that recipe, exactly the appended rows, and the rows of others as they were. -/
theorem filter_replace_rows {α : Type} (key : α → UUID) (recipeID : UUID) (old rows : List α)
    (hrows : ∀ x ∈ rows, key x = recipeID) :
    (old.filter (fun x => !(key x == recipeID)) ++ rows).filter (fun x => key x == recipeID)
      = rows ∧
    (old.filter (fun x => !(key x == recipeID)) ++ rows).filter (fun x => !(key x == recipeID))
      = old.filter (fun x => !(key x == recipeID)) := by
  refine ⟨?_, ?_⟩
  · rw [List.filter_append, List.filter_filter]
    have h1 : old.filter (fun x => (key x == recipeID) && !(key x == recipeID)) = [] := by
      apply List.filter_eq_nil_iff.2
      intro x _
      simp
    have h2 : rows.filter (fun x => key x == recipeID) = rows := by
      apply List.filter_eq_self.2
      intro x hx
      simp [hrows x hx]
    rw [h1, h2, List.nil_append]
  · rw [List.filter_append, List.filter_filter]
    have h1 : rows.filter (fun x => !(key x == recipeID)) = [] := by
      apply List.filter_eq_nil_iff.2
      intro x hx
      simp [hrows x hx]
    rw [h1, List.append_nil]
    congr 1
    funext x
    simp

theorem saveRecipe_frame (recipe : Recipe) (s : Store) :
    (recipeRepository.saveRecipe recipe s).ingredients = s.ingredients ∧
    (recipeRepository.saveRecipe recipe s).instructions = s.instructions ∧
    (recipeRepository.saveRecipe recipe s).tags = s.tags ∧
    (recipeRepository.saveRecipe recipe s).recipe_tags = s.recipe_tags ∧
    (recipeRepository.saveRecipe recipe s).nextID = s.nextID := by
  unfold recipeRepository.saveRecipe
  split <;> exact ⟨rfl, rfl, rfl, rfl, rfl⟩

theorem txSaveNutrition_frame (t : TxState) (n : Nutrition) :
    (recipeRepository.txSaveNutrition t n).2.view.recipes = t.view.recipes ∧
    (recipeRepository.txSaveNutrition t n).2.view.ingredients = t.view.ingredients ∧
    (recipeRepository.txSaveNutrition t n).2.view.instructions = t.view.instructions ∧
    (recipeRepository.txSaveNutrition t n).2.view.tags = t.view.tags ∧
    (recipeRepository.txSaveNutrition t n).2.view.recipe_tags = t.view.recipe_tags := by
  unfold recipeRepository.txSaveNutrition
  split
  · exact ⟨rfl, rfl, rfl, rfl, rfl⟩
  · simp only [txState_exec_view]
    split <;> exact ⟨rfl, rfl, rfl, rfl, rfl⟩

/-- The store `Update` commits: the recipe row saved, the ingredient and
instruction rows of the recipe replaced by those of the struct, tags and their
links untouched. -/
theorem recipeRepository_update_rows (s : Store) (recipe : Recipe) :
    ∃ s1, recipeRepository.Update s recipe = (.ok (), s1) ∧
      s1.recipes = (recipeRepository.saveRecipe recipe s).recipes ∧
      s1.ingredients = s.ingredients.filter (fun i => !(i.RecipeID == recipe.ID))
        ++ ingredientRows recipe.ID s.nextID recipe.Ingredients ∧
      s1.instructions = s.instructions.filter (fun i => !(i.RecipeID == recipe.ID))
        ++ instructionRows recipe.ID (s.nextID + recipe.Ingredients.length)
            recipe.Instructions ∧
      s1.tags = s.tags ∧ s1.recipe_tags = s.recipe_tags := by
  obtain ⟨f1, f2, f3, f4, f5⟩ := saveRecipe_frame recipe s
  unfold recipeRepository.Update Transaction
  cases hn : recipe.Nutrition with
  | none =>
    refine ⟨_, rfl, ?_⟩
    simp only [createInstructions_view, createIngredients_view, txState_exec_view,
      txState_begin_view, f1, f2, f3, f4, f5]
    exact ⟨trivial, trivial, trivial, trivial, trivial⟩
  | some n =>
    refine ⟨_, rfl, ?_⟩
    obtain ⟨g1, g2, g3, g4, g5⟩ := txSaveNutrition_frame
      (recipeRepository.createInstructions recipe.ID recipe.Instructions
        ((recipeRepository.createIngredients recipe.ID recipe.Ingredients
          (((TxState.mk s id).exec (recipeRepository.saveRecipe recipe)).exec
            (fun s => { s with ingredients :=
              s.ingredients.filter (fun i => !(i.RecipeID == recipe.ID)) }))).exec
          (fun s => { s with instructions :=
            s.instructions.filter (fun i => !(i.RecipeID == recipe.ID)) })))
      { n with RecipeID := recipe.ID }
    simp only [g1, g2, g3, g4, g5, createInstructions_view, createIngredients_view,
      txState_exec_view, txState_begin_view, f1, f2, f3, f4, f5]
    exact ⟨trivial, trivial, trivial, trivial, trivial⟩

theorem recipe_getByID_facts (s : Store) (id : UUID) (r : Recipe)
    (h : recipeRepository.GetByID s id = .ok r) :
    r.ID = id ∧ r.DeletedAt = false ∧
    r.Ingredients = s.ingredients.filter (fun i => i.RecipeID == id) ∧
    r.Instructions = s.instructions.filter (fun i => i.RecipeID == id) ∧
    r.Tags = recipeRepository.preloadTags s id ∧
    ∃ row ∈ s.recipes, row.ID = id ∧ row.UserID = r.UserID := by
  unfold recipeRepository.GetByID at h
  cases hf : s.recipes.find? (fun x => x.ID == id && !x.DeletedAt) with
  | none => simp [hf, firstOr] at h
  | some row =>
    simp only [hf, firstOr] at h
    have hmem := List.mem_of_find?_eq_some hf
    have hp := List.find?_some hf
    simp only [Bool.and_eq_true, beq_iff_eq, Bool.not_eq_true'] at hp
    injection h with h
    subst h
    exact ⟨hp.1, hp.2, rfl, rfl, rfl, row, hmem, hp.1, rfl⟩

theorem applyRecipeUpdate_facts (recipe : Recipe) (req : RecipeCreateRequest) :
    (recipeService.applyRecipeUpdate recipe req).ID = recipe.ID ∧
    (recipeService.applyRecipeUpdate recipe req).UserID = recipe.UserID ∧
    (recipeService.applyRecipeUpdate recipe req).DeletedAt = recipe.DeletedAt ∧
    (recipeService.applyRecipeUpdate recipe req).Ingredients
      = recipeService.buildIngredients req.Ingredients ∧
    (recipeService.applyRecipeUpdate recipe req).Instructions
      = recipeService.buildInstructions req.Instructions ∧
    (recipeService.applyRecipeUpdate recipe req).Tags = recipe.Tags := by
  unfold recipeService.applyRecipeUpdate
  cases req.IsPublic <;> cases req.Nutrition <;> cases recipe.Nutrition <;>
    exact ⟨rfl, rfl, rfl, rfl, rfl, rfl⟩

/-- After `Save` of a live struct whose id is in the table, the first live row
with that id is the struct's row. -/
theorem find_after_saveRecipe (recipe : Recipe) (hlive : recipe.DeletedAt = false)
    (l : List Recipe) (hany : l.any (fun x => x.ID == recipe.ID) = true) :
    (l.map (fun x => if x.ID == recipe.ID then recipe.row else x)).find?
      (fun x => x.ID == recipe.ID && !x.DeletedAt) = some recipe.row := by
  induction l with
  | nil => simp at hany
  | cons x rest ih =>
    by_cases hx : x.ID = recipe.ID
    · simp [hx, Recipe.row, hlive]
    · have hrest : rest.any (fun x => x.ID == recipe.ID) = true := by
        simpa [hx] using hany
      simp only [List.map_cons, beq_iff_eq, hx, if_false]
      rw [List.find?_cons_of_neg]
      · simpa using ih hrest
      · simp [hx]

/-- C9: a successful `UpdateRecipe` (the caller owns the recipe) leaves for
that recipe exactly the rows created from the request: one ingredient per
request element, in submission order, with the explicit order index when given
and the 0-based position otherwise, and one instruction per request element
with the caller's step; rows of the recipe from before the update are gone,
rows of other recipes are untouched, and the recipe returned carries these
rows. -/
theorem update_recipe_replaces_children (s : Store) (userID recipeID : UUID)
    (req : RecipeCreateRequest) (recipe : Recipe)
    (hget : recipeRepository.GetByID s recipeID = .ok recipe)
    (hown : recipe.UserID = userID) :
    ∃ updated s1, recipeService.UpdateRecipe s userID recipeID req = (.ok updated, s1) ∧
      s1.ingredients.filter (fun i => i.RecipeID == recipeID)
        = ingredientRows recipeID s.nextID (recipeService.buildIngredients req.Ingredients) ∧
      (s1.ingredients.filter (fun i => i.RecipeID == recipeID)).map Ingredient.content
        = req.Ingredients.enum.map IngredientCreateRequest.content ∧
      s1.instructions.filter (fun i => i.RecipeID == recipeID)
        = instructionRows recipeID (s.nextID + req.Ingredients.length)
            (recipeService.buildInstructions req.Instructions) ∧
      (s1.instructions.filter (fun i => i.RecipeID == recipeID)).map Instruction.content
        = req.Instructions.map InstructionCreateRequest.content ∧
      updated.Ingredients = s1.ingredients.filter (fun i => i.RecipeID == recipeID) ∧
      updated.Instructions = s1.instructions.filter (fun i => i.RecipeID == recipeID) ∧
      s1.ingredients.filter (fun i => !(i.RecipeID == recipeID))
        = s.ingredients.filter (fun i => !(i.RecipeID == recipeID)) ∧
      s1.instructions.filter (fun i => !(i.RecipeID == recipeID))
        = s.instructions.filter (fun i => !(i.RecipeID == recipeID)) := by
  obtain ⟨hid, hlive, -, -, -, row, hrow, hrowid, -⟩ := recipe_getByID_facts s recipeID recipe hget
  obtain ⟨aid, -, alive, aing, ains, -⟩ := applyRecipeUpdate_facts recipe req
  obtain ⟨s1, hupd, hrec, hing, hins, -, -⟩ :=
    recipeRepository_update_rows s (recipeService.applyRecipeUpdate recipe req)
  rw [aid, hid, aing] at hing
  rw [aid, hid, ains, aing] at hins
  have hlen : (recipeService.buildIngredients req.Ingredients).length = req.Ingredients.length := by
    simp [recipeService.buildIngredients]
  rw [hlen] at hins
  have hany : s.recipes.any
      (fun x => x.ID == (recipeService.applyRecipeUpdate recipe req).ID) = true := by
    rw [aid, hid]
    exact List.any_eq_true.2 ⟨row, hrow, by simp [hrowid]⟩
  have hfind := find_after_saveRecipe (recipeService.applyRecipeUpdate recipe req)
    (alive.trans hlive) s.recipes hany
  have hrec1 : s1.recipes = s.recipes.map (fun x =>
      if x.ID == (recipeService.applyRecipeUpdate recipe req).ID
      then (recipeService.applyRecipeUpdate recipe req).row else x) := by
    rw [hrec]
    unfold recipeRepository.saveRecipe
    rw [if_pos hany]
  have hfind1 : s1.recipes.find? (fun x => x.ID == recipeID && !x.DeletedAt)
      = some (recipeService.applyRecipeUpdate recipe req).row := by
    rw [hrec1]
    rw [aid, hid] at hfind ⊢
    exact hfind
  have i1 := ingredientRows_content recipeID (recipeService.buildIngredients req.Ingredients)
    s.nextID
  have i2 := instructionRows_content recipeID (recipeService.buildInstructions req.Instructions)
    (s.nextID + req.Ingredients.length)
  have fi := filter_replace_rows (fun i : Ingredient => i.RecipeID) recipeID s.ingredients _ i1.2
  have fs := filter_replace_rows (fun i : Instruction => i.RecipeID) recipeID s.instructions _ i2.2
  rw [← hing] at fi
  rw [← hins] at fs
  refine ⟨{ (recipeService.applyRecipeUpdate recipe req).row with
      Ingredients := s1.ingredients.filter (fun i => i.RecipeID == recipeID)
      Instructions := s1.instructions.filter (fun i => i.RecipeID == recipeID)
      Tags := recipeRepository.preloadTags s1 recipeID
      Nutrition := s1.nutritions.find? (fun n => n.RecipeID == recipeID) },
    s1, ?_, fi.1, ?_, fs.1, ?_, rfl, rfl, fi.2, fs.2⟩
  · have hfinal : recipeRepository.GetByID s1 recipeID = .ok
        { (recipeService.applyRecipeUpdate recipe req).row with
          Ingredients := s1.ingredients.filter (fun i => i.RecipeID == recipeID)
          Instructions := s1.instructions.filter (fun i => i.RecipeID == recipeID)
          Tags := recipeRepository.preloadTags s1 recipeID
          Nutrition := s1.nutritions.find? (fun n => n.RecipeID == recipeID) } := by
      simp only [recipeRepository.GetByID, hfind1, firstOr]
    simp only [recipeService.UpdateRecipe, hget, hown, bne_self_eq_false, Bool.false_eq_true,
      if_false, hupd, aid, hid, hfinal]
  · rw [fi.1, i1.1, buildIngredients_content]
  · rw [fs.1, i2.1, buildInstructions_content]

/-- Witness for C9: recipe 1 has three ingredient rows; its owner updates it
with one ingredient and one instruction; one ingredient row and one instruction
row are left for it. -/
theorem update_recipe_replaces_children_witness :
    ∃ updated s1,
      recipeService.UpdateRecipe sampleTaggedStore 10 1 sampleUpdateRequest = (.ok updated, s1) ∧
      (s1.ingredients.filter (fun i => i.RecipeID == 1)).map Ingredient.content
        = [("Salt", none, none, none, 0)] ∧
      (s1.instructions.filter (fun i => i.RecipeID == 1)).map Instruction.content
        = [(1, "Season", none, none)] ∧
      updated.Ingredients.length = 1 := by
  obtain ⟨updated, s1, h1, h2, h3, -, h5, h6, -⟩ :=
    update_recipe_replaces_children sampleTaggedStore 10 1 sampleUpdateRequest
      sampleLoadedRecipe rfl rfl
  exact ⟨updated, s1, h1, h3, h5, by rw [h6, h2]; rfl⟩

/-- C8 on the code: `UpdateRecipe` never writes `tags` or `recipe_tags`, for
every store, caller, recipe and request, so the tag names of the request are
dropped.  Recipe 1 is tagged "spicy"; its owner updates it with the tag list
"quick"; the update succeeds, the recipe returned is still tagged "spicy" and
no tag "quick" exists. -/
theorem update_recipe_ignores_tags :
    (∀ (s : Store) (userID recipeID : UUID) (req : RecipeCreateRequest),
        (recipeService.UpdateRecipe s userID recipeID req).2.tags = s.tags ∧
        (recipeService.UpdateRecipe s userID recipeID req).2.recipe_tags = s.recipe_tags) ∧
    sampleUpdateRequest.Tags = ["quick"] ∧
    (∃ updated s1,
      recipeService.UpdateRecipe sampleTaggedStore 10 1 sampleUpdateRequest = (.ok updated, s1) ∧
      updated.Tags = [sampleTag] ∧ s1.tags = [sampleTag] ∧ s1.recipe_tags = [(1, 8)]) := by
  refine ⟨?_, rfl, ?_⟩
  · intro s userID recipeID req
    unfold recipeService.UpdateRecipe
    cases hget : recipeRepository.GetByID s recipeID with
    | error e => exact ⟨rfl, rfl⟩
    | ok recipe =>
      simp only
      split
      · exact ⟨rfl, rfl⟩
      · obtain ⟨s1, hupd, -, -, -, htags, hlinks⟩ :=
          recipeRepository_update_rows s (recipeService.applyRecipeUpdate recipe req)
        simp only [hupd]
        exact ⟨htags, hlinks⟩
  · exact ⟨_, _, rfl, rfl, rfl, rfl⟩

/-- The loop of `Create` over the tags only appends tag rows (named as
requested), keeps tag names distinct, and fills each slot with a stored row of
the requested name. -/
theorem resolveTags_spec (l : List Tag) (t : TxState) :
    ∃ added n,
      (recipeRepository.resolveTags l t).2.view
        = { t.view with tags := t.view.tags ++ added, nextID := n } ∧
      (∀ a ∈ added, a.Name ∈ l.map Tag.Name) ∧
      ((t.view.tags.map Tag.Name).Nodup → ((t.view.tags ++ added).map Tag.Name).Nodup) ∧
      (recipeRepository.resolveTags l t).1.map Tag.Name = l.map Tag.Name ∧
      (∀ x ∈ (recipeRepository.resolveTags l t).1, x ∈ t.view.tags ++ added) := by
  induction l generalizing t with
  | nil =>
    exact ⟨[], t.view.nextID, by simp [recipeRepository.resolveTags], by simp, by simp,
      by simp [recipeRepository.resolveTags], by simp [recipeRepository.resolveTags]⟩
  | cons tag rest ih =>
    cases hf : t.view.tags.find? (fun x => x.Name == tag.Name) with
    | some existingTag =>
      obtain ⟨added, n, hview, hnames, hnodup, hmap, hmem⟩ := ih t
      have hp := List.find?_some hf
      have he : existingTag.Name = tag.Name := by simpa using hp
      have hin := List.mem_of_find?_eq_some hf
      refine ⟨added, n, ?_, ?_, hnodup, ?_, ?_⟩
      · simp only [recipeRepository.resolveTags, hf, hview]
      · intro a ha
        exact List.mem_cons_of_mem _ (hnames a ha)
      · simp only [recipeRepository.resolveTags, hf, List.map_cons, hmap, he]
      · intro x hx
        simp only [recipeRepository.resolveTags, hf, List.mem_cons] at hx
        cases hx with
        | inl hx => exact hx ▸ List.mem_append_left _ hin
        | inr hx => exact hmem x hx
    | none =>
      have hview0 : (recipeRepository.txCreateTag t tag).2.view
          = { t.view with tags := t.view.tags ++ [tag.BeforeCreate t.view.newUUID]
                          nextID := t.view.nextID + 1 } := rfl
      have hname : (tag.BeforeCreate t.view.newUUID).Name = tag.Name := by
        unfold Tag.BeforeCreate
        split <;> rfl
      obtain ⟨added, n, hview, hnames, hnodup, hmap, hmem⟩ :=
        ih (recipeRepository.txCreateTag t tag).2
      rw [hview0] at hview hnodup hmem
      simp only [List.append_assoc, List.singleton_append] at hview hnodup hmem
      refine ⟨tag.BeforeCreate t.view.newUUID :: added, n, ?_, ?_, ?_, ?_, ?_⟩
      · simp only [recipeRepository.resolveTags, hf, hview]
      · intro a ha
        cases List.mem_cons.1 ha with
        | inl h => simp [h, hname]
        | inr h => exact List.mem_cons_of_mem _ (hnames a h)
      · intro hnd
        apply hnodup
        rw [List.map_append, List.map_cons, List.map_nil, hname]
        apply List.Nodup.append hnd (List.nodup_singleton _)
        intro a ha hb
        have hb1 : a = tag.Name := by simpa using hb
        subst hb1
        obtain ⟨x, hx, hxn⟩ := List.mem_map.1 ha
        have hnone := List.find?_eq_none.1 hf x hx
        simp [hxn] at hnone
      · simp only [recipeRepository.resolveTags, hf, List.map_cons, hmap]
        rw [show (recipeRepository.txCreateTag t tag).1 = tag.BeforeCreate t.view.newUUID
          from rfl, hname]
      · intro x hx
        simp only [recipeRepository.resolveTags, hf, List.mem_cons] at hx
        cases hx with
        | inl hx =>
          rw [hx]
          exact List.mem_append_right _ (List.mem_cons_self _ _)
        | inr hx => exact hmem x hx

theorem insertPair_mem (p q : UUID × UUID) (acc : List (UUID × UUID)) :
    q ∈ insertPair p acc ↔ q ∈ acc ∨ q = p := by
  unfold insertPair
  split
  · constructor
    · exact Or.inl
    · intro h
      cases h with
      | inl h => exact h
      | inr h => exact h ▸ ‹p ∈ acc›
  · simp

theorem foldl_insertPair_mem (recipeID : UUID) (tags : List Tag) (acc : List (UUID × UUID))
    (q : UUID × UUID) :
    q ∈ tags.foldl (fun acc tag => insertPair (recipeID, tag.ID) acc) acc
      ↔ q ∈ acc ∨ ∃ tag ∈ tags, q = (recipeID, tag.ID) := by
  induction tags generalizing acc with
  | nil => simp
  | cons tag rest ih =>
    simp only [List.foldl_cons, ih, insertPair_mem, List.mem_cons, exists_eq_or_imp]
    tauto

/-- After `Replace`, the recipe is linked to every tag handed over; the tables
other than `recipe_tags` are as before. -/
theorem replaceTags_spec (recipeID : UUID) (tags : List Tag) (s : Store) :
    (∀ tag ∈ tags, (recipeID, tag.ID) ∈ (recipeRepository.replaceTags recipeID tags s).recipe_tags) ∧
    (recipeRepository.replaceTags recipeID tags s).tags = s.tags ∧
    (recipeRepository.replaceTags recipeID tags s).recipes = s.recipes := by
  refine ⟨?_, rfl, rfl⟩
  intro tag htag
  simp only [recipeRepository.replaceTags]
  exact (foldl_insertPair_mem recipeID tags _ _).2 (Or.inr ⟨tag, htag, rfl⟩)

theorem recipe_getByID_of_live_row (s : Store) (r : Recipe) (hr : r ∈ s.recipes)
    (hlive : r.DeletedAt = false) :
    ∃ found, recipeRepository.GetByID s r.ID = .ok found ∧ found.ID = r.ID := by
  cases hf : s.recipes.find? (fun x => x.ID == r.ID && !x.DeletedAt) with
  | none =>
    have hnone := List.find?_eq_none.1 hf r hr
    simp [hlive] at hnone
  | some row =>
    have hp := List.find?_some hf
    simp only [Bool.and_eq_true, beq_iff_eq] at hp
    refine ⟨{ row with
        Ingredients := s.ingredients.filter (fun i => i.RecipeID == r.ID)
        Instructions := s.instructions.filter (fun i => i.RecipeID == r.ID)
        Tags := recipeRepository.preloadTags s r.ID
        Nutrition := s.nutritions.find? (fun n => n.RecipeID == r.ID) }, ?_, hp.1⟩
    simp only [recipeRepository.GetByID, hf, firstOr]

theorem buildRecipe_facts (userID : UUID) (req : RecipeCreateRequest) :
    (recipeService.buildRecipe userID req).ID = uuidNil ∧
    (recipeService.buildRecipe userID req).DeletedAt = false ∧
    (recipeService.buildRecipe userID req).Tags.map Tag.Name = req.Tags := by
  have hnames : (recipeService.buildTags req.Tags).map Tag.Name = req.Tags := by
    simp [recipeService.buildTags, List.map_map, Function.comp_def]
  unfold recipeService.buildRecipe
  cases req.IsPublic <;> cases req.Nutrition <;> exact ⟨rfl, rfl, hnames⟩

/-- C7 on the code: `tx.Create(recipe)` saves the tags of the struct before
the loop of `Create` looks any name up.  With "spicy" stored as tag 8, creating
a recipe tagged "spicy" and "quick" inserts "quick" only, then links the recipe
to the hook-made id of the "spicy" struct, which is no stored tag: the call
fails on the foreign key and the transaction is rolled back, so no recipe, tag
or link is written.  The same happens for a name repeated in the request.  A
request whose names are all new and distinct succeeds, with one row per name
and the recipe linked to each. -/
theorem create_recipe_rejects_known_tag :
    sampleTaggedStore.tags = [{ ID := 8, Name := "spicy", Color := none }] ∧
    recipeService.CreateRecipe sampleTaggedStore 10
        { sampleRecipeRequest with Tags := ["spicy", "quick"] }
      = (.error recipeRepository.ErrRecipeTagsForeignKey, sampleTaggedStore) ∧
    (recipeRepository.txCreateRecipe { root := sampleTaggedStore, pending := id }
        (recipeService.buildRecipe 10
          { sampleRecipeRequest with Tags := ["spicy", "quick"] })).2.view.tags
      = [{ ID := 8, Name := "spicy", Color := none },
         { ID := 16, Name := "quick", Color := none }] ∧
    recipeRepository.tagHookRows 14 (recipeService.buildTags ["spicy", "quick"])
      = [{ ID := 15, Name := "spicy", Color := none },
         { ID := 16, Name := "quick", Color := none }] ∧
    recipeService.CreateRecipe sampleTaggedStore 10
        { sampleRecipeRequest with Tags := ["quick", "quick"] }
      = (.error recipeRepository.ErrRecipeTagsForeignKey, sampleTaggedStore) ∧
    recipeService.CreateRecipe sampleTaggedStore 10 sampleTagsRequest
      = (.error recipeRepository.ErrRecipeTagsForeignKey, sampleTaggedStore) ∧
    (recipeService.CreateRecipe sampleTaggedStore 10
        { sampleRecipeRequest with Tags := ["quick", "mild"] }).2.tags
      = [{ ID := 8, Name := "spicy", Color := none },
         { ID := 15, Name := "quick", Color := none },
         { ID := 16, Name := "mild", Color := none }] ∧
    (recipeService.CreateRecipe sampleTaggedStore 10
        { sampleRecipeRequest with Tags := ["quick", "mild"] }).2.recipe_tags
      = [(1, 8), (14, 15), (14, 16)] ∧
    (recipeService.CreateRecipe sampleTaggedStore 10
        { sampleRecipeRequest with Tags := ["quick", "mild"] }).1.toOption.map
        (fun r => (r.ID, r.Tags.map Tag.Name)) = some (14, ["quick", "mild"]) := by
  refine ⟨rfl, rfl, rfl, rfl, rfl, rfl, rfl, rfl, rfl⟩

/-! ## Listings: tags, order, pagination, search -/

/-- With a non-empty tag list, the tag filter keeps exactly the recipes linked
to a tag row whose name is listed. -/
theorem filterTags_mem (s : Store) (query : RecipeQuery) (db : List Recipe) (r : Recipe)
    (htags : query.Tags ≠ []) :
    r ∈ recipeRepository.filterTags s query db ↔
      r ∈ db ∧ ∃ t ∈ s.tags, (r.ID, t.ID) ∈ s.recipe_tags ∧ t.Name ∈ query.Tags := by
  have hlen : query.Tags.length > 0 := List.length_pos.2 htags
  simp only [recipeRepository.filterTags, hlen, if_true, List.mem_filter, List.any_eq_true,
    Bool.and_eq_true, decide_eq_true_eq]

/-- C11, as stated, fails: recipe 7 is tagged "spicy" only, and the listing for
the tags "spicy" and "quick" returns it and counts it. -/
theorem tag_filter_any_counterexample :
    recipeService.GetRecipes orderByTableOrder sampleTagListingStore sampleTagQuery
      = (.ok ([{ samplePublicRecipe with Tags := [sampleTag] }], 1), sampleTagListingStore) ∧
    sampleTagQuery.Tags = ["spicy", "quick"] ∧
    ¬ ∃ t ∈ sampleTagListingStore.tags,
        (7, t.ID) ∈ sampleTagListingStore.recipe_tags ∧ t.Name = "quick" := by
  refine ⟨rfl, rfl, ?_⟩
  decide

/-- C11, amended: when a listing query carries a non-empty list of tag names,
a recipe of the scope is kept (and counted in the total) exactly if it is
linked to at least one tag whose name is listed; every recipe on the page is
such a recipe. -/
theorem tag_filter_at_least_one
    (orderBy : String → List Recipe → Except String (List Recipe))
    (horder : ∀ clause rows sorted, orderBy clause rows = .ok sorted → ∀ r ∈ sorted, r ∈ rows)
    (s : Store) (db : List Recipe) (query : RecipeQuery) (page : List Recipe) (total : Int)
    (htags : query.Tags ≠ [])
    (h : recipeRepository.queryRecipes orderBy s db query = .ok (page, total)) :
    (∀ r, r ∈ recipeRepository.filterTags s query
          (recipeRepository.filterType query (recipeRepository.filterDifficulty query db)) ↔
        r ∈ recipeRepository.filterType query (recipeRepository.filterDifficulty query db) ∧
          ∃ t ∈ s.tags, (r.ID, t.ID) ∈ s.recipe_tags ∧ t.Name ∈ query.Tags) ∧
    total = ((recipeRepository.filterTags s query
        (recipeRepository.filterType query
          (recipeRepository.filterDifficulty query db))).length : Int) ∧
    (∀ x ∈ page, ∃ t ∈ s.tags, (x.ID, t.ID) ∈ s.recipe_tags ∧ t.Name ∈ query.Tags) := by
  refine ⟨fun r => filterTags_mem s query _ r htags, ?_, ?_⟩
  · unfold recipeRepository.queryRecipes at h
    simp only at h
    split at h
    · simp at h
    · simp only [Except.ok.injEq, Prod.mk.injEq] at h
      exact h.2.symm
  · intro x hx
    unfold recipeRepository.queryRecipes at h
    simp only at h
    split at h
    · simp at h
    · rename_i sorted hsorted
      simp only [Except.ok.injEq, Prod.mk.injEq] at h
      obtain ⟨hpage, -⟩ := h
      subst hpage
      obtain ⟨r, hr, rfl⟩ := List.mem_map.1 hx
      have hr1 : r ∈ sorted := by
        unfold recipeRepository.paginate at hr
        simp only at hr
        split at hr
        · split at hr
          · exact List.mem_of_mem_drop (List.mem_of_mem_take hr)
          · exact List.mem_of_mem_take hr
        · split at hr
          · exact List.mem_of_mem_drop hr
          · exact hr
      have hr2 := horder _ _ _ hsorted r hr1
      exact ((filterTags_mem s query _ r htags).1 hr2).2

/-- Witness for the amended C11: the page for the tags "spicy" and "quick"
holds recipe 7, which is linked to the tag "spicy". -/
theorem tag_filter_at_least_one_witness :
    (1 : Int) = ((recipeRepository.filterTags sampleTagListingStore sampleTagQuery
        (recipeRepository.filterType sampleTagQuery
          (recipeRepository.filterDifficulty sampleTagQuery [samplePublicRecipe]))).length : Int) ∧
    (∀ x ∈ [{ samplePublicRecipe with Tags := [sampleTag] }],
      ∃ t ∈ sampleTagListingStore.tags,
        (x.ID, t.ID) ∈ sampleTagListingStore.recipe_tags ∧ t.Name ∈ sampleTagQuery.Tags) :=
  (tag_filter_at_least_one orderByTableOrder
    (fun _ rows sorted hs r hr => by
      simp only [orderByTableOrder, Except.ok.injEq] at hs
      exact hs ▸ hr)
    sampleTagListingStore [samplePublicRecipe] sampleTagQuery
    [{ samplePublicRecipe with Tags := [sampleTag] }] 1 (by decide) rfl).2

/-- C12 on the code: the text handed to the engine as `ORDER BY` is the
caller's `sort_by`, a space and the caller's `sort_order` in upper case, for
every non-empty text; nothing checks it against the allowed fields and
directions.  With `sort_by=user_id` and `sort_order=asc; drop table recipes`
the engine is handed `user_id ASC; DROP TABLE RECIPES`. -/
theorem order_clause_unvalidated :
    (∀ (s : Store) (db : List Recipe) (query : RecipeQuery),
      recipeRepository.queryRecipes orderByEcho s db query
        = .error (recipeRepository.orderClause query)) ∧
    (∀ (query : RecipeQuery) (sortBy sortOrder : String),
      recipeRepository.orderClause { query with SortBy := some sortBy, SortOrder := some sortOrder }
        = (if sortBy != "" then sortBy else "created_at") ++ " "
          ++ (if sortOrder != "" then recipeRepository.stringsToUpper sortOrder else "DESC")) ∧
    RecipeHandler.GetRecipes orderByEcho sampleListingStore
        { sampleParams with sort_by := some "user_id",
                            sort_order := some "asc; drop table recipes" }
      = .internalServerError "user_id ASC; DROP TABLE RECIPES" :=
  ⟨fun _ _ _ => rfl, fun _ _ _ => rfl, by decide⟩

/-- C13 on the code: the listing handlers bind the query string and never run
the validator, so `page=0&limit=1000` reaches the query builder as page 0 and
limit 1000: the offset is -1000, and on a store of 101 public recipes the
listing returns all 101. -/
theorem listing_params_unvalidated :
    (∀ (p : ListingParams) (page limit : Int),
      (bindRecipeQuery { p with page := some page, limit := some limit }).Page = page ∧
      (bindRecipeQuery { p with page := some page, limit := some limit }).Limit = limit) ∧
    recipeRepository.wrapInt64 (recipeRepository.wrapInt64 (0 - 1) * 1000) = -1000 ∧
    (match RecipeHandler.GetRecipes orderByTableOrder (numberedStore 101)
        { sampleParams with page := some 0, limit := some 1000 } with
      | .ok recipes total page limit => (recipes.length, total, page, limit)
      | .internalServerError _ => (0, 0, 0, 0)) = (101, 101, 0, 1000) :=
  ⟨fun _ _ _ => ⟨rfl, rfl⟩, by decide, by rfl⟩

theorem wrapInt64_of_range (x : Int) (h0 : 0 ≤ x) (h1 : x < 2 ^ 63) :
    recipeRepository.wrapInt64 x = x := by
  unfold recipeRepository.wrapInt64
  rw [Int.emod_eq_of_lt (by omega) (by omega)]
  omega

/-- C14, as stated, fails: with page 2^62 + 1 and limit 4 the product
(page - 1) * limit is 2^64, which a 64-bit `int` holds as 0, so the listing
over one matching recipe returns that recipe, where the claim has 0 results. -/
theorem pagination_overflow_counterexample :
    recipeService.GetRecipes orderByTableOrder sampleListingStore
        { sampleQuery with Page := 4611686018427387905, Limit := 4 }
      = (.ok ([samplePublicRecipe], 1), sampleListingStore) ∧
    recipeRepository.wrapInt64 (recipeRepository.wrapInt64 (4611686018427387905 - 1) * 4) = 0 ∧
    min (4 : Int) (max 0 (1 - (4611686018427387905 - 1) * 4)) = 0 := by
  refine ⟨rfl, by decide, by decide⟩

/-- C14, amended: for a listing query with page p >= 1 and limit l >= 1 whose
offset (p - 1) * l fits a 64-bit `int`, over a scope with N rows left by the
filters, when the engine's `ORDER BY` answers with those rows in some order:
the total is N, whatever p and l, and the page holds the rows at positions
(p - 1) * l onward of that order, at most l of them, that is
min(l, N - (p - 1) * l) rows, none when the offset is beyond N. -/
theorem pagination_within_int_range
    (orderBy : String → List Recipe → Except String (List Recipe))
    (s : Store) (db : List Recipe) (query : RecipeQuery) (sorted : List Recipe)
    (hp : 1 ≤ query.Page) (hl : 1 ≤ query.Limit)
    (hfit : (query.Page - 1) * query.Limit < 2 ^ 63)
    (hsort : orderBy (recipeRepository.orderClause query)
      (recipeRepository.filterTags s query
        (recipeRepository.filterType query (recipeRepository.filterDifficulty query db)))
      = .ok sorted)
    (hperm : sorted.Perm (recipeRepository.filterTags s query
        (recipeRepository.filterType query (recipeRepository.filterDifficulty query db)))) :
    recipeRepository.queryRecipes orderBy s db query
      = .ok (((sorted.drop ((query.Page - 1) * query.Limit).toNat).take query.Limit.toNat).map
            (fun r => { r with Tags := recipeRepository.preloadTags s r.ID }),
          ((recipeRepository.filterTags s query
            (recipeRepository.filterType query
              (recipeRepository.filterDifficulty query db))).length : Int)) ∧
    (((sorted.drop ((query.Page - 1) * query.Limit).toNat).take query.Limit.toNat).map
        (fun r => { r with Tags := recipeRepository.preloadTags s r.ID })).length
      = min query.Limit.toNat
          ((recipeRepository.filterTags s query
            (recipeRepository.filterType query
              (recipeRepository.filterDifficulty query db))).length
            - ((query.Page - 1) * query.Limit).toNat) := by
  have hp0 : 0 ≤ query.Page - 1 := by omega
  have hoff0 : 0 ≤ (query.Page - 1) * query.Limit := Int.mul_nonneg hp0 (by omega)
  have hp1 : query.Page - 1 < 2 ^ 63 := by
    have : query.Page - 1 ≤ (query.Page - 1) * query.Limit := by
      nlinarith
    omega
  have hw1 := wrapInt64_of_range (query.Page - 1) hp0 hp1
  have hw2 := wrapInt64_of_range ((query.Page - 1) * query.Limit) hoff0 hfit
  refine ⟨?_, ?_⟩
  · unfold recipeRepository.queryRecipes
    simp only [hsort, hw1, hw2]
    congr 2
    unfold recipeRepository.paginate
    have hlim : query.Limit ≥ 0 := by omega
    simp only [hlim, if_true]
    split
    · rfl
    · rename_i hz
      have h0 : (query.Page - 1) * query.Limit = 0 := by omega
      rw [h0]
      rfl
  · rw [List.length_map, List.length_take, List.length_drop, hperm.length_eq]

/-- Witness for the amended C14: over 25 public recipes with limit 10, page 2
returns 10 recipes and page 3 returns 5, both with total 25. -/
theorem pagination_within_int_range_witness :
    (∃ page, recipeRepository.GetAll orderByTableOrder (numberedStore 25)
        { sampleQuery with Page := 2, Limit := 10 } = .ok (page, 25) ∧ page.length = 10) ∧
    (∃ page, recipeRepository.GetAll orderByTableOrder (numberedStore 25)
        { sampleQuery with Page := 3, Limit := 10 } = .ok (page, 25) ∧ page.length = 5) :=
  have h2 := pagination_within_int_range orderByTableOrder (numberedStore 25)
    (numberedRecipes 25) { sampleQuery with Page := 2, Limit := 10 } (numberedRecipes 25)
    (by decide) (by decide) (by decide) rfl (List.Perm.refl _)
  have h3 := pagination_within_int_range orderByTableOrder (numberedStore 25)
    (numberedRecipes 25) { sampleQuery with Page := 3, Limit := 10 } (numberedRecipes 25)
    (by decide) (by decide) (by decide) rfl (List.Perm.refl _)
  ⟨⟨_, h2.1, h2.2.trans (by decide)⟩, ⟨_, h3.1, h3.2.trans (by decide)⟩⟩

/-- C15 on the code: the search term goes into the `LIKE` pattern as it is, so
`_` and `%` in it are wildcards.  The only public recipe is titled "Salad" and
has no description; neither "s_lad" nor "%" occurs in "salad", yet the search
for "S_lad" and the search for "%" both return the recipe. -/
theorem search_wildcards_unescaped :
    samplePublicRecipe.Title = "Salad" ∧ samplePublicRecipe.Description = none ∧
    ¬ List.IsInfix (recipeRepository.stringsToLower "S_lad").toList
        (recipeRepository.stringsToLower "Salad").toList ∧
    ¬ List.IsInfix (recipeRepository.stringsToLower "%").toList
        (recipeRepository.stringsToLower "Salad").toList ∧
    recipeService.SearchRecipes orderByTableOrder sampleListingStore
        { sampleQuery with Search := some "S_lad" }
      = (.ok ([samplePublicRecipe], 1), sampleListingStore) ∧
    recipeService.SearchRecipes orderByTableOrder sampleListingStore
        { sampleQuery with Search := some "%" }
      = (.ok ([samplePublicRecipe], 1), sampleListingStore) ∧
    recipeService.SearchRecipes orderByTableOrder sampleListingStore
        { sampleQuery with Search := some "soup" }
      = (.ok ([], 0), sampleListingStore) := by
  refine ⟨rfl, rfl, by decide, by decide, rfl, rfl, rfl⟩

/-! ## Shopping-list order indices -/

theorem itemRows_content (listID : UUID) (l : List ShoppingListItem) (next : Nat) :
    (itemRows listID next l).map ShoppingListItem.content = l.map ShoppingListItem.content ∧
    ∀ x ∈ itemRows listID next l, x.ShoppingListID = listID := by
  induction l generalizing next with
  | nil => simp [itemRows]
  | cons i rest ih =>
    have h := ih (next + 1)
    refine ⟨?_, ?_⟩
    · simp only [itemRows, List.map_cons, h.1, List.cons.injEq, and_true]
      unfold ShoppingListItem.BeforeCreate ShoppingListItem.content
      split <;> rfl
    · intro x hx
      simp only [itemRows, List.mem_cons] at hx
      cases hx with
      | inl hx =>
        subst hx
        unfold ShoppingListItem.BeforeCreate
        split <;> rfl
      | inr hx => exact h.2 x hx

theorem buildItems_content (reqs : List ShoppingListItemCreateRequest) :
    (shoppingListService.buildItems reqs).map ShoppingListItem.content
      = reqs.enum.map ShoppingListItemCreateRequest.content := by
  unfold shoppingListService.buildItems
  rw [List.map_map]
  apply List.map_congr_left
  intro p _
  simp only [Function.comp, ShoppingListItemCreateRequest.content, ShoppingListItem.content]
  cases p.2.OrderIndex <;> rfl

/-- C16: `CreateShoppingList` stores one item row per request element, in
order, with the new list's id and with order index i for the i-th element
unless the request gives an index; `AddItem` without an explicit index by the
owner of a list that holds k items stores the new item with order index k and
the list id; a `DeleteItem` that succeeds removes the rows with the named id
and leaves every other item row, its order index included, as it was. -/
theorem shopping_list_order_indices (s : Store) (userID : UUID) :
    (∀ req : ShoppingListCreateRequest,
      ∃ list rows,
        (shoppingListService.CreateShoppingList s userID req).1 = .ok list ∧
        list.ID = s.newUUID ∧
        (shoppingListService.CreateShoppingList s userID req).2.shopping_lists
          = s.shopping_lists ++
            [{ ID := s.newUUID, UserID := userID, Name := req.Name, DeletedAt := false,
               Items := [] }] ∧
        (shoppingListService.CreateShoppingList s userID req).2.shopping_list_items
          = s.shopping_list_items ++ rows ∧
        rows.map ShoppingListItem.content
          = req.Items.enum.map ShoppingListItemCreateRequest.content ∧
        ∀ row ∈ rows, row.ShoppingListID = s.newUUID) ∧
    (∀ (listID : UUID) (list : ShoppingList) (req : ShoppingListItemCreateRequest),
      shoppingListRepository.GetByID s listID = .ok list → list.UserID = userID →
      req.OrderIndex = none →
      list.Items = s.shopping_list_items.filter (fun i => i.ShoppingListID == listID) ∧
      ∃ item, shoppingListService.AddItem s userID listID req
        = (.ok item, { s with
            shopping_list_items := s.shopping_list_items ++
              [{ ID := s.newUUID, ShoppingListID := listID, Name := req.Name,
                 Amount := req.Amount, Unit := req.Unit, Notes := req.Notes, Completed := false,
                 OrderIndex := (list.Items.length : Int) }]
            nextID := s.nextID + 1 })) ∧
    (∀ (listID itemID : UUID) (s1 : Store),
      shoppingListService.DeleteItem s userID listID itemID = (.ok (), s1) →
      s1 = { s with
        shopping_list_items := s.shopping_list_items.filter (fun x => !(x.ID == itemID)) }) := by
  refine ⟨?_, ?_, ?_⟩
  · intro req
    have hc := itemRows_content s.newUUID (shoppingListService.buildItems req.Items)
      (s.nextID + 1)
    have hlen : (shoppingListService.buildItems req.Items).length = req.Items.length := by
      simp [shoppingListService.buildItems]
    have hfind : ∃ found, ((s.shopping_lists ++
          [({ ID := s.newUUID, UserID := userID, Name := req.Name, DeletedAt := false,
              Items := [] } : ShoppingList)]).find?
          (fun l => l.ID == s.newUUID && !l.DeletedAt)) = some found ∧ found.ID = s.newUUID := by
      cases hf : (s.shopping_lists ++
          [({ ID := s.newUUID, UserID := userID, Name := req.Name, DeletedAt := false,
              Items := [] } : ShoppingList)]).find?
          (fun l => l.ID == s.newUUID && !l.DeletedAt) with
      | none =>
        have hnone := List.find?_eq_none.1 hf
          { ID := s.newUUID, UserID := userID, Name := req.Name, DeletedAt := false, Items := [] }
          (List.mem_append_right _ (List.mem_singleton_self _))
        simp at hnone
      | some found =>
        have hp := List.find?_some hf
        simp only [Bool.and_eq_true, beq_iff_eq] at hp
        exact ⟨found, rfl, hp.1⟩
    obtain ⟨found, hfound, hfid⟩ := hfind
    refine ⟨{ found with
        Items := shoppingListRepository.preloadItems
          (shoppingListService.CreateShoppingList s userID req).2 s.newUUID },
      itemRows s.newUUID (s.nextID + 1) (shoppingListService.buildItems req.Items),
      ?_, hfid, rfl, rfl, ?_, hc.2⟩
    · simp only [shoppingListService.CreateShoppingList, shoppingListRepository.Create,
        ShoppingList.BeforeCreate, ShoppingList.row, shoppingListRepository.GetByID, uuidNil,
        beq_self_eq_true, if_true, hfound, firstOr]
    · rw [hc.1, buildItems_content]
  · intro listID list req hget hown hidx
    have hitems : list.Items
        = s.shopping_list_items.filter (fun i => i.ShoppingListID == listID) := by
      unfold shoppingListRepository.GetByID at hget
      cases hf : s.shopping_lists.find? (fun l => l.ID == listID && !l.DeletedAt) with
      | none => simp [hf, firstOr] at hget
      | some row =>
        simp only [hf, firstOr] at hget
        injection hget with hget
        subst hget
        rfl
    refine ⟨hitems, ?_⟩
    have hfind : ∃ found, ((s.shopping_list_items ++
          [({ ID := s.newUUID, ShoppingListID := listID, Name := req.Name,
              Amount := req.Amount, Unit := req.Unit, Notes := req.Notes, Completed := false,
              OrderIndex := (list.Items.length : Int) } : ShoppingListItem)]).find?
          (fun i => i.ID == s.newUUID)) = some found := by
      cases hf : (s.shopping_list_items ++
          [({ ID := s.newUUID, ShoppingListID := listID, Name := req.Name,
              Amount := req.Amount, Unit := req.Unit, Notes := req.Notes, Completed := false,
              OrderIndex := (list.Items.length : Int) } : ShoppingListItem)]).find?
          (fun i => i.ID == s.newUUID) with
      | none =>
        have hnone := List.find?_eq_none.1 hf _
          (List.mem_append_right _ (List.mem_singleton_self _))
        simp at hnone
      | some found => exact ⟨found, rfl⟩
    obtain ⟨found, hfound⟩ := hfind
    refine ⟨found, ?_⟩
    simp only [shoppingListService.AddItem, hget, hown, bne_self_eq_false, Bool.false_eq_true,
      if_false, hidx, shoppingListRepository.AddItem, ShoppingListItem.BeforeCreate, uuidNil,
      beq_self_eq_true, if_true, shoppingListRepository.GetItem, Store.bumpUUID, hfound, firstOr]
  · intro listID itemID s1 h
    cases hget : shoppingListRepository.GetByID s listID with
    | error e => simp [shoppingListService.DeleteItem, hget] at h
    | ok list =>
      by_cases hown : list.UserID = userID
      · cases hitem : shoppingListRepository.GetItem s itemID with
        | error e => simp [shoppingListService.DeleteItem, hget, hown, hitem] at h
        | ok item =>
          by_cases hpar : item.ShoppingListID = listID
          · simp only [shoppingListService.DeleteItem, hget, hown, hitem, hpar,
              bne_self_eq_false, Bool.false_eq_true, if_false, Prod.mk.injEq, true_and] at h
            rw [← h]
            rfl
          · simp [shoppingListService.DeleteItem, hget, hown, hitem, hpar] at h
      · simp [shoppingListService.DeleteItem, hget, hown] at h

/-- Witness for C16, the scenario of the spec: "Groceries" is created with
milk and eggs (indices 0 and 1), bread is added (index 2), the eggs are
deleted; the indices left are 0 and 2 and the response counts 2 items. -/
theorem shopping_list_order_indices_witness :
    sampleGroceriesStore.shopping_list_items.map (fun i => (i.Name, i.OrderIndex))
      = [("Milk", 0), ("Eggs", 1)] ∧
    (∃ item, (shoppingListService.AddItem sampleGroceriesStore 10 1 sampleItemRequest).1
        = .ok item) ∧
    sampleBreadStore.shopping_list_items.map (fun i => (i.Name, i.OrderIndex))
      = [("Milk", 0), ("Eggs", 1), ("Bread", 2)] ∧
    sampleNoEggsStore.shopping_list_items.map (fun i => (i.Name, i.OrderIndex))
      = [("Milk", 0), ("Bread", 2)] ∧
    (shoppingListService.GetShoppingList sampleNoEggsStore 10 1).1.map
        (fun l => (l.ToResponse.ItemCount, l.Items.map (fun i => i.OrderIndex)))
      = .ok (2, [0, 2]) := by
  obtain ⟨-, item, hadd⟩ := (shopping_list_order_indices sampleGroceriesStore 10).2.1 1
    { ID := 1, UserID := 10, Name := "Groceries", DeletedAt := false,
      Items := sampleGroceriesStore.shopping_list_items }
    sampleItemRequest rfl rfl rfl
  have hdel := (shopping_list_order_indices sampleBreadStore 10).2.2 1 3 sampleNoEggsStore rfl
  refine ⟨rfl, ⟨item, congrArg Prod.fst hadd⟩, rfl, ?_, rfl⟩
  rw [hdel]
  rfl

/-! ## Tokens and credentials -/

theorem digitChar_val (k : Nat) (hk : k < 10) :
    (Nat.digitChar k).toNat - 48 = k ∧ (Nat.digitChar k).isDigit = true := by
  interval_cases k <;> exact ⟨rfl, rfl⟩

theorem toDigitsCore_value (fuel : Nat) : ∀ (n : Nat) (ds : List Char), n < fuel →
    (Nat.toDigitsCore 10 fuel n ds).foldl (fun n c => n * 10 + (c.toNat - 48)) 0
      = ds.foldl (fun n c => n * 10 + (c.toNat - 48)) n := by
  induction fuel with
  | zero => intro n ds h; omega
  | succ fuel ih =>
    intro n ds h
    have hd := (digitChar_val (n % 10) (Nat.mod_lt _ (by decide))).1
    simp only [Nat.toDigitsCore]
    split
    · rename_i h0
      simp only [List.foldl_cons, hd]
      congr 1
      omega
    · rename_i h0
      rw [ih (n / 10) _ (by omega)]
      simp only [List.foldl_cons, hd]
      congr 1
      omega

theorem toDigitsCore_digits (fuel : Nat) : ∀ (n : Nat) (ds : List Char),
    (∀ c ∈ ds, c.isDigit = true) → ∀ c ∈ Nat.toDigitsCore 10 fuel n ds, c.isDigit = true := by
  induction fuel with
  | zero => intro n ds h; simpa [Nat.toDigitsCore] using h
  | succ fuel ih =>
    intro n ds h
    have hd := (digitChar_val (n % 10) (Nat.mod_lt _ (by decide))).2
    have hds : ∀ c ∈ Nat.digitChar (n % 10) :: ds, c.isDigit = true := by
      intro c hc
      cases List.mem_cons.1 hc with
      | inl h1 => exact h1 ▸ hd
      | inr h1 => exact h c h1
    simp only [Nat.toDigitsCore]
    split
    · exact hds
    · exact ih _ _ hds

theorem toDigitsCore_ne_nil (fuel : Nat) : ∀ (n : Nat) (ds : List Char),
    ds ≠ [] → Nat.toDigitsCore 10 fuel n ds ≠ [] := by
  induction fuel with
  | zero => intro n ds h; simpa [Nat.toDigitsCore] using h
  | succ fuel ih =>
    intro n ds _
    simp only [Nat.toDigitsCore]
    split
    · simp
    · exact ih _ _ (by simp)

theorem uuidParse_uuidString (u : UUID) : uuidParse (uuidString u) = some u := by
  have hlist : (uuidString u).toList = Nat.toDigitsCore 10 (u + 1) u [] := rfl
  have hne : Nat.toDigitsCore 10 (u + 1) u [] ≠ [] := by
    simp only [Nat.toDigitsCore]
    split
    · simp
    · exact toDigitsCore_ne_nil _ _ _ (by simp)
  have hdig := toDigitsCore_digits (u + 1) u [] (by simp)
  have hval := toDigitsCore_value (u + 1) u [] (by omega)
  unfold uuidParse
  simp only [hlist]
  have h1 : (Nat.toDigitsCore 10 (u + 1) u []).isEmpty = false := by
    cases h : Nat.toDigitsCore 10 (u + 1) u [] with
    | nil => exact absurd h hne
    | cons a b => rfl
  have h2 : (Nat.toDigitsCore 10 (u + 1) u []).all Char.isDigit = true :=
    List.all_eq_true.2 hdig
  simp only [h1, h2, Bool.not_true, Bool.or_self, Bool.false_eq_true, if_false, hval,
    List.foldl_nil]

theorem validate_generateToken (svc : authService) (issued now : Int) (userID : UUID)
    (email kind : String) (expiry : Int)
    (hexp : now < (issued + expiry) / 1000000000 * 1000000000) :
    svc.ValidateToken now (svc.generateToken issued userID email kind expiry)
      = .ok { UserID := userID, Email := email, Type_ := kind } := by
  have hclaims : jwtValidateClaims now
      [("user_id", .str (uuidString userID)), ("email", .str email), ("type", .str kind),
       ("exp", .num ((issued + expiry) / 1000000000)), ("iat", .num (issued / 1000000000))]
      = .ok () := by
    simp [jwtValidateClaims, MapClaims.get, List.find?, hexp]
  simp [authService.ValidateToken, authService.generateToken, jwtParseWithClaims, hclaims,
    MapClaims.get, List.find?, uuidParse_uuidString]

/-- What a successful `Register` leaves: no live user had the email before, and
the store gained one live user row with the request's name and email, the
bcrypt hash of the request's password, and the id the response carries. -/
theorem register_ok_facts (svc : authService) (s : Store) (now : Int) (salt : Nat)
    (req : UserCreateRequest) (resp : LoginResponse) (s1 : Store)
    (hreg : svc.Register s now salt req = (.ok resp, s1)) :
    userRepository.Exists s req.Email = false ∧
    ∃ user : User, s1 = { s.bumpUUID with users := s.users ++ [user] } ∧
      user.Email = req.Email ∧ user.DeletedAt = false ∧ user.ID = s.newUUID ∧
      user.PasswordHash = .bcrypt bcryptDefaultCost salt req.Password ∧
      resp = svc.generateTokenResponse now user := by
  unfold authService.Register at hreg
  cases hex : userRepository.Exists s req.Email with
  | true => simp [hex] at hreg
  | false =>
    simp only [hex, Bool.false_eq_true, if_false] at hreg
    have hb : bcryptGenerateFromPassword req.Password bcryptDefaultCost salt
        = if req.Password.utf8ByteSize > 72
          then .error "bcrypt: password length exceeds 72 bytes"
          else .ok (.bcrypt bcryptDefaultCost salt req.Password) := by
      simp [bcryptGenerateFromPassword, bcryptDefaultCost, bcryptMinCost, bcryptMaxCost]
    rw [hb] at hreg
    by_cases hlong : req.Password.utf8ByteSize > 72
    · simp [hlong] at hreg
    · simp only [hlong, if_false, Prod.mk.injEq, Except.ok.injEq] at hreg
      obtain ⟨hresp, hs1⟩ := hreg
      refine ⟨rfl, _, hs1.symm, ?_, ?_, ?_, ?_, hresp.symm⟩
      · simp [userRepository.Create, User.BeforeCreate, uuidNil]
      · simp [userRepository.Create, User.BeforeCreate, uuidNil]
      · simp [userRepository.Create, User.BeforeCreate, uuidNil]
      · simp [userRepository.Create, User.BeforeCreate, uuidNil]

/-- C17: after `Register` succeeds, `Login` with the same email and password
succeeds at any later time and answers for the registered user; validating
the access token it returns, while unexpired, yields kind access with the
registered user's id and email, and the refresh token yields kind refresh with
the same id and email; and for every user id, email, kind and expiry,
validating an unexpired token issued by `generateToken` yields exactly what
was issued. -/
theorem register_login_validate_roundtrip (svc : authService) (s : Store) (now : Int)
    (salt : Nat) (req : UserCreateRequest) (resp : LoginResponse) (s1 : Store)
    (hreg : svc.Register s now salt req = (.ok resp, s1)) (now2 : Int) :
    (∃ resp2, svc.Login s1 now2 { Email := req.Email, Password := req.Password }
        = (.ok resp2, s1) ∧
      resp2.User = resp.User ∧
      resp.User.Email = req.Email ∧
      (∀ now3, now3 < (now2 + svc.accessExpiry) / 1000000000 * 1000000000 →
        svc.ValidateToken now3 resp2.AccessToken
          = .ok { UserID := resp.User.ID, Email := req.Email, Type_ := "access" }) ∧
      (∀ now3, now3 < (now2 + svc.refreshExpiry) / 1000000000 * 1000000000 →
        svc.ValidateToken now3 resp2.RefreshToken
          = .ok { UserID := resp.User.ID, Email := req.Email, Type_ := "refresh" })) ∧
    (∀ (issued now3 : Int) (userID : UUID) (email kind : String) (expiry : Int),
      now3 < (issued + expiry) / 1000000000 * 1000000000 →
      svc.ValidateToken now3 (svc.generateToken issued userID email kind expiry)
        = .ok { UserID := userID, Email := email, Type_ := kind }) := by
  refine ⟨?_, fun issued now3 userID email kind expiry h =>
    validate_generateToken svc issued now3 userID email kind expiry h⟩
  obtain ⟨hex, user, hs1, hemail, hlive, hid, hhash, hresp⟩ :=
    register_ok_facts svc s now salt req resp s1 hreg
  have hnone : s.users.find? (fun u => u.Email == req.Email && !u.DeletedAt) = none := by
    apply List.find?_eq_none.2
    intro u hu hp
    have : userRepository.Exists s req.Email = true :=
      List.any_eq_true.2 ⟨u, hu, hp⟩
    rw [hex] at this
    exact Bool.false_ne_true this
  have hget : userRepository.GetByEmail s1 req.Email = .ok user := by
    subst hs1
    simp [userRepository.GetByEmail, Store.bumpUUID, List.find?_append, hnone, List.find?,
      hemail, hlive, firstOr]
  have hcmp : bcryptCompareHashAndPassword user.PasswordHash req.Password = .ok () := by
    rw [hhash]
    simp [bcryptCompareHashAndPassword]
  refine ⟨svc.generateTokenResponse now2 user, ?_, ?_, ?_, ?_, ?_⟩
  · simp only [authService.Login, hget, hcmp]
  · rw [hresp]
    rfl
  · rw [hresp]
    exact hemail
  · intro now3 h
    rw [hresp, ← hemail]
    exact validate_generateToken svc now2 now3 user.ID user.Email "access" svc.accessExpiry h
  · intro now3 h
    rw [hresp, ← hemail]
    exact validate_generateToken svc now2 now3 user.ID user.Email "refresh"
      svc.refreshExpiry h

/-- Witness for C17, the scenario of the spec: Ann registers at second 1 and
logs in at second 2; at second 3 her access token validates as kind access
for user 1, her refresh token as kind refresh. -/
theorem register_login_validate_roundtrip_witness :
    ∃ resp2, sampleAuthService.Login sampleAnnStore 2000000000
        { Email := "ann@x.com", Password := "secret1" } = (.ok resp2, sampleAnnStore) ∧
      sampleAuthService.ValidateToken 3000000000 resp2.AccessToken
        = .ok { UserID := 1, Email := "ann@x.com", Type_ := "access" } ∧
      sampleAuthService.ValidateToken 3000000000 resp2.RefreshToken
        = .ok { UserID := 1, Email := "ann@x.com", Type_ := "refresh" } := by
  obtain ⟨resp2, hlogin, -, -, hacc, href⟩ :=
    (register_login_validate_roundtrip sampleAuthService Store.empty 1000000000 7
      sampleRegisterRequest _ sampleAnnStore rfl 2000000000).1
  exact ⟨resp2, hlogin, hacc 3000000000 (by decide), href 3000000000 (by decide)⟩

/-- C18: `Login` fails with the one error "invalid email or password", and
leaves the store alone, both when no live user has the email and when the
password does not match the stored hash; it answers with tokens only when the
user is found and the password matches. -/
theorem login_failure_is_generic (svc : authService) (s : Store) (now : Int)
    (req : LoginRequest) :
    (∀ e, userRepository.GetByEmail s req.Email = .error e →
      svc.Login s now req = (.error "invalid email or password", s)) ∧
    (∀ user e, userRepository.GetByEmail s req.Email = .ok user →
      bcryptCompareHashAndPassword user.PasswordHash req.Password = .error e →
      svc.Login s now req = (.error "invalid email or password", s)) ∧
    (∀ resp s1, svc.Login s now req = (.ok resp, s1) →
      ∃ user, userRepository.GetByEmail s req.Email = .ok user ∧
        bcryptCompareHashAndPassword user.PasswordHash req.Password = .ok () ∧
        resp = svc.generateTokenResponse now user) := by
  refine ⟨?_, ?_, ?_⟩
  · intro e h
    simp only [authService.Login, h]
  · intro user e h hc
    simp only [authService.Login, h, hc]
  · intro resp s1 h
    cases hget : userRepository.GetByEmail s req.Email with
    | error e => simp [authService.Login, hget] at h
    | ok user =>
      cases hc : bcryptCompareHashAndPassword user.PasswordHash req.Password with
      | error e => simp [authService.Login, hget, hc] at h
      | ok u =>
        simp only [authService.Login, hget, hc, Prod.mk.injEq, Except.ok.injEq] at h
        exact ⟨user, rfl, hc, h.1.symm⟩

/-- Witness for C18: against Ann's account, an unknown email and a wrong
password get the same error. -/
theorem login_failure_is_generic_witness :
    sampleAuthService.Login sampleAnnStore 2000000000
        { Email := "bob@x.com", Password := "secret1" }
      = (.error "invalid email or password", sampleAnnStore) ∧
    sampleAuthService.Login sampleAnnStore 2000000000
        { Email := "ann@x.com", Password := "secret2" }
      = (.error "invalid email or password", sampleAnnStore) :=
  ⟨(login_failure_is_generic sampleAuthService sampleAnnStore 2000000000
      { Email := "bob@x.com", Password := "secret1" }).1 ErrRecordNotFound rfl,
    (login_failure_is_generic sampleAuthService sampleAnnStore 2000000000
      { Email := "ann@x.com", Password := "secret2" }).2.1
      { ID := 1, Name := "Ann", Email := "ann@x.com",
        PasswordHash := .bcrypt 10 7 "secret1", AvatarURL := none, IsVerified := false,
        IsAdmin := false, CreatedAt := 1000000000, UpdatedAt := 1000000000,
        DeletedAt := false }
      "crypto/bcrypt: hashedPassword is not the hash of the given password" rfl rfl⟩

/-- The middleware and `ValidateToken` read a token alike: the middleware
calls the next handler exactly when `ValidateToken` accepts the token with
kind access, and then sets the principal from its claims. -/
theorem middleware_bearer (svc : authService) (now : Int) (tok : TokenString) :
    (∀ claims, svc.ValidateToken now tok = .ok claims →
      AuthMiddleware svc.jwtSecret now [.raw "Bearer", tok]
        = if claims.Type_ != "access" then .abort 401 "Invalid token type"
          else .next claims.UserID claims.Email claims) ∧
    (∀ e, svc.ValidateToken now tok = .error e →
      ∃ msg, AuthMiddleware svc.jwtSecret now [.raw "Bearer", tok] = .abort 401 msg) := by
  have hhead : ([TokenString.raw "Bearer", tok] == [TokenString.raw ""]) = false := by
    simp
  have hb : (TokenString.raw "Bearer" != TokenString.raw "Bearer") = false := by simp
  unfold authService.ValidateToken AuthMiddleware
  simp only [hhead, hb, Bool.false_eq_true, if_false]
  cases jwtParseWithClaims svc.jwtSecret now tok with
  | error e => exact ⟨fun _ h => by simp at h, fun _ _ => ⟨_, rfl⟩⟩
  | ok claims =>
    simp only
    cases claims.get "user_id" with
    | none => exact ⟨fun _ h => by simp at h, fun _ _ => ⟨_, rfl⟩⟩
    | some v =>
      cases v with
      | num n => exact ⟨fun _ h => by simp at h, fun _ _ => ⟨_, rfl⟩⟩
      | other => exact ⟨fun _ h => by simp at h, fun _ _ => ⟨_, rfl⟩⟩
      | str userIDStr =>
        simp only
        cases uuidParse userIDStr with
        | none => exact ⟨fun _ h => by simp at h, fun _ _ => ⟨_, rfl⟩⟩
        | some userID =>
          simp only
          cases claims.get "email" with
          | none => exact ⟨fun _ h => by simp at h, fun _ _ => ⟨_, rfl⟩⟩
          | some v =>
            cases v with
            | num n => exact ⟨fun _ h => by simp at h, fun _ _ => ⟨_, rfl⟩⟩
            | other => exact ⟨fun _ h => by simp at h, fun _ _ => ⟨_, rfl⟩⟩
            | str email =>
              simp only
              cases claims.get "type" with
              | none => exact ⟨fun _ h => by simp at h, fun _ _ => ⟨_, rfl⟩⟩
              | some v =>
                cases v with
                | num n => exact ⟨fun _ h => by simp at h, fun _ _ => ⟨_, rfl⟩⟩
                | other => exact ⟨fun _ h => by simp at h, fun _ _ => ⟨_, rfl⟩⟩
                | str tokenType =>
                  refine ⟨?_, fun _ h => by simp at h⟩
                  intro c h
                  simp only [Except.ok.injEq] at h
                  subst h
                  rfl

theorem middleware_next_header (secret : String) (now : Int) (header : List TokenString)
    (userID : UUID) (email : String) (claims : JWTClaims)
    (h : AuthMiddleware secret now header = .next userID email claims) :
    ∃ tok, header = [.raw "Bearer", tok] := by
  unfold AuthMiddleware at h
  split at h
  · simp at h
  · split at h
    · rename_i bearer tokenString hne
      split at h
      · simp at h
      · rename_i hb
        have hbearer : bearer = .raw "Bearer" := by simpa using hb
        exact ⟨tokenString, by rw [hbearer]⟩
    · simp at h

/-- C19: `RefreshToken` answers with tokens only for a token that
`ValidateToken` accepts with kind refresh, `ResetPassword` changes the store
only for one it accepts with kind reset, and the middleware sets the principal
and calls the next handler only for a `Bearer` token it accepts with kind
access; a token accepted with any other kind gets "invalid token type" from
`RefreshToken` and `ResetPassword`, with the store as it was, and status 401
"Invalid token type" from the middleware, which sets no principal. -/
theorem token_kind_gates (svc : authService) (s : Store) (now : Int) (tok : TokenString) :
    (∀ resp s1, svc.RefreshToken s now tok = (.ok resp, s1) →
      ∃ claims, svc.ValidateToken now tok = .ok claims ∧ claims.Type_ = "refresh") ∧
    (∀ claims, svc.ValidateToken now tok = .ok claims → claims.Type_ ≠ "refresh" →
      svc.RefreshToken s now tok = (.error "invalid token type", s)) ∧
    (∀ salt newPassword s1, svc.ResetPassword s now salt tok newPassword = (.ok (), s1) →
      ∃ claims, svc.ValidateToken now tok = .ok claims ∧ claims.Type_ = "reset") ∧
    (∀ claims salt newPassword, svc.ValidateToken now tok = .ok claims →
      claims.Type_ ≠ "reset" →
      svc.ResetPassword s now salt tok newPassword = (.error "invalid token type", s)) ∧
    (∀ header userID email claims,
      AuthMiddleware svc.jwtSecret now header = .next userID email claims →
      ∃ t, header = [.raw "Bearer", t] ∧ svc.ValidateToken now t = .ok claims ∧
        claims.Type_ = "access" ∧ userID = claims.UserID ∧ email = claims.Email) ∧
    (∀ claims, svc.ValidateToken now tok = .ok claims → claims.Type_ ≠ "access" →
      AuthMiddleware svc.jwtSecret now [.raw "Bearer", tok]
        = .abort 401 "Invalid token type") := by
  refine ⟨?_, ?_, ?_, ?_, ?_, ?_⟩
  · intro resp s1 h
    cases hv : svc.ValidateToken now tok with
    | error e => simp [authService.RefreshToken, hv] at h
    | ok claims =>
      by_cases hk : claims.Type_ = "refresh"
      · exact ⟨claims, rfl, hk⟩
      · simp [authService.RefreshToken, hv, hk] at h
  · intro claims hv hk
    simp [authService.RefreshToken, hv, hk]
  · intro salt newPassword s1 h
    cases hv : svc.ValidateToken now tok with
    | error e => simp [authService.ResetPassword, hv] at h
    | ok claims =>
      by_cases hk : claims.Type_ = "reset"
      · exact ⟨claims, rfl, hk⟩
      · simp [authService.ResetPassword, hv, hk] at h
  · intro claims salt newPassword hv hk
    simp [authService.ResetPassword, hv, hk]
  · intro header userID email claims h
    obtain ⟨t, rfl⟩ := middleware_next_header svc.jwtSecret now header userID email claims h
    cases hv : svc.ValidateToken now t with
    | error e =>
      obtain ⟨msg, hm⟩ := (middleware_bearer svc now t).2 e hv
      rw [hm] at h
      simp at h
    | ok c =>
      have hm := (middleware_bearer svc now t).1 c hv
      rw [hm] at h
      by_cases hk : c.Type_ = "access"
      · simp only [hk, bne_self_eq_false, Bool.false_eq_true, if_false,
          MiddlewareResult.next.injEq] at h
        obtain ⟨h1, h2, h3⟩ := h
        subst h3
        exact ⟨t, rfl, hv, hk, h1.symm, h2.symm⟩
      · simp [hk] at h
  · intro claims hv hk
    rw [(middleware_bearer svc now tok).1 claims hv]
    simp [hk]

/-- Witness for C19: Ann's access token is refused by `RefreshToken` and by
`ResetPassword`, her refresh token by the middleware, each for its kind, and
her access token is admitted by the middleware as user 1. -/
theorem token_kind_gates_witness :
    sampleAuthService.RefreshToken sampleAnnStore 3000000000 sampleAccessToken
      = (.error "invalid token type", sampleAnnStore) ∧
    sampleAuthService.ResetPassword sampleAnnStore 3000000000 8 sampleAccessToken "secret2"
      = (.error "invalid token type", sampleAnnStore) ∧
    AuthMiddleware "k" 3000000000 [.raw "Bearer", sampleRefreshToken]
      = .abort 401 "Invalid token type" ∧
    (∃ t, [TokenString.raw "Bearer", sampleAccessToken] = [.raw "Bearer", t] ∧
      sampleAuthService.ValidateToken 3000000000 t
        = .ok { UserID := 1, Email := "ann@x.com", Type_ := "access" }) :=
  have h := token_kind_gates sampleAuthService sampleAnnStore 3000000000 sampleAccessToken
  have hr := token_kind_gates sampleAuthService sampleAnnStore 3000000000 sampleRefreshToken
  ⟨h.2.1 { UserID := 1, Email := "ann@x.com", Type_ := "access" } rfl (by decide),
    h.2.2.2.1 { UserID := 1, Email := "ann@x.com", Type_ := "access" } 8 "secret2"
      rfl (by decide),
    hr.2.2.2.2.2 { UserID := 1, Email := "ann@x.com", Type_ := "refresh" } rfl
      (by decide),
    (h.2.2.2.2.1 [.raw "Bearer", sampleAccessToken] 1 "ann@x.com"
      { UserID := 1, Email := "ann@x.com", Type_ := "access" } (by decide)).imp
      (fun _ hx => ⟨hx.1, hx.2.1⟩)⟩

/-- C20, as stated, fails: `ValidateToken` tells the rejection reasons apart.
Five tokens signed with the server secret or malformed are rejected with five
different errors. -/
theorem validate_token_reasons_counterexample :
    sampleAuthService.ValidateToken 3000000000 (.raw "abc")
      = .error "token is malformed: token contains an invalid number of segments" ∧
    sampleAuthService.ValidateToken 3000000000 (.jwt "HS256" [] (some "k"))
      = .error "invalid user_id in token" ∧
    sampleAuthService.ValidateToken 3000000000
        (.jwt "HS256" [("user_id", .str "not-a-uuid")] (some "k"))
      = .error "invalid user_id format" ∧
    sampleAuthService.ValidateToken 3000000000
        (.jwt "HS256" [("user_id", .str "1"), ("email", .num 5)] (some "k"))
      = .error "invalid email in token" ∧
    sampleAuthService.ValidateToken 3000000000
        (.jwt "HS256" [("user_id", .str "1"), ("email", .str "ann@x.com")] (some "k"))
      = .error "invalid type in token" ∧
    "invalid user_id in token" ≠ "invalid email in token" := by
  refine ⟨rfl, rfl, rfl, rfl, rfl, by decide⟩

/-- C20, amended: `ValidateToken` reports a rejected token with an error that
names the reason, but its callers do not pass the reason on: for every token
`ValidateToken` rejects, whatever the error, `RefreshToken` fails with
"invalid refresh token" and `ResetPassword` with "invalid or expired reset
token", the store as it was, and the middleware aborts with status 401. -/
theorem validate_failures_collapsed (svc : authService) (s : Store) (now : Int)
    (tok : TokenString) (e : String) (h : svc.ValidateToken now tok = .error e) :
    svc.RefreshToken s now tok = (.error "invalid refresh token", s) ∧
    (∀ salt newPassword, svc.ResetPassword s now salt tok newPassword
      = (.error "invalid or expired reset token", s)) ∧
    (∃ msg, AuthMiddleware svc.jwtSecret now [.raw "Bearer", tok] = .abort 401 msg) := by
  refine ⟨?_, ?_, (middleware_bearer svc now tok).2 e h⟩
  · simp only [authService.RefreshToken, h]
  · intro salt newPassword
    simp only [authService.ResetPassword, h]

/-- Witness for the amended C20: a malformed token and a token without claims
get the same answer from `RefreshToken`. -/
theorem validate_failures_collapsed_witness :
    sampleAuthService.RefreshToken sampleAnnStore 3000000000 (.raw "abc")
      = (.error "invalid refresh token", sampleAnnStore) ∧
    sampleAuthService.RefreshToken sampleAnnStore 3000000000 (.jwt "HS256" [] (some "k"))
      = (.error "invalid refresh token", sampleAnnStore) :=
  ⟨(validate_failures_collapsed sampleAuthService sampleAnnStore 3000000000 (.raw "abc")
      "token is malformed: token contains an invalid number of segments" rfl).1,
    (validate_failures_collapsed sampleAuthService sampleAnnStore 3000000000
      (.jwt "HS256" [] (some "k")) "invalid user_id in token" rfl).1⟩

/-! ## Password reset and password hashes -/

/-- C22 on the code: the three places that hash a password pass
`bcrypt.DefaultCost`, which is 10, whatever `BCRYPT_COST` says (12 when not
set): the hash is `bcrypt 10 salt password` for every password of at most 72
bytes.  After Ann registers, after she resets her password and after she
changes it, the stored hash has cost 10. -/
theorem password_hash_cost_is_default :
    (∀ (password : String) (salt : Nat),
      bcryptGenerateFromPassword password bcryptDefaultCost salt
        = if password.utf8ByteSize > 72 then .error "bcrypt: password length exceeds 72 bytes"
          else .ok (.bcrypt 10 salt password)) ∧
    (Load sampleParseDuration (fun _ => "")).Security.BCryptCost = 12 ∧
    (sampleAuthService.Register Store.empty 1000000000 7 sampleRegisterRequest).2.users.map
        (fun u => u.PasswordHash) = [.bcrypt 10 7 "secret1"] ∧
    sampleAuthService.ResetPassword sampleAnnStore 3000000000 8 sampleResetToken "secret2"
      = (.ok (), { sampleAnnStore with
          users := sampleAnnStore.users.map (fun u =>
            { u with PasswordHash := .bcrypt 10 8 "secret2", UpdatedAt := 3000000000 }) }) ∧
    userService.ChangePassword sampleAnnStore 3000000000 9 1
        { CurrentPassword := "secret1", NewPassword := "secret3" }
      = (.ok (), { sampleAnnStore with
          users := sampleAnnStore.users.map (fun u =>
            { u with PasswordHash := .bcrypt 10 9 "secret3", UpdatedAt := 3000000000 }) }) := by
  refine ⟨?_, by decide, rfl, rfl, rfl⟩
  intro password salt
  unfold bcryptGenerateFromPassword
  split
  · rfl
  · simp [bcryptDefaultCost, bcryptMinCost, bcryptMaxCost]

/-! ## Response projections -/

theorem foldl_completed_count (items : List ShoppingListItem) (n : Int) :
    items.foldl (fun n item => if item.Completed then n + 1 else n) n
      = n + ((items.filter (fun i => i.Completed)).length : Int) := by
  induction items generalizing n with
  | nil => simp
  | cons item rest ih =>
    simp only [List.foldl_cons, ih, List.filter_cons]
    by_cases hcmp : item.Completed = true
    · simp only [hcmp, if_true, List.length_cons]
      push_cast
      ring
    · simp only [hcmp, if_false, Bool.false_eq_true]

/-- C26: `ShoppingList.ToResponse` reports as item count the number of items
of the list and as completed count the number of those items whose completed
flag is set; so the completed count lies between 0 and the item count, and
equals it exactly when every item is completed. -/
theorem shopping_list_response_counts (l : ShoppingList) :
    l.ToResponse.ItemCount = (l.Items.length : Int) ∧
    l.ToResponse.CompletedCount = ((l.Items.filter (fun i => i.Completed)).length : Int) ∧
    0 ≤ l.ToResponse.CompletedCount ∧
    l.ToResponse.CompletedCount ≤ l.ToResponse.ItemCount ∧
    (l.ToResponse.CompletedCount = l.ToResponse.ItemCount ↔
      ∀ item ∈ l.Items, item.Completed = true) := by
  have hc : l.ToResponse.CompletedCount
      = ((l.Items.filter (fun i => i.Completed)).length : Int) := by
    simp only [ShoppingList.ToResponse, foldl_completed_count, zero_add]
  have hle := List.length_filter_le (fun i : ShoppingListItem => i.Completed) l.Items
  refine ⟨rfl, hc, ?_, ?_, ?_⟩
  · rw [hc]
    exact Int.natCast_nonneg _
  · rw [hc]
    simp only [ShoppingList.ToResponse]
    exact_mod_cast hle
  · rw [hc]
    simp only [ShoppingList.ToResponse]
    constructor
    · intro h
      have hlen : (l.Items.filter (fun i => i.Completed)).length = l.Items.length := by
        exact_mod_cast h
      exact List.filter_length_eq_length.1 hlen
    · intro h
      have hlen : (l.Items.filter (fun i => i.Completed)).length = l.Items.length :=
        List.filter_length_eq_length.2 h
      exact_mod_cast hlen

/-- C27: `User.ToResponse` is determined by the id, name, email, avatar URL and
creation time of the user: two users that agree on these five fields have the
same response, and the same login response; and what `GetProfile`,
`UpdateProfile`, `Register` and `Login` answer about a user is this projection
of the stored user, which has no field for the password hash. -/
theorem user_response_hides_hash (u v : User) (hid : u.ID = v.ID) (hname : u.Name = v.Name)
    (hemail : u.Email = v.Email) (havatar : u.AvatarURL = v.AvatarURL)
    (hcreated : u.CreatedAt = v.CreatedAt) :
    u.ToResponse = v.ToResponse ∧
    (∀ (svc : authService) (now : Int),
      svc.generateTokenResponse now u = svc.generateTokenResponse now v) ∧
    (∀ (s : Store) (userID : UUID) (resp : UserResponse) (s1 : Store),
      userService.GetProfile s userID = (.ok resp, s1) →
      ∃ user, userRepository.GetByID s userID = .ok user ∧ resp = user.ToResponse) ∧
    (∀ (s : Store) (now : Int) (userID : UUID) (req : UserUpdateRequest) (resp : UserResponse)
        (s1 : Store),
      userService.UpdateProfile s now userID req = (.ok resp, s1) →
      ∃ user, userRepository.GetByID s userID = .ok user ∧
        resp = ({ user with Name := req.Name.getD user.Name,
                            AvatarURL := if req.AvatarURL.isSome then req.AvatarURL
                                         else user.AvatarURL } : User).ToResponse) ∧
    (∀ (svc : authService) (s : Store) (now : Int) (req : LoginRequest) (resp : LoginResponse)
        (s1 : Store),
      svc.Login s now req = (.ok resp, s1) →
      ∃ user, userRepository.GetByEmail s req.Email = .ok user ∧ resp.User = user.ToResponse) ∧
    (∀ (svc : authService) (s : Store) (now : Int) (salt : Nat) (req : UserCreateRequest)
        (resp : LoginResponse) (s1 : Store),
      svc.Register s now salt req = (.ok resp, s1) →
      ∃ user, s1.users = s.users ++ [user] ∧ resp.User = user.ToResponse) := by
  have hresp : u.ToResponse = v.ToResponse := by
    simp only [User.ToResponse, hid, hname, hemail, havatar, hcreated]
  refine ⟨hresp, ?_, ?_, ?_, ?_, ?_⟩
  · intro svc now
    simp only [authService.generateTokenResponse, authService.generateToken, hresp, hid, hemail]
  · intro s userID resp s1 h
    unfold userService.GetProfile at h
    cases hget : userRepository.GetByID s userID with
    | error e => simp [hget] at h
    | ok user =>
      simp only [hget, Prod.mk.injEq, Except.ok.injEq] at h
      exact ⟨user, rfl, h.1.symm⟩
  · intro s now userID req resp s1 h
    unfold userService.UpdateProfile at h
    cases hget : userRepository.GetByID s userID with
    | error e => simp [hget] at h
    | ok user =>
      simp only [hget, Prod.mk.injEq, Except.ok.injEq] at h
      refine ⟨user, rfl, ?_⟩
      rw [← h.1]
      cases req.Name <;> cases req.AvatarURL <;> rfl
  · intro svc s now req resp s1 h
    unfold authService.Login at h
    cases hget : userRepository.GetByEmail s req.Email with
    | error e => simp [hget] at h
    | ok user =>
      cases hc : bcryptCompareHashAndPassword user.PasswordHash req.Password with
      | error e => simp [hget, hc] at h
      | ok x =>
        simp only [hget, hc, Prod.mk.injEq, Except.ok.injEq] at h
        exact ⟨user, rfl, by rw [← h.1]; rfl⟩
  · intro svc s now salt req resp s1 h
    obtain ⟨-, user, hs1, -, -, -, -, hr⟩ := register_ok_facts svc s now salt req resp s1 h
    refine ⟨user, ?_, by rw [hr]; rfl⟩
    rw [hs1]

/-- Witness for C27: Ann's row and a row that differs from it in the password
hash, the flags and the update and delete marks give the same response. -/
theorem user_response_hides_hash_witness :
    User.ToResponse
        { ID := 1, Name := "Ann", Email := "ann@x.com", PasswordHash := .bcrypt 10 7 "secret1",
          AvatarURL := none, IsVerified := false, IsAdmin := false, CreatedAt := 1000000000,
          UpdatedAt := 1000000000, DeletedAt := false }
      = User.ToResponse
        { ID := 1, Name := "Ann", Email := "ann@x.com", PasswordHash := .other "x",
          AvatarURL := none, IsVerified := true, IsAdmin := true, CreatedAt := 1000000000,
          UpdatedAt := 5000000000, DeletedAt := true } :=
  (user_response_hides_hash _ _ rfl rfl rfl rfl rfl).1

/-! ## Default order indices -/

/-- C28: default order indices can collide.  User 10 creates a list with milk
and eggs (indices 0 and 1), adds bread (index 2), deletes the milk and adds
jam, never giving an index: `AddItem` takes the number of items the list holds,
which is 2 again, so bread and jam both carry order index 2. -/
theorem default_order_index_collides :
    (shoppingListService.CreateShoppingList Store.empty 10 sampleGroceriesRequest).2
      = sampleGroceriesStore ∧
    sampleGroceriesStore.shopping_list_items.map (fun i => (i.ID, i.Name, i.OrderIndex))
      = [(2, "Milk", 0), (3, "Eggs", 1)] ∧
    (shoppingListService.AddItem sampleGroceriesStore 10 1 sampleItemRequest).1.toOption.map
        (fun i => (i.ID, i.Name, i.OrderIndex)) = some (4, "Bread", 2) ∧
    shoppingListService.DeleteItem sampleBreadStore 10 1 2 = (.ok (), sampleNoMilkStore) ∧
    (shoppingListService.AddItem sampleNoMilkStore 10 1 sampleJamRequest).1.toOption.map
        (fun i => (i.ID, i.Name, i.OrderIndex)) = some (5, "Jam", 2) ∧
    sampleJamStore.shopping_list_items.map (fun i => (i.ID, i.Name, i.OrderIndex))
      = [(3, "Eggs", 1), (4, "Bread", 2), (5, "Jam", 2)] ∧
    sampleJamRequest.OrderIndex = none ∧ sampleItemRequest.OrderIndex = none ∧
    sampleGroceriesRequest.Items.map (fun i => i.OrderIndex) = [none, none] := by
  refine ⟨rfl, rfl, rfl, rfl, rfl, rfl, rfl, rfl, rfl⟩

/-! ## Rate limiter -/

/-- C30: `newRateLimiter(requests, window)` takes as interval the quotient
`window / requests` of Go's integer division: for every `requests >= 1` and
every window of the 64-bit range it returns a limiter whose rate is
`rate.Every` of that quotient and whose burst is `requests`; it ends in the
division-by-zero panic exactly when `requests` is 0; and 0 is what `parseInt`
returns for every text `strconv.Atoi` rejects, so that a `RATE_LIMIT_REQUESTS`
setting that does not parse makes `RateLimit` panic at start-up. -/
theorem rate_limiter_interval (requests window : Int) :
    (1 ≤ requests → -(2 ^ 63) ≤ window → window < 2 ^ 63 →
      newRateLimiter requests window
        = .ok { visitors := [], rate := rateEvery (Int.tdiv window requests),
                burst := requests }) ∧
    (newRateLimiter requests window = .error "runtime error: integer divide by zero"
      ↔ requests = 0) ∧
    (∀ text : String, strconvAtoi text = none → parseInt text = 0) ∧
    (∀ (timeParseDuration : String → Option Int) (env : String → String),
      env "RATE_LIMIT_REQUESTS" ≠ "" → strconvAtoi (env "RATE_LIMIT_REQUESTS") = none →
      (Load timeParseDuration env).RateLimit.Requests = 0 ∧
      RateLimit (Load timeParseDuration env).RateLimit.Requests
          (Load timeParseDuration env).RateLimit.Window
        = .error "runtime error: integer divide by zero") := by
  refine ⟨?_, ?_, ?_, ?_⟩
  · intro hr hlo hhi
    have hne : requests ≠ 0 := by omega
    have hq : recipeRepository.wrapInt64 (Int.tdiv window requests)
        = Int.tdiv window requests := by
      have habs : (Int.tdiv window requests).natAbs ≤ window.natAbs := by
        rw [Int.natAbs_tdiv]
        exact Nat.div_le_self _ _
      have hsign : (0 ≤ window → 0 ≤ Int.tdiv window requests) ∧
          (window < 0 → Int.tdiv window requests ≤ 0) := by
        refine ⟨fun hw => Int.tdiv_nonneg hw (by omega), fun hw => ?_⟩
        have hneg : Int.tdiv (-(-window)) requests = -(Int.tdiv (-window) requests) :=
          Int.neg_tdiv (-window) requests
        rw [Int.neg_neg] at hneg
        have hpos : 0 ≤ Int.tdiv (-window) requests := Int.tdiv_nonneg (by omega) (by omega)
        omega
      unfold recipeRepository.wrapInt64
      omega
    simp [newRateLimiter, hne, hq]
  · constructor
    · intro h
      by_contra hne
      simp [newRateLimiter, hne] at h
    · intro h
      simp [newRateLimiter, h]
  · intro text h
    simp [parseInt, h]
  · intro timeParseDuration env hset hbad
    have hreq : (Load timeParseDuration env).RateLimit.Requests = 0 := by
      simp [Load, getEnv, hset, parseInt, hbad]
    refine ⟨hreq, ?_⟩
    rw [hreq]
    rfl

/-- Witness for C30: 100 requests per hour give an interval of 36 seconds; with
`RATE_LIMIT_REQUESTS=abc` the configuration holds 0 requests and `RateLimit`
panics. -/
theorem rate_limiter_interval_witness :
    newRateLimiter 100 3600000000000
      = .ok { visitors := [], rate := rateEvery 36000000000, burst := 100 } ∧
    (Load sampleParseDuration sampleEnv).RateLimit.Requests = 0 ∧
    RateLimit (Load sampleParseDuration sampleEnv).RateLimit.Requests
        (Load sampleParseDuration sampleEnv).RateLimit.Window
      = .error "runtime error: integer divide by zero" :=
  ⟨(rate_limiter_interval 100 3600000000000).1 (by decide) (by decide) (by decide),
    ((rate_limiter_interval 0 0).2.2.2 sampleParseDuration sampleEnv (by decide)
      (by decide)).1,
    ((rate_limiter_interval 0 0).2.2.2 sampleParseDuration sampleEnv (by decide)
      (by decide)).2⟩

/-! ## Uploads -/

/-- C25: whatever `strings.ToLower` computes, `UploadImage` first checks the
lower-cased extension of the file name against the configured image types and
fails with `invalid file type: ` and
the extension when it is not among them; it then checks the declared size and
fails with `file too large: ` and the size when it exceeds the configured
maximum; in both cases the blob store is as it was.  When both checks pass and
the file can be read, the answer is that of `PutObject` on the blob store; and
whenever the blob store has changed, both checks had passed and exactly one
object, with the file's bytes, was added. -/
theorem upload_image_checks (svc : uploadService) (toLower : String → String)
    (today : String) (fresh : UUID) (failure : Option String) (s3 : S3)
    (file : Except String (List Nat)) (header : FileHeader) :
    (imageExt toLower header.Filename ∉ svc.config.Upload.AllowedImageTypes →
      svc.UploadImage toLower today fresh failure s3 file header
        = (.error ("invalid file type: " ++ imageExt toLower header.Filename), s3)) ∧
    (imageExt toLower header.Filename ∈ svc.config.Upload.AllowedImageTypes →
      header.Size > svc.config.Upload.MaxSize →
      svc.UploadImage toLower today fresh failure s3 file header
        = (.error ("file too large: " ++ toString header.Size ++ " bytes"), s3)) ∧
    (∀ content, imageExt toLower header.Filename ∈ svc.config.Upload.AllowedImageTypes →
      header.Size ≤ svc.config.Upload.MaxSize → file = .ok content →
      svc.UploadImage toLower today fresh failure s3 file header
        = match s3PutObject failure s3
            { Bucket := svc.bucket
              Key := "recipes/" ++ today ++ "/" ++ uuidString fresh ++ "."
                ++ imageExt toLower header.Filename
              Body := content
              ContentType := getContentType (imageExt toLower header.Filename)
              ACL := "public-read" } with
          | (.error err, s3) => (.error err, s3)
          | (.ok _, s3) =>
            (.ok ("https://" ++ svc.bucket ++ ".s3." ++ svc.config.AWS.Region
              ++ ".amazonaws.com/" ++ ("recipes/" ++ today ++ "/" ++ uuidString fresh ++ "."
                ++ imageExt toLower header.Filename)), s3)) ∧
    ((svc.UploadImage toLower today fresh failure s3 file header).2 ≠ s3 →
      imageExt toLower header.Filename ∈ svc.config.Upload.AllowedImageTypes ∧
      header.Size ≤ svc.config.Upload.MaxSize ∧
      ∃ content, file = .ok content ∧
        (svc.UploadImage toLower today fresh failure s3 file header).2.objects
          = s3.objects ++
            [{ Bucket := svc.bucket
               Key := "recipes/" ++ today ++ "/" ++ uuidString fresh ++ "."
                 ++ imageExt toLower header.Filename
               Body := content
               ContentType := getContentType (imageExt toLower header.Filename)
               ACL := "public-read" }]) := by
  have hany : svc.config.Upload.AllowedImageTypes.any (fun allowedType =>
      imageExt toLower header.Filename == allowedType) = true ↔
      imageExt toLower header.Filename ∈ svc.config.Upload.AllowedImageTypes := by
    simp [List.any_eq_true]
  refine ⟨?_, ?_, ?_, ?_⟩
  · intro h
    have hf : svc.config.Upload.AllowedImageTypes.any (fun allowedType =>
        imageExt toLower header.Filename == allowedType) = false := by
      rw [Bool.eq_false_iff]
      exact fun hc => h (hany.1 hc)
    simp only [uploadService.UploadImage, imageExt] at hf ⊢
    simp only [hf, Bool.not_false, if_true]
  · intro h hsize
    have ht := hany.2 h
    simp only [uploadService.UploadImage, imageExt] at ht ⊢
    simp only [ht, Bool.not_true, Bool.false_eq_true, if_false, hsize, if_true]
  · intro content h hsize hfile
    have ht := hany.2 h
    have hns : ¬ header.Size > svc.config.Upload.MaxSize := by omega
    simp only [uploadService.UploadImage, imageExt] at ht hns ⊢
    simp only [ht, Bool.not_true, Bool.false_eq_true, if_false, hns, hfile]
  · intro hch
    by_cases h : imageExt toLower header.Filename ∈ svc.config.Upload.AllowedImageTypes
    · by_cases hsize : header.Size > svc.config.Upload.MaxSize
      · exfalso
        apply hch
        have ht := hany.2 h
        simp only [uploadService.UploadImage, imageExt] at ht hsize ⊢
        simp only [ht, Bool.not_true, Bool.false_eq_true, if_false, hsize, if_true]
      · have ht := hany.2 h
        refine ⟨h, by omega, ?_⟩
        cases hfile : file with
        | error e =>
          exfalso
          apply hch
          simp only [uploadService.UploadImage, imageExt] at ht hsize ⊢
          simp only [ht, Bool.not_true, Bool.false_eq_true, if_false, hsize, hfile]
        | ok content =>
          refine ⟨content, rfl, ?_⟩
          cases hfail : failure with
          | some e =>
            exfalso
            apply hch
            simp only [uploadService.UploadImage, imageExt] at ht hsize ⊢
            simp only [ht, Bool.not_true, Bool.false_eq_true, if_false, hsize, hfile, hfail,
              s3PutObject]
          | none =>
            simp only [uploadService.UploadImage, imageExt] at ht hsize ⊢
            simp only [ht, Bool.not_true, Bool.false_eq_true, if_false, hsize, s3PutObject]
    · exfalso
      apply hch
      have hf : svc.config.Upload.AllowedImageTypes.any (fun allowedType =>
          imageExt toLower header.Filename == allowedType) = false := by
        rw [Bool.eq_false_iff]
        exact fun hc => h (hany.1 hc)
      simp only [uploadService.UploadImage, imageExt] at hf ⊢
      simp only [hf, Bool.not_false, if_true]

/-- Witness for C25, with the default limits (jpg, jpeg, png, webp; 10 MB) and
the case folding of ASCII, which is that of `strings.ToLower` on these names: a
`.gif` is refused for its type, a `.PNG` of 11 MB for its size, and a `.PNG` of
3 bytes is stored. -/
theorem upload_image_checks_witness :
    sampleUploadService.UploadImage recipeRepository.stringsToLower "2026/01/02" 5 none
        { objects := [] } (.ok [1, 2, 3])
        { Filename := "cat.gif", Size := 3 }
      = (.error "invalid file type: gif", { objects := [] }) ∧
    sampleUploadService.UploadImage recipeRepository.stringsToLower "2026/01/02" 5 none
        { objects := [] } (.ok [1, 2, 3])
        { Filename := "cat.PNG", Size := 11534336 }
      = (.error "file too large: 11534336 bytes", { objects := [] }) ∧
    sampleUploadService.UploadImage recipeRepository.stringsToLower "2026/01/02" 5 none
        { objects := [] } (.ok [1, 2, 3])
        { Filename := "cat.PNG", Size := 3 }
      = (.ok "https://b.s3.us-east-1.amazonaws.com/recipes/2026/01/02/5.png",
          { objects := [{ Bucket := "b", Key := "recipes/2026/01/02/5.png", Body := [1, 2, 3],
                          ContentType := "image/png", ACL := "public-read" }] }) :=
  ⟨(upload_image_checks sampleUploadService recipeRepository.stringsToLower "2026/01/02" 5 none
      { objects := [] } (.ok [1, 2, 3]) { Filename := "cat.gif", Size := 3 }).1 (by decide),
    (upload_image_checks sampleUploadService recipeRepository.stringsToLower "2026/01/02" 5 none
      { objects := [] } (.ok [1, 2, 3]) { Filename := "cat.PNG", Size := 11534336 }).2.1 (by decide) (by decide),
    (upload_image_checks sampleUploadService recipeRepository.stringsToLower "2026/01/02" 5 none
      { objects := [] } (.ok [1, 2, 3]) { Filename := "cat.PNG", Size := 3 }).2.2.1 [1, 2, 3] (by decide)
      (by decide) rfl⟩

/-! ## Statuses of the handlers -/

/-- C23 on the code: a recipe, shopping list or collection that is not found
gives status 404 in the handlers that read it and status 500 in the handlers
that update or delete it, for every store and id; an item that belongs to
another list gives status 500 in `UpdateItem` and `DeleteItem`; a caller who
is not the owner gets 403. -/
theorem handler_statuses :
    (∀ (s : Store) (userID id : UUID) (req : RecipeCreateRequest),
      match recipeRepository.GetByID s id with
      | .ok _ => True
      | .error _ =>
        (RecipeHandler.GetRecipe s (uuidString id)).1 = .error 404 "Recipe not found" ∧
        (RecipeHandler.UpdateRecipe validateAny s (some userID) (uuidString id) (.ok req)).1
          = .error 500 ErrRecordNotFound ∧
        (RecipeHandler.DeleteRecipe s (some userID) (uuidString id)).1
          = .error 500 ErrRecordNotFound) ∧
    (∀ (s : Store) (userID id : UUID) (req : ShoppingListUpdateRequest),
      match shoppingListRepository.GetByID s id with
      | .ok _ => True
      | .error _ =>
        (ShoppingListHandler.GetShoppingList s (some userID) (uuidString id)).1
          = .error 404 "Shopping list not found" ∧
        (ShoppingListHandler.UpdateShoppingList validateAny s (some userID) (uuidString id)
            (.ok req)).1 = .error 500 ErrRecordNotFound ∧
        (ShoppingListHandler.DeleteShoppingList s (some userID) (uuidString id)).1
          = .error 500 ErrRecordNotFound) ∧
    (∀ (s : Store) (userID id : UUID) (req : CollectionUpdateRequest),
      match collectionRepository.GetByID s id with
      | .ok _ => True
      | .error _ =>
        (CollectionHandler.GetCollection s (some userID) (uuidString id)).1
          = .error 404 "Collection not found" ∧
        (CollectionHandler.UpdateCollection validateAny s (some userID) (uuidString id)
            (.ok req)).1 = .error 500 ErrRecordNotFound ∧
        (CollectionHandler.DeleteCollection s (some userID) (uuidString id)).1
          = .error 500 ErrRecordNotFound) ∧
    RecipeHandler.GetRecipe sampleStore "99" = (.error 404 "Recipe not found", sampleStore) ∧
    RecipeHandler.UpdateRecipe validateAny sampleStore (some 10) "99" (.ok sampleRecipeRequest)
      = (.error 500 "record not found", sampleStore) ∧
    ShoppingListHandler.UpdateItem validateAny sampleStore (some 30) "4" "5"
        (.ok sampleItemUpdate)
      = (.error 500 "item does not belong to this shopping list", sampleStore) ∧
    ShoppingListHandler.DeleteItem sampleStore (some 30) "4" "5"
      = (.error 500 "item does not belong to this shopping list", sampleStore) ∧
    RecipeHandler.UpdateRecipe validateAny sampleStore (some 20) "1" (.ok sampleRecipeRequest)
      = (.error 403 "unauthorized to update this recipe", sampleStore) ∧
    ShoppingListHandler.UpdateItem validateAny sampleStore (some 30) "3" "5"
        (.ok sampleItemUpdate)
      = (.error 403 "unauthorized to modify this shopping list", sampleStore) := by
  refine ⟨?_, ?_, ?_, rfl, rfl, rfl, rfl, rfl, rfl⟩
  · intro s userID id req
    cases hget : recipeRepository.GetByID s id with
    | ok r => trivial
    | error e =>
      have he : e = ErrRecordNotFound := by
        unfold recipeRepository.GetByID at hget
        cases hf : s.recipes.find? (fun r => r.ID == id && !r.DeletedAt) with
        | none =>
          simp only [hf, firstOr] at hget
          injection hget with hget
          exact hget.symm
        | some row => simp [hf, firstOr] at hget
      subst he
      simp only [RecipeHandler.GetRecipe, RecipeHandler.UpdateRecipe, RecipeHandler.DeleteRecipe,
        uuidParse_uuidString, recipeService.GetRecipe, recipeService.UpdateRecipe,
        recipeService.DeleteRecipe, hget, validateAny]
      refine ⟨trivial, ?_, ?_⟩ <;> rfl
  · intro s userID id req
    cases hget : shoppingListRepository.GetByID s id with
    | ok r => trivial
    | error e =>
      have he : e = ErrRecordNotFound := by
        unfold shoppingListRepository.GetByID at hget
        cases hf : s.shopping_lists.find? (fun l => l.ID == id && !l.DeletedAt) with
        | none =>
          simp only [hf, firstOr] at hget
          injection hget with hget
          exact hget.symm
        | some row => simp [hf, firstOr] at hget
      subst he
      simp only [ShoppingListHandler.GetShoppingList, ShoppingListHandler.UpdateShoppingList,
        ShoppingListHandler.DeleteShoppingList, uuidParse_uuidString,
        shoppingListService.GetShoppingList, shoppingListService.UpdateShoppingList,
        shoppingListService.DeleteShoppingList, hget, validateAny]
      refine ⟨?_, ?_, ?_⟩ <;> rfl
  · intro s userID id req
    cases hget : collectionRepository.GetByID s id with
    | ok r => trivial
    | error e =>
      have he : e = ErrRecordNotFound := by
        unfold collectionRepository.GetByID at hget
        cases hf : s.collections.find? (fun c => c.ID == id && !c.DeletedAt) with
        | none =>
          simp only [hf, firstOr] at hget
          injection hget with hget
          exact hget.symm
        | some row => simp [hf, firstOr] at hget
      subst he
      simp only [CollectionHandler.GetCollection, CollectionHandler.UpdateCollection,
        CollectionHandler.DeleteCollection, uuidParse_uuidString,
        collectionService.GetCollection, collectionService.UpdateCollection,
        collectionService.DeleteCollection, hget, validateAny]
      refine ⟨?_, ?_, ?_⟩ <;> rfl

/-! ## Owners under update -/

/-- `Save` over a table keyed by id leaves a column as it was when the rows
with the struct's id already carry the struct's value in that column. -/
theorem save_keeps_column {α β : Type} (key : α → UUID) (col : α → β) (l : List α) (new : α)
    (hcol : ∀ x ∈ l, key x = key new → col x = col new) :
    (l.map (fun x => if key x == key new then new else x)).map (fun x => (key x, col x))
      = l.map (fun x => (key x, col x)) := by
  rw [List.map_map]
  apply List.map_congr_left
  intro x hx
  by_cases h : key x = key new
  · simp [Function.comp, h, hcol x hx h]
  · simp [Function.comp, h]

/-- When the id is a key of the table and a column is unchanged row by row, a
row of the new table has, in that column, the value of the old row with its
id. -/
theorem column_of_key {α β : Type} (key : α → UUID) (col : α → β) (l l1 : List α)
    (hkey : (l.map key).Nodup)
    (hmap : l1.map (fun x => (key x, col x)) = l.map (fun x => (key x, col x)))
    (row row1 : α) (hrow : row ∈ l) (hrow1 : row1 ∈ l1) (hid : key row1 = key row) :
    col row1 = col row := by
  have hmem : (key row1, col row1) ∈ l1.map (fun x => (key x, col x)) :=
    List.mem_map.2 ⟨row1, hrow1, rfl⟩
  rw [hmap] at hmem
  obtain ⟨row0, hrow0, h0⟩ := List.mem_map.1 hmem
  simp only [Prod.mk.injEq] at h0
  have heq : row0 = row := List.inj_on_of_nodup_map hkey hrow0 hrow (h0.1.trans hid)
  rw [← h0.2, heq]

theorem collection_getByID_row (s : Store) (id : UUID) (c : Collection)
    (h : collectionRepository.GetByID s id = .ok c) :
    c.ID = id ∧ ∃ row ∈ s.collections, row.ID = id ∧ row.UserID = c.UserID := by
  unfold collectionRepository.GetByID at h
  cases hf : s.collections.find? (fun c => c.ID == id && !c.DeletedAt) with
  | none => simp [hf, firstOr] at h
  | some row =>
    simp only [hf, firstOr] at h
    have hmem := List.mem_of_find?_eq_some hf
    have hp := List.find?_some hf
    simp only [Bool.and_eq_true, beq_iff_eq, Bool.not_eq_true'] at hp
    injection h with h
    subst h
    exact ⟨hp.1, row, hmem, hp.1, rfl⟩

theorem shoppingList_getByID_id (s : Store) (id : UUID) (list : ShoppingList)
    (h : shoppingListRepository.GetByID s id = .ok list) : list.ID = id := by
  unfold shoppingListRepository.GetByID at h
  cases hf : s.shopping_lists.find? (fun l => l.ID == id && !l.DeletedAt) with
  | none => simp [hf, firstOr] at h
  | some row =>
    simp only [hf, firstOr] at h
    have hp := List.find?_some hf
    simp only [Bool.and_eq_true, beq_iff_eq, Bool.not_eq_true'] at hp
    injection h with h
    subst h
    exact hp.1

theorem getItem_row (s : Store) (id : UUID) (item : ShoppingListItem)
    (h : shoppingListRepository.GetItem s id = .ok item) :
    item ∈ s.shopping_list_items ∧ item.ID = id := by
  unfold shoppingListRepository.GetItem at h
  cases hf : s.shopping_list_items.find? (fun i => i.ID == id) with
  | none => simp [hf, firstOr] at h
  | some row =>
    simp only [hf, firstOr] at h
    have hmem := List.mem_of_find?_eq_some hf
    have hp := List.find?_some hf
    simp only [beq_iff_eq] at hp
    injection h with h
    subst h
    exact ⟨hmem, hp⟩

theorem applyItemUpdate_keeps (item : ShoppingListItem) (req : ShoppingListItemUpdateRequest) :
    (shoppingListService.applyItemUpdate item req).ID = item.ID ∧
    (shoppingListService.applyItemUpdate item req).ShoppingListID = item.ShoppingListID := by
  unfold shoppingListService.applyItemUpdate
  cases req.Name <;> cases req.Amount <;> cases req.Unit <;> cases req.Notes <;>
    cases req.Completed <;> cases req.OrderIndex <;> exact ⟨rfl, rfl⟩

/-- After a successful `UpdateRecipe`, with the id a key of `recipes`, every
recipe row has the owner it had, and the recipe returned is owned by the owner
of the recipe loaded. -/
theorem updateRecipe_owner (s : Store) (userID recipeID : UUID) (req : RecipeCreateRequest)
    (updated : Recipe) (s1 : Store) (hkey : (s.recipes.map (fun r => r.ID)).Nodup)
    (h : recipeService.UpdateRecipe s userID recipeID req = (.ok updated, s1)) :
    (∃ recipe, recipeRepository.GetByID s recipeID = .ok recipe ∧ recipe.UserID = userID ∧
      updated.UserID = recipe.UserID) ∧
    s1.recipes.map (fun r => (r.ID, r.UserID)) = s.recipes.map (fun r => (r.ID, r.UserID)) := by
  unfold recipeService.UpdateRecipe at h
  cases hget : recipeRepository.GetByID s recipeID with
  | error e => simp [hget] at h
  | ok recipe =>
    by_cases hown : recipe.UserID = userID
    · obtain ⟨hid, -, -, -, -, row, hrow, hrowid, hrowuser⟩ :=
        recipe_getByID_facts s recipeID recipe hget
      obtain ⟨aid, auser, -, -, -, -⟩ := applyRecipeUpdate_facts recipe req
      obtain ⟨s2, hupd, hrec, -, -, -, -⟩ :=
        recipeRepository_update_rows s (recipeService.applyRecipeUpdate recipe req)
      simp only [hget, hown, bne_self_eq_false, Bool.false_eq_true, if_false, hupd,
        Prod.mk.injEq] at h
      obtain ⟨hres, hs1⟩ := h
      subst hs1
      have hany : s.recipes.any
          (fun x => x.ID == (recipeService.applyRecipeUpdate recipe req).ID) = true := by
        apply List.any_eq_true.2
        exact ⟨row, hrow, by simp [aid, hid, hrowid]⟩
      have htable : s2.recipes.map (fun r => (r.ID, r.UserID))
          = s.recipes.map (fun r => (r.ID, r.UserID)) := by
        rw [hrec]
        unfold recipeRepository.saveRecipe
        rw [if_pos hany]
        refine save_keeps_column (fun r : Recipe => r.ID) (fun r : Recipe => r.UserID) s.recipes
          (recipeService.applyRecipeUpdate recipe req).row ?_
        intro x hx hxid
        have hxrow : x = row :=
          List.inj_on_of_nodup_map hkey hx hrow
            (by show x.ID = row.ID; rw [hrowid, ← hid, ← aid]; exact hxid)
        show x.UserID = (recipeService.applyRecipeUpdate recipe req).UserID
        rw [hxrow, hrowuser]
        exact auser.symm
      refine ⟨⟨recipe, rfl, hown, ?_⟩, htable⟩
      obtain ⟨uid, -, -, -, -, row1, hrow1, hrow1id, hrow1user⟩ :=
        recipe_getByID_facts s2 _ updated hres
      rw [← hrow1user, ← hrowuser]
      exact column_of_key (fun r : Recipe => r.ID) (fun r : Recipe => r.UserID) s.recipes
        s2.recipes hkey htable row row1 hrow hrow1
        (by show row1.ID = row.ID; rw [hrow1id, hrowid, aid, hid])
    · have hne : (recipe.UserID != userID) = true := by simpa using hown
      simp [hget, hne] at h

/-- The same for `UpdateCollection`. -/
theorem updateCollection_owner (s : Store) (userID collectionID : UUID)
    (req : CollectionUpdateRequest) (updated : Collection) (s1 : Store)
    (hkey : (s.collections.map (fun c => c.ID)).Nodup)
    (h : collectionService.UpdateCollection s userID collectionID req = (.ok updated, s1)) :
    (∃ collection, collectionRepository.GetByID s collectionID = .ok collection ∧
      collection.UserID = userID ∧ updated.UserID = collection.UserID) ∧
    s1.collections.map (fun c => (c.ID, c.UserID))
      = s.collections.map (fun c => (c.ID, c.UserID)) := by
  unfold collectionService.UpdateCollection at h
  cases hget : collectionRepository.GetByID s collectionID with
  | error e => simp [hget] at h
  | ok collection =>
    by_cases hown : collection.UserID = userID
    · obtain ⟨hid, row, hrow, hrowid, hrowuser⟩ :=
        collection_getByID_row s collectionID collection hget
      have hf : (collection.UserID != userID) = false := by simp [hown]
      simp only [hget, hf, Bool.false_eq_true, if_false] at h
      have hnew : ∃ c : Collection, c.ID = collection.ID ∧ c.UserID = collection.UserID ∧
          (collectionRepository.GetByID (collectionRepository.Update s c) c.ID,
            collectionRepository.Update s c) = (Except.ok updated, s1) := by
        revert h
        cases req.Name <;> cases req.Description <;> cases req.ImageURL <;>
          cases req.IsPublic <;> exact fun h => ⟨_, by rfl, by rfl, h⟩
      obtain ⟨c, cid, cuser, hc⟩ := hnew
      simp only [Prod.mk.injEq] at hc
      obtain ⟨hres, hs1⟩ := hc
      subst hs1
      have hany : s.collections.any (fun x => x.ID == c.ID) = true := by
        apply List.any_eq_true.2
        exact ⟨row, hrow, by simp [cid, hid, hrowid]⟩
      have htable : (collectionRepository.Update s c).collections.map (fun c => (c.ID, c.UserID))
          = s.collections.map (fun c => (c.ID, c.UserID)) := by
        unfold collectionRepository.Update
        rw [if_pos hany]
        refine save_keeps_column (fun c : Collection => c.ID) (fun c : Collection => c.UserID)
          s.collections c.row ?_
        intro x hx hxid
        have hxrow : x = row :=
          List.inj_on_of_nodup_map hkey hx hrow
            (by show x.ID = row.ID; rw [hrowid, ← hid, ← cid]; exact hxid)
        show x.UserID = c.UserID
        rw [hxrow, hrowuser]
        exact cuser.symm
      refine ⟨⟨collection, rfl, hown, ?_⟩, htable⟩
      obtain ⟨uid, row1, hrow1, hrow1id, hrow1user⟩ :=
        collection_getByID_row (collectionRepository.Update s c) _ updated hres
      rw [← hrow1user, ← hrowuser]
      exact column_of_key (fun c : Collection => c.ID) (fun c : Collection => c.UserID)
        s.collections (collectionRepository.Update s c).collections hkey htable row row1 hrow
        hrow1 (by show row1.ID = row.ID; rw [hrow1id, hrowid, cid, hid])
    · have hne : (collection.UserID != userID) = true := by simpa using hown
      simp [hget, hne] at h

/-- The same for `UpdateShoppingList`. -/
theorem updateShoppingList_owner (s : Store) (userID listID : UUID)
    (req : ShoppingListUpdateRequest) (updated : ShoppingList) (s1 : Store)
    (hkey : (s.shopping_lists.map (fun l => l.ID)).Nodup)
    (h : shoppingListService.UpdateShoppingList s userID listID req = (.ok updated, s1)) :
    (∃ list, shoppingListRepository.GetByID s listID = .ok list ∧ list.UserID = userID ∧
      updated.UserID = list.UserID) ∧
    s1.shopping_lists.map (fun l => (l.ID, l.UserID))
      = s.shopping_lists.map (fun l => (l.ID, l.UserID)) := by
  unfold shoppingListService.UpdateShoppingList at h
  cases hget : shoppingListRepository.GetByID s listID with
  | error e => simp [hget] at h
  | ok list =>
    by_cases hown : list.UserID = userID
    · obtain ⟨row, hrow, hrowid, -, hrowuser⟩ := shoppingList_getByID_row s listID list hget
      have hid := shoppingList_getByID_id s listID list hget
      have hf : (list.UserID != userID) = false := by simp [hown]
      simp only [hget, hf, Bool.false_eq_true, if_false] at h
      have hnew : ∃ l : ShoppingList, l.ID = list.ID ∧ l.UserID = list.UserID ∧
          (shoppingListRepository.GetByID (shoppingListRepository.Update s l) l.ID,
            shoppingListRepository.Update s l) = (Except.ok updated, s1) := by
        revert h
        cases req.Name <;> exact fun h => ⟨_, by rfl, by rfl, h⟩
      obtain ⟨l, lid, luser, hl⟩ := hnew
      simp only [Prod.mk.injEq] at hl
      obtain ⟨hres, hs1⟩ := hl
      subst hs1
      have hany : s.shopping_lists.any (fun x => x.ID == l.ID) = true := by
        apply List.any_eq_true.2
        exact ⟨row, hrow, by simp [lid, hid, hrowid]⟩
      have htable : (shoppingListRepository.Update s l).shopping_lists.map
            (fun l => (l.ID, l.UserID))
          = s.shopping_lists.map (fun l => (l.ID, l.UserID)) := by
        unfold shoppingListRepository.Update
        rw [if_pos hany]
        refine save_keeps_column (fun l : ShoppingList => l.ID)
          (fun l : ShoppingList => l.UserID) s.shopping_lists l.row ?_
        intro x hx hxid
        have hxrow : x = row :=
          List.inj_on_of_nodup_map hkey hx hrow
            (by show x.ID = row.ID; rw [hrowid, ← hid, ← lid]; exact hxid)
        show x.UserID = l.UserID
        rw [hxrow, hrowuser]
        exact luser.symm
      refine ⟨⟨list, rfl, hown, ?_⟩, htable⟩
      obtain ⟨row1, hrow1, hrow1id, -, hrow1user⟩ :=
        shoppingList_getByID_row (shoppingListRepository.Update s l) _ updated hres
      rw [← hrow1user, ← hrowuser]
      exact column_of_key (fun l : ShoppingList => l.ID) (fun l : ShoppingList => l.UserID)
        s.shopping_lists (shoppingListRepository.Update s l).shopping_lists hkey htable row row1
        hrow hrow1 (by show row1.ID = row.ID; rw [hrow1id, hrowid, lid, hid])
    · have hne : (list.UserID != userID) = true := by simpa using hown
      simp [hget, hne] at h

/-- After a successful `UpdateItem`, with the id a key of the item table,
every item row is in the list it was in, and the item returned is in the list
of the item loaded, which is the list of the path. -/
theorem updateItem_parent (s : Store) (userID listID itemID : UUID)
    (req : ShoppingListItemUpdateRequest) (updated : ShoppingListItem) (s1 : Store)
    (hkey : (s.shopping_list_items.map (fun i => i.ID)).Nodup)
    (h : shoppingListService.UpdateItem s userID listID itemID req = (.ok updated, s1)) :
    (∃ item, shoppingListRepository.GetItem s itemID = .ok item ∧
      item.ShoppingListID = listID ∧ updated.ShoppingListID = item.ShoppingListID) ∧
    s1.shopping_list_items.map (fun i => (i.ID, i.ShoppingListID))
      = s.shopping_list_items.map (fun i => (i.ID, i.ShoppingListID)) := by
  unfold shoppingListService.UpdateItem at h
  cases hget : shoppingListRepository.GetByID s listID with
  | error e => simp [hget] at h
  | ok list =>
    by_cases hown : list.UserID = userID
    · cases hitem : shoppingListRepository.GetItem s itemID with
      | error e => simp [hget, hown, hitem] at h
      | ok item =>
        by_cases hparent : item.ShoppingListID = listID
        · obtain ⟨hmem, hid⟩ := getItem_row s itemID item hitem
          obtain ⟨aid, aparent⟩ := applyItemUpdate_keeps item req
          simp only [hget, hown, hitem, hparent, bne_self_eq_false, Bool.false_eq_true, if_false,
            Prod.mk.injEq] at h
          obtain ⟨hres, hs1⟩ := h
          subst hs1
          have hany : s.shopping_list_items.any
              (fun x => x.ID == (shoppingListService.applyItemUpdate item req).ID) = true := by
            apply List.any_eq_true.2
            exact ⟨item, hmem, by simp [aid]⟩
          have htable : (shoppingListRepository.UpdateItem s
                (shoppingListService.applyItemUpdate item req)).shopping_list_items.map
                (fun i => (i.ID, i.ShoppingListID))
              = s.shopping_list_items.map (fun i => (i.ID, i.ShoppingListID)) := by
            unfold shoppingListRepository.UpdateItem
            rw [if_pos hany]
            refine save_keeps_column (fun i : ShoppingListItem => i.ID)
              (fun i : ShoppingListItem => i.ShoppingListID) s.shopping_list_items
              (shoppingListService.applyItemUpdate item req) ?_
            intro x hx hxid
            have hxrow : x = item :=
              List.inj_on_of_nodup_map hkey hx hmem
                (by show x.ID = item.ID; rw [← aid]; exact hxid)
            show x.ShoppingListID = (shoppingListService.applyItemUpdate item req).ShoppingListID
            rw [hxrow]
            exact aparent.symm
          refine ⟨⟨item, rfl, hparent, ?_⟩, htable⟩
          obtain ⟨hmem1, hid1⟩ := getItem_row _ _ updated hres
          exact column_of_key (fun i : ShoppingListItem => i.ID)
            (fun i : ShoppingListItem => i.ShoppingListID) s.shopping_list_items _ hkey htable
            item updated hmem hmem1 (by show updated.ID = item.ID; rw [hid1, aid])
        · have hne : (item.ShoppingListID != listID) = true := by simpa using hparent
          simp [hget, hown, hitem, hne] at h
    · have hne : (list.UserID != userID) = true := by simpa using hown
      simp [hget, hne] at h

/-- C24: no update changes an owner.  In a store whose tables are keyed by id,
after a successful `UpdateRecipe`, `UpdateCollection` or `UpdateShoppingList`,
whatever the request, every row of the table has the owner it had before, and
the aggregate returned has the owner of the aggregate loaded, who is the
caller; after a successful `UpdateItem` every item row has the parent list it
had before, and the item returned has the parent list of the item loaded,
which is the list of the path. -/
theorem update_keeps_owner (s : Store) (userID id : UUID) :
    (∀ (req : RecipeCreateRequest) (updated : Recipe) (s1 : Store),
      (s.recipes.map (fun r => r.ID)).Nodup →
      recipeService.UpdateRecipe s userID id req = (.ok updated, s1) →
      (∃ recipe, recipeRepository.GetByID s id = .ok recipe ∧ recipe.UserID = userID ∧
        updated.UserID = recipe.UserID) ∧
      s1.recipes.map (fun r => (r.ID, r.UserID))
        = s.recipes.map (fun r => (r.ID, r.UserID))) ∧
    (∀ (req : CollectionUpdateRequest) (updated : Collection) (s1 : Store),
      (s.collections.map (fun c => c.ID)).Nodup →
      collectionService.UpdateCollection s userID id req = (.ok updated, s1) →
      (∃ collection, collectionRepository.GetByID s id = .ok collection ∧
        collection.UserID = userID ∧ updated.UserID = collection.UserID) ∧
      s1.collections.map (fun c => (c.ID, c.UserID))
        = s.collections.map (fun c => (c.ID, c.UserID))) ∧
    (∀ (req : ShoppingListUpdateRequest) (updated : ShoppingList) (s1 : Store),
      (s.shopping_lists.map (fun l => l.ID)).Nodup →
      shoppingListService.UpdateShoppingList s userID id req = (.ok updated, s1) →
      (∃ list, shoppingListRepository.GetByID s id = .ok list ∧ list.UserID = userID ∧
        updated.UserID = list.UserID) ∧
      s1.shopping_lists.map (fun l => (l.ID, l.UserID))
        = s.shopping_lists.map (fun l => (l.ID, l.UserID))) ∧
    (∀ (listID : UUID) (req : ShoppingListItemUpdateRequest) (updated : ShoppingListItem)
        (s1 : Store),
      (s.shopping_list_items.map (fun i => i.ID)).Nodup →
      shoppingListService.UpdateItem s userID listID id req = (.ok updated, s1) →
      (∃ item, shoppingListRepository.GetItem s id = .ok item ∧
        item.ShoppingListID = listID ∧ updated.ShoppingListID = item.ShoppingListID) ∧
      s1.shopping_list_items.map (fun i => (i.ID, i.ShoppingListID))
        = s.shopping_list_items.map (fun i => (i.ID, i.ShoppingListID))) :=
  ⟨fun req updated s1 hkey h => updateRecipe_owner s userID id req updated s1 hkey h,
    fun req updated s1 hkey h => updateCollection_owner s userID id req updated s1 hkey h,
    fun req updated s1 hkey h => updateShoppingList_owner s userID id req updated s1 hkey h,
    fun listID req updated s1 hkey h =>
      updateItem_parent s userID listID id req updated s1 hkey h⟩

/-- Witness for C24: in the sample store user 10 updates recipe 1, collection 2
and list 3 and ticks off item 5; owners and parent list stay 10, 10, 10 and
3. -/
theorem update_keeps_owner_witness :
    (recipeService.UpdateRecipe sampleStore 10 1 sampleRecipeRequest).2.recipes.map
        (fun r => (r.ID, r.UserID)) = [(1, 10)] ∧
    (collectionService.UpdateCollection sampleStore 10 2 sampleCollectionUpdate).2.collections.map
        (fun c => (c.ID, c.UserID)) = [(2, 10)] ∧
    (shoppingListService.UpdateShoppingList sampleStore 10 3
        { Name := some "Market" }).2.shopping_lists.map
        (fun l => (l.ID, l.UserID)) = [(3, 10), (4, 30)] ∧
    (shoppingListService.UpdateItem sampleStore 10 3 5 sampleItemUpdate).2.shopping_list_items.map
        (fun i => (i.ID, i.ShoppingListID)) = [(5, 3)] :=
  ⟨((update_keeps_owner sampleStore 10 1).1 sampleRecipeRequest _ _ (by decide) rfl).2,
    ((update_keeps_owner sampleStore 10 2).2.1 sampleCollectionUpdate _ _ (by decide) rfl).2,
    ((update_keeps_owner sampleStore 10 3).2.2.1 { Name := some "Market" } _ _ (by decide)
      rfl).2,
    ((update_keeps_owner sampleStore 10 5).2.2.2 3 sampleItemUpdate _ _ (by decide) rfl).2⟩

/-! ## What an update of a recipe leaves alone -/

theorem applyRecipeUpdate_scalars (recipe : Recipe) (req : RecipeCreateRequest) :
    (recipeService.applyRecipeUpdate recipe req).Rating = recipe.Rating ∧
    (recipeService.applyRecipeUpdate recipe req).RatingCount = recipe.RatingCount ∧
    (req.IsPublic = none → (recipeService.applyRecipeUpdate recipe req).IsPublic
      = recipe.IsPublic) ∧
    (req.Nutrition = none → (recipeService.applyRecipeUpdate recipe req).Nutrition
      = recipe.Nutrition) ∧
    (∀ n existing, req.Nutrition = some n → recipe.Nutrition = some existing →
      (recipeService.applyRecipeUpdate recipe req).Nutrition = some (existing.overwrite n)) := by
  unfold recipeService.applyRecipeUpdate
  refine ⟨?_, ?_, ?_, ?_, ?_⟩
  · cases req.IsPublic <;> cases req.Nutrition <;> rfl
  · cases req.IsPublic <;> cases req.Nutrition <;> rfl
  · intro h
    rw [h]
    cases req.Nutrition <;> rfl
  · intro h
    rw [h]
    cases req.IsPublic <;> rfl
  · intro n existing hn he
    rw [hn]
    cases hp : req.IsPublic <;> simp only [he] <;> rfl

/-- The nutrition rows `Update` commits. -/
theorem recipeRepository_update_nutritions (s : Store) (recipe : Recipe) :
    (recipeRepository.Update s recipe).2.nutritions
      = match recipe.Nutrition with
        | none => s.nutritions
        | some n =>
          if n.ID == uuidNil then
            s.nutritions ++
              [({ n with RecipeID := recipe.ID } : Nutrition).BeforeCreate
                (s.nextID + recipe.Ingredients.length + recipe.Instructions.length + 1)]
          else if s.nutritions.any (fun x => x.ID == n.ID) then
            s.nutritions.map (fun x => if x.ID == n.ID then { n with RecipeID := recipe.ID } else x)
          else s.nutritions ++ [{ n with RecipeID := recipe.ID }] := by
  have hsave : ∀ s0 : Store, (recipeRepository.saveRecipe recipe s0).nutritions = s0.nutritions ∧
      (recipeRepository.saveRecipe recipe s0).nextID = s0.nextID := by
    intro s0
    unfold recipeRepository.saveRecipe
    split <;> exact ⟨rfl, rfl⟩
  unfold recipeRepository.Update Transaction
  cases hn : recipe.Nutrition with
  | none =>
    simp only [createInstructions_view, createIngredients_view, txState_exec_view,
      txState_begin_view, (hsave s).1]
  | some n =>
    simp only [recipeRepository.txSaveNutrition]
    by_cases hnil : n.ID = uuidNil
    · simp only [hnil, beq_self_eq_true, if_true, txState_exec_view, createInstructions_view,
        createIngredients_view, txState_begin_view, (hsave s).1, (hsave s).2, Store.bumpUUID,
        Store.newUUID]
    · have hne : (n.ID == uuidNil) = false := by simpa using hnil
      simp only [hne, Bool.false_eq_true, if_false, txState_exec_view, createInstructions_view,
        createIngredients_view, txState_begin_view, (hsave s).1]
      split <;> rfl

/-- Replacing the rows that carry the id of the first match by a row that
matches too leaves that row as the first match, when the id is a key. -/
theorem find_after_replace (p : Nutrition → Bool) (e new : Nutrition) (hp : p new = true)
    (l : List Nutrition) (hfind : l.find? p = some e)
    (hrep : ∀ x ∈ l, x.ID = e.ID → x = e) :
    (l.map (fun x => if x.ID == e.ID then new else x)).find? p = some new := by
  induction l with
  | nil => simp at hfind
  | cons x rest ih =>
    by_cases hx : p x = true
    · have hxe : x = e := by
        rw [List.find?_cons_of_pos _ hx] at hfind
        injection hfind
      subst hxe
      simp [hp]
    · have hrest : rest.find? p = some e := by
        rw [List.find?_cons_of_neg _ hx] at hfind
        exact hfind
      have hne : x.ID ≠ e.ID := by
        intro hid
        have := hrep x (List.mem_cons_self _ _) hid
        rw [this] at hx
        exact hx (List.find?_some hrest)
      have hih := ih hrest (fun y hy => hrep y (List.mem_cons_of_mem _ hy))
      simp only [List.map_cons, beq_iff_eq, hne, if_false]
      rw [List.find?_cons_of_neg _ hx]
      simpa using hih


theorem recipe_getByID_nutrition (s : Store) (id : UUID) (r : Recipe)
    (h : recipeRepository.GetByID s id = .ok r) :
    r.Nutrition = s.nutritions.find? (fun n => n.RecipeID == id) ∧
    r.Rating = (r.row).Rating := by
  unfold recipeRepository.GetByID at h
  cases hf : s.recipes.find? (fun x => x.ID == id && !x.DeletedAt) with
  | none => simp [hf, firstOr] at h
  | some row =>
    simp only [hf, firstOr] at h
    injection h with h
    subst h
    exact ⟨rfl, rfl⟩

/-- What `UpdateRecipe` returns after a successful update: the row of the
struct it wrote, with the children read back from the store it left. -/
theorem updateRecipe_result (s : Store) (userID recipeID : UUID) (req : RecipeCreateRequest)
    (recipe updated : Recipe) (s1 : Store)
    (hget : recipeRepository.GetByID s recipeID = .ok recipe)
    (h : recipeService.UpdateRecipe s userID recipeID req = (.ok updated, s1)) :
    s1 = (recipeRepository.Update s (recipeService.applyRecipeUpdate recipe req)).2 ∧
    updated.ID = recipe.ID ∧
    updated.Rating = (recipeService.applyRecipeUpdate recipe req).Rating ∧
    updated.RatingCount = (recipeService.applyRecipeUpdate recipe req).RatingCount ∧
    updated.IsPublic = (recipeService.applyRecipeUpdate recipe req).IsPublic ∧
    updated.Nutrition = s1.nutritions.find? (fun n => n.RecipeID == recipeID) := by
  obtain ⟨hid, hlive, -, -, -, row, hrow, hrowid, -⟩ := recipe_getByID_facts s recipeID recipe hget
  obtain ⟨aid, -, alive, -, -, -⟩ := applyRecipeUpdate_facts recipe req
  obtain ⟨s2, hupd, hrec, -, -, -, -⟩ :=
    recipeRepository_update_rows s (recipeService.applyRecipeUpdate recipe req)
  have hany : s.recipes.any
      (fun x => x.ID == (recipeService.applyRecipeUpdate recipe req).ID) = true := by
    apply List.any_eq_true.2
    exact ⟨row, hrow, by simp [aid, hid, hrowid]⟩
  have hfind : s2.recipes.find? (fun x => x.ID == recipeID && !x.DeletedAt)
      = some (recipeService.applyRecipeUpdate recipe req).row := by
    rw [hrec]
    unfold recipeRepository.saveRecipe
    rw [if_pos hany]
    have := find_after_saveRecipe (recipeService.applyRecipeUpdate recipe req)
      (by rw [alive, hlive]) s.recipes hany
    rw [aid, hid] at this
    rw [aid, hid]
    exact this
  have hfinal : recipeRepository.GetByID s2 recipeID
      = .ok { (recipeService.applyRecipeUpdate recipe req).row with
          Ingredients := s2.ingredients.filter (fun i => i.RecipeID == recipeID)
          Instructions := s2.instructions.filter (fun i => i.RecipeID == recipeID)
          Tags := recipeRepository.preloadTags s2 recipeID
          Nutrition := s2.nutritions.find? (fun n => n.RecipeID == recipeID) } := by
    unfold recipeRepository.GetByID
    rw [hfind]
    rfl
  unfold recipeService.UpdateRecipe at h
  by_cases hown : recipe.UserID = userID
  · have hf : (recipe.UserID != userID) = false := by simp [hown]
    simp only [hget, hf, Bool.false_eq_true, if_false, hupd, Prod.mk.injEq] at h
    obtain ⟨hres, hs1⟩ := h
    subst hs1
    rw [aid, hid, hfinal] at hres
    injection hres with hres
    subst hres
    refine ⟨by rw [hupd], ?_, rfl, rfl, rfl, rfl⟩
    show (recipeService.applyRecipeUpdate recipe req).ID = recipe.ID
    exact aid
  · have hne : (recipe.UserID != userID) = true := by simpa using hown
    simp [hget, hne] at h

/-- C29: `UpdateRecipe` never alters the id or the derived rating fields: for
every request, the struct written back and the recipe read back after a
successful update have the id, rating and rating count of the recipe loaded.
A request without `is_public` leaves the visibility as it was.  In a store
whose nutrition rows have non-nil ids that are a key: a request without
nutrition leaves the nutrition rows as they were, and a request with a
nutrition, for a recipe that has a record, overwrites that record in place
(same position, id and recipe, the eight values of the request), every other
row being untouched, so that no recipe gains a record. -/
theorem update_recipe_frame (s : Store) (userID recipeID : UUID) (req : RecipeCreateRequest)
    (recipe updated : Recipe) (s1 : Store)
    (hget : recipeRepository.GetByID s recipeID = .ok recipe)
    (h : recipeService.UpdateRecipe s userID recipeID req = (.ok updated, s1)) :
    ((recipeService.applyRecipeUpdate recipe req).ID = recipe.ID ∧
      (recipeService.applyRecipeUpdate recipe req).Rating = recipe.Rating ∧
      (recipeService.applyRecipeUpdate recipe req).RatingCount = recipe.RatingCount) ∧
    (updated.ID = recipe.ID ∧ updated.Rating = recipe.Rating ∧
      updated.RatingCount = recipe.RatingCount) ∧
    (req.IsPublic = none → updated.IsPublic = recipe.IsPublic) ∧
    ((∀ x ∈ s.nutritions, x.ID ≠ uuidNil) → (s.nutritions.map (fun x => x.ID)).Nodup →
      (req.Nutrition = none →
        s1.nutritions = s.nutritions ∧ updated.Nutrition = recipe.Nutrition) ∧
      (∀ n existing, req.Nutrition = some n → recipe.Nutrition = some existing →
        s1.nutritions
          = s.nutritions.map (fun x => if x.ID == existing.ID then existing.overwrite n else x) ∧
        (existing.overwrite n).ID = existing.ID ∧
        (existing.overwrite n).RecipeID = existing.RecipeID ∧
        s1.nutritions.map (fun x => (x.ID, x.RecipeID))
          = s.nutritions.map (fun x => (x.ID, x.RecipeID)) ∧
        updated.Nutrition = some (existing.overwrite n))) := by
  obtain ⟨hid, -, -, -, -, -⟩ := recipe_getByID_facts s recipeID recipe hget
  obtain ⟨aid, -, -, -, -, -⟩ := applyRecipeUpdate_facts recipe req
  obtain ⟨arating, acount, apublic, anone, asome⟩ := applyRecipeUpdate_scalars recipe req
  obtain ⟨hs1, uid, urating, ucount, upublic, unut⟩ :=
    updateRecipe_result s userID recipeID req recipe updated s1 hget h
  obtain ⟨hnutfind, -⟩ := recipe_getByID_nutrition s recipeID recipe hget
  have hrows := recipeRepository_update_nutritions s (recipeService.applyRecipeUpdate recipe req)
  rw [← hs1] at hrows
  refine ⟨⟨aid, arating, acount⟩, ⟨uid, urating.trans arating, ucount.trans acount⟩,
    fun hp => upublic.trans (apublic hp), ?_⟩
  intro hnil hkey
  -- the existing record, when there is one, is a row of the recipe with a non-nil id
  have hexisting : ∀ existing, recipe.Nutrition = some existing →
      existing ∈ s.nutritions ∧ existing.RecipeID = recipeID ∧
      (existing.ID == uuidNil) = false ∧
      s.nutritions.any (fun x => x.ID == existing.ID) = true ∧
      ∀ x ∈ s.nutritions, x.ID = existing.ID → x = existing := by
    intro existing he
    rw [hnutfind] at he
    have hmem := List.mem_of_find?_eq_some he
    have hp := List.find?_some he
    simp only [beq_iff_eq] at hp
    refine ⟨hmem, hp, ?_, ?_, ?_⟩
    · simpa using hnil existing hmem
    · exact List.any_eq_true.2 ⟨existing, hmem, by simp⟩
    · intro x hx hxid
      exact List.inj_on_of_nodup_map hkey hx hmem hxid
  refine ⟨?_, ?_⟩
  · intro hn
    have hsame : s1.nutritions = s.nutritions := by
      rw [hrows, anone hn]
      cases he : recipe.Nutrition with
      | none => rfl
      | some existing =>
        obtain ⟨hmem, hrid, hne, hany, hrep⟩ := hexisting existing he
        simp only [hne, Bool.false_eq_true, if_false, hany, if_true]
        have hback : ({ existing with
            RecipeID := (recipeService.applyRecipeUpdate recipe req).ID } : Nutrition)
            = existing := by
          rw [aid, hid, ← hrid]
        rw [hback]
        conv_rhs => rw [← List.map_id s.nutritions]
        apply List.map_congr_left
        intro x hx
        by_cases hxid : x.ID = existing.ID
        · simp [hxid, hrep x hx hxid]
        · simp [hxid]
    refine ⟨hsame, ?_⟩
    rw [unut, hsame, hnutfind]
  · intro n existing hn he
    obtain ⟨hmem, hrid, hne, hany, hrep⟩ := hexisting existing he
    have hback : ({ existing.overwrite n with
        RecipeID := (recipeService.applyRecipeUpdate recipe req).ID } : Nutrition)
        = existing.overwrite n := by
      rw [aid, hid, ← hrid]
      rfl
    have hmap : s1.nutritions
        = s.nutritions.map (fun x => if x.ID == existing.ID then existing.overwrite n else x) := by
      rw [hrows, asome n existing hn he]
      have hne2 : ((existing.overwrite n).ID == uuidNil) = false := hne
      have hany2 : s.nutritions.any (fun x => x.ID == (existing.overwrite n).ID) = true := hany
      simp only [hne2, Bool.false_eq_true, if_false, hany2, if_true, hback]
      rfl
    refine ⟨hmap, rfl, rfl, ?_, ?_⟩
    · rw [hmap]
      refine save_keeps_column (fun x : Nutrition => x.ID) (fun x : Nutrition => x.RecipeID)
        s.nutritions (existing.overwrite n) ?_
      intro x hx hxid
      show x.RecipeID = existing.RecipeID
      rw [hrep x hx hxid]
    · rw [unut, hmap]
      rw [hnutfind] at he
      exact find_after_replace (fun x => x.RecipeID == recipeID) existing (existing.overwrite n)
        (by show (existing.RecipeID == recipeID) = true; simp [hrid]) s.nutritions he hrep

/-- Witness for C29: user 10 updates recipe 1, which has the nutrition record 9
of 100 calories, with a request that carries 250 calories and no `is_public`:
the recipe keeps id 1, rating 5, one rating and its visibility, and record 9
now holds 250 calories. -/
theorem update_recipe_frame_witness :
    ∃ updated s1, recipeService.UpdateRecipe sampleNutritionStore 10 1 sampleNutritionRequest
        = (.ok updated, s1) ∧
      (updated.ID, updated.Rating, updated.RatingCount, updated.IsPublic) = (1, 5, 1, false) ∧
      s1.nutritions.map (fun x => (x.ID, x.RecipeID, x.Calories)) = [(9, 1, some 250)] :=
  have hget : recipeRepository.GetByID sampleNutritionStore 1
      = .ok { sampleRecipe with Nutrition := sampleNutritionStore.nutritions.head? } := rfl
  have hupd : recipeService.UpdateRecipe sampleNutritionStore 10 1 sampleNutritionRequest
      = (.ok _, _) := rfl
  have h := update_recipe_frame sampleNutritionStore 10 1 sampleNutritionRequest _ _ _ hget hupd
  ⟨_, _, hupd, by
    rw [Prod.mk.injEq, Prod.mk.injEq, Prod.mk.injEq]
    exact ⟨h.2.1.1, h.2.1.2.1, h.2.1.2.2, h.2.2.1 rfl⟩, by
    rw [(h.2.2.2 (by decide) (by decide)).2 _ _ rfl rfl |>.1]
    rfl⟩

end Yummio
